import Mathlib

/-!
# Saral-Backend: invoice totals, tax split, derived payment state, sequence counters, period
returns and the request handlers

A shallow embedding of `src/services/invoice.service.js` and
`src/services/gst_return.service.js` (with the counter use of
`src/services/employee.service.js`, the handlers of `src/controllers` for invoices, payments and
inventory, and the Mongoose models they touch).

Modelling conventions:

* a JavaScript number is an exact rational (`ℚ`); `NaN` and the infinities are outside the model;
  where the rounding of binary64 arithmetic decides a statement it is applied explicitly
  (`roundDouble`);
* a value that may be `null` or `undefined` is an `Option`;
* an ObjectId is a well-formed id string;
* a Mongo collection is the list of its documents, in insertion order;
* the calendar year read from the clock is a parameter;
* an operation that writes returns its result together with the collections after it;
* the writes of a session are applied by `commitTransaction` and dropped by `abortTransaction`.
-/

namespace Saral

/-! ## Constants and number helpers -/

def SUPPLY_INTRA : String := "intra"

def SUPPLY_INTER : String := "inter"

/-- Source `toDecimal`: `null`/`undefined` becomes `0`, a number keeps its value. -/
def toDecimal (n : Option ℚ) : ℚ :=
  match n with
  | none => 0
  | some q => q

/-- Source `asNumber`: `null`/`undefined` becomes `0`, a numeric value is itself. -/
def asNumber (value : Option ℚ) : ℚ :=
  match value with
  | none => 0
  | some q => q

/-- JavaScript `a || b` on optional strings: `a` when it is a non-empty string, else `b`. -/
def jsOr (a b : Option String) : Option String :=
  match a with
  | some s => if s = "" then b else some s
  | none => b

/-- JavaScript `a ?? b` on optional numbers. -/
def nullish (a b : Option ℚ) : Option ℚ :=
  match a with
  | some q => some q
  | none => b

/-- JavaScript truthiness of an optional string (the `Boolean` filter). -/
def truthy (a : Option String) : Bool :=
  match a with
  | some s => !(s == "")
  | none => false

/-! ## Tax split -/

structure TaxSplit where
  cgst : ℚ
  sgst : ℚ
  igst : ℚ
  deriving DecidableEq

/-- Source `splitTaxAmounts` (lines 38-50). -/
def splitTaxAmounts (taxableValue taxRate : ℚ) (supplyType : String) : TaxSplit :=
  let base := taxableValue
  let rate := taxRate
  let totalTax := (base * rate) / 100
  if totalTax = 0 then
    { cgst := 0, sgst := 0, igst := 0 }
  else if supplyType = SUPPLY_INTER then
    { cgst := 0, sgst := 0, igst := totalTax }
  else
    let half := totalTax / 2
    { cgst := half, sgst := half, igst := 0 }

/-! ## Totals -/

structure Totals where
  subTotal : ℚ
  discountTotal : ℚ
  cgstTotal : ℚ
  sgstTotal : ℚ
  igstTotal : ℚ
  deriving DecidableEq

structure FinalTotals where
  subTotal : ℚ
  discountTotal : ℚ
  cgstTotal : ℚ
  sgstTotal : ℚ
  igstTotal : ℚ
  taxTotal : ℚ
  shipping : ℚ
  grandTotal : ℚ
  deriving DecidableEq

def zeroTotals : Totals :=
  { subTotal := 0, discountTotal := 0, cgstTotal := 0, sgstTotal := 0, igstTotal := 0 }

/-- Source `finalizeTotals` (lines 71-81). -/
def finalizeTotals (baseTotals : Totals) (shipping discount : ℚ) : FinalTotals :=
  let taxTotal := baseTotals.cgstTotal + baseTotals.sgstTotal + baseTotals.igstTotal
  let shippingValue := shipping
  let discountValue := discount
  { subTotal := baseTotals.subTotal
    discountTotal := baseTotals.discountTotal
    cgstTotal := baseTotals.cgstTotal
    sgstTotal := baseTotals.sgstTotal
    igstTotal := baseTotals.igstTotal
    taxTotal := taxTotal
    shipping := shippingValue
    grandTotal :=
      baseTotals.subTotal - baseTotals.discountTotal + taxTotal + shippingValue - discountValue }

/-! ## Line items -/

/-- A requested line as the caller sends it; every field may be absent. -/
structure RawLine where
  productId : Option String := none
  item_id : Option String := none
  quantity : Option ℚ := none
  qty : Option ℚ := none
  unitPrice : Option ℚ := none
  unit_price : Option ℚ := none
  discount : Option ℚ := none
  taxRate : Option ℚ := none
  tax_rate : Option ℚ := none
  description : Option String := none
  name : Option String := none
  hsnSac : Option String := none
  hsn_sac_code : Option String := none
  hsn : Option String := none
  deriving DecidableEq

/-- The projection of an `Item` document that `prepareInvoiceLineItems` reads. -/
structure CatalogDoc where
  _id : String
  hsn_sac_code : Option String := none
  tax_rate : Option ℚ := none
  unit_price : Option ℚ := none
  name : Option String := none
  deriving DecidableEq

/-- A materialised line of an invoice. -/
structure Line where
  productId : Option String
  description : Option String
  quantity : ℚ
  unitPrice : ℚ
  discount : ℚ
  taxRate : ℚ
  hsnSac : Option String
  taxableValue : ℚ
  cgstAmount : ℚ
  sgstAmount : ℚ
  igstAmount : ℚ
  total : ℚ
  deriving DecidableEq

/-- The ids to hydrate (lines 91-98): truthy `productId || item_id`, without repeats. -/
def idsToHydrate (items : List RawLine) : List String :=
  ((items.map (fun it => jsOr it.productId it.item_id)).filter truthy).filterMap id |>.eraseDups

/-- The query `Item.find({ _id: { $in: ids } })` over the item collection. -/
def findItems (itemColl : List CatalogDoc) (ids : List String) : List CatalogDoc :=
  itemColl.filter (fun doc => ids.contains doc._id)

/-- Lookup in `new Map(docs.map(doc => [doc._id, doc]))`: a later entry overwrites. -/
def catalogGet (docs : List CatalogDoc) (id : String) : Option CatalogDoc :=
  (docs.filter (fun doc => doc._id == id)).getLast?

/-- The catalog built at lines 100-107. -/
def buildCatalog (itemColl : List CatalogDoc) (items : List RawLine) : List CatalogDoc :=
  let ids := idsToHydrate items
  if ids.length ≠ 0 then findItems itemColl ids else []

/-- The expression `productId ? catalog.get(productId.toString()) : null` (line 113). -/
def catalogEntryOf (catalog : List CatalogDoc) (productId : Option String) : Option CatalogDoc :=
  match productId with
  | some pid => catalogGet catalog pid
  | none => none

/-- The body of the `items.map` callback (lines 112-141), without the accumulation. -/
def mapLine (catalog : List CatalogDoc) (supplyType : String) (raw : RawLine) : Line :=
  let productId := jsOr raw.productId (jsOr raw.item_id none)
  let catalogEntry : Option CatalogDoc := catalogEntryOf catalog productId
  let quantity := (nullish raw.quantity (nullish raw.qty (some 0))).getD 0
  let unitPrice :=
    (nullish raw.unitPrice (nullish raw.unit_price
      (nullish (catalogEntry.bind (fun c => c.unit_price)) (some 0)))).getD 0
  let discount := (nullish raw.discount (some 0)).getD 0
  let taxRate :=
    (nullish raw.taxRate (nullish raw.tax_rate
      (nullish (catalogEntry.bind (fun c => c.tax_rate)) (some 0)))).getD 0
  let gross := quantity * unitPrice
  let taxableValue := max (gross - discount) 0
  let split := splitTaxAmounts taxableValue taxRate supplyType
  { productId := productId
    description :=
      jsOr raw.description (jsOr raw.name (jsOr (catalogEntry.bind (fun c => c.name)) (some "")))
    quantity := toDecimal (some quantity)
    unitPrice := toDecimal (some unitPrice)
    discount := toDecimal (some discount)
    taxRate := toDecimal (some taxRate)
    hsnSac :=
      jsOr raw.hsnSac (jsOr raw.hsn_sac_code (jsOr raw.hsn
        (catalogEntry.bind (fun c => c.hsn_sac_code))))
    taxableValue := toDecimal (some taxableValue)
    cgstAmount := toDecimal (some split.cgst)
    sgstAmount := toDecimal (some split.sgst)
    igstAmount := toDecimal (some split.igst)
    total := toDecimal (some (taxableValue + split.cgst + split.sgst + split.igst)) }

/-- The accumulation done by the callback (lines 122-126) for one materialised line. -/
def addLine (totals : Totals) (l : Line) : Totals :=
  { subTotal := totals.subTotal + l.quantity * l.unitPrice
    discountTotal := totals.discountTotal + l.discount
    cgstTotal := totals.cgstTotal + l.cgstAmount
    sgstTotal := totals.sgstTotal + l.sgstAmount
    igstTotal := totals.igstTotal + l.igstAmount }

structure Prepared where
  mappedItems : List Line
  totals : Totals
  deriving DecidableEq

/-- One iteration of `items.map` with its side effect on `totals`. -/
def prepareStep (catalog : List CatalogDoc) (supplyType : String)
    (acc : Prepared) (raw : RawLine) : Prepared :=
  let l := mapLine catalog supplyType raw
  { mappedItems := acc.mappedItems ++ [l], totals := addLine acc.totals l }

/-- Source `prepareInvoiceLineItems` (lines 83-145) for ids that the catalog query accepts.
The promise it returns is an `Except`: the source has no `throw` on this path and the catalog
query is a lookup in the item collection. The cast of the ids by the query, which can throw, is
added in `prepareInvoiceLineItemsCast`. -/
def prepareInvoiceLineItems (itemColl : List CatalogDoc) (items : List RawLine)
    (supplyType : String) : Except String Prepared :=
  if items.length = 0 then
    .ok { mappedItems := [], totals := zeroTotals }
  else
    let catalog := buildCatalog itemColl items
    .ok (items.foldl (prepareStep catalog supplyType) { mappedItems := [], totals := zeroTotals })

/-- A string of 24 hexadecimal digits: the strings that every ObjectId cast accepts. -/
def isObjectIdHex (s : String) : Bool :=
  s.length == 24 &&
    s.all (fun c => c.isDigit || ('a' ≤ c && c ≤ 'f') || ('A' ≤ c && c ≤ 'F'))

/-- Source `prepareInvoiceLineItems` (lines 83-145) with the cast of its query. The query
`Item.find({ _id: { $in: idsToHydrate } })` (line 102) casts every id to an ObjectId before it
is sent and throws a CastError when an id cannot be cast; the function has no `try`, so its
promise is rejected. `castable` is the test of the cast; it holds of every string of 24
hexadecimal digits. -/
def prepareInvoiceLineItemsCast (castable : String → Bool) (itemColl : List CatalogDoc)
    (items : List RawLine) (supplyType : String) : Except String Prepared :=
  if (idsToHydrate items).all castable then prepareInvoiceLineItems itemColl items supplyType
  else .error "Cast to ObjectId failed"

/-- A stored invoice line as `calculateTotals` reads it (each field through `asNumber`). -/
structure InvoiceItem where
  quantity : Option ℚ := none
  unitPrice : Option ℚ := none
  discount : Option ℚ := none
  taxRate : Option ℚ := none
  taxableValue : Option ℚ := none
  cgstAmount : Option ℚ := none
  sgstAmount : Option ℚ := none
  igstAmount : Option ℚ := none
  deriving DecidableEq

/-- One iteration of the `for` loop of `calculateTotals` (lines 165-188). -/
def calcStep (supplyType : String) (totals : Totals) (it : InvoiceItem) : Totals :=
  let quantity := asNumber it.quantity
  let unitPrice := asNumber it.unitPrice
  let itemDiscount := asNumber it.discount
  let taxRate := asNumber it.taxRate
  let taxableValue :=
    if asNumber it.taxableValue ≠ 0 then asNumber it.taxableValue
    else max (quantity * unitPrice - itemDiscount) 0
  let cgst := asNumber it.cgstAmount
  let sgst := asNumber it.sgstAmount
  let igst := asNumber it.igstAmount
  let split : TaxSplit :=
    if cgst = 0 ∧ sgst = 0 ∧ igst = 0 then splitTaxAmounts taxableValue taxRate supplyType
    else { cgst := cgst, sgst := sgst, igst := igst }
  { subTotal := totals.subTotal + quantity * unitPrice
    discountTotal := totals.discountTotal + itemDiscount
    cgstTotal := totals.cgstTotal + split.cgst
    sgstTotal := totals.sgstTotal + split.sgst
    igstTotal := totals.igstTotal + split.igst }

/-- Source `calculateTotals` (lines 162-191). -/
def calculateTotals (items : List InvoiceItem) (shipping discount : ℚ)
    (supplyType : String) : FinalTotals :=
  finalizeTotals (items.foldl (calcStep supplyType) zeroTotals) shipping discount

/-! ## Stored invoices, the payment ledger and the derived payment state -/

/-- An address object, of which the services read the state only. -/
structure Address where
  state : Option String := none
  deriving DecidableEq

/-- A stored `Invoice` document (`src/models/invoice.model.js`); dates are timestamps in
milliseconds, decimal fields may be missing. -/
structure InvoiceDoc where
  _id : String
  organizationId : Option String := none
  invoiceNumber : String := ""
  invoiceDate : Int := 0
  status : String := "Draft"
  customerId : String := ""
  grandTotal : Option ℚ := none
  amountPaid : Option ℚ := none
  balanceDue : Option ℚ := none
  paymentStatus : String := "Unpaid"
  isDeleted : Bool := false
  dueDate : Option Int := none
  currency : String := "INR"
  notes : Option String := none
  customerName : Option String := none
  customerGSTIN : Option String := none
  billingAddress : Option Address := none
  shippingAddress : Option Address := none
  placeOfSupply : Option String := none
  supplyType : String := "intra"
  gstTreatment : String := "b2b"
  items : List Line := []
  subTotal : Option ℚ := none
  taxAmount : Option ℚ := none
  cgstTotal : Option ℚ := none
  sgstTotal : Option ℚ := none
  igstTotal : Option ℚ := none
  discountTotal : Option ℚ := none
  shippingCharge : Option ℚ := none
  paymentMethod : Option String := none
  paymentDate : Option Int := none
  transactionId : Option String := none
  paymentNotes : Option String := none
  deriving DecidableEq

/-- A `Payment` document: the invoice it is recorded against and the amount received. -/
structure Payment where
  invoice_id : String
  amount_received : ℚ
  deriving DecidableEq

/-- One output document of the `$group` stage: `{ _id, total }`. -/
structure PaidGroup where
  _id : String
  total : ℚ
  deriving DecidableEq

/-- The `$group` accumulator: add a payment to the group of its invoice, opening one if needed. -/
def addToGroup (groups : List PaidGroup) (p : Payment) : List PaidGroup :=
  match groups with
  | [] => [{ _id := p.invoice_id, total := p.amount_received }]
  | g :: gs =>
    if g._id = p.invoice_id then { _id := g._id, total := g.total + p.amount_received } :: gs
    else g :: addToGroup gs p

/-- The stage `{ $group: { _id: '$invoice_id', total: { $sum: '$amount_received' } } }`. -/
def groupByInvoice (matched : List Payment) : List PaidGroup :=
  matched.foldl addToGroup []

/-- JavaScript `x || 0` on a possibly missing number. -/
def orZero (x : Option ℚ) : ℚ :=
  match x with
  | some q => if q = 0 then 0 else q
  | none => 0

/-- The status expression `realPaid >= grand ? 'Paid' : realPaid > 0 ? 'Partial' : 'Unpaid'`. -/
def derivedStatus (realPaid grand : ℚ) : String :=
  if realPaid ≥ grand then "Paid" else if realPaid > 0 then "Partial" else "Unpaid"

/-- The query `Invoice.findById(id)`. -/
def findById (invoices : List InvoiceDoc) (id : String) : Option InvoiceDoc :=
  invoices.find? (fun d => d._id == id)

/-- Source `getInvoiceById` (lines 290-310); `none` is the `null` of a missing invoice. -/
def getInvoiceById (invoices : List InvoiceDoc) (payments : List Payment) (id : String) :
    Option InvoiceDoc :=
  match findById invoices id with
  | none => none
  | some doc =>
    let paidAgg := groupByInvoice (payments.filter (fun p => p.invoice_id == doc._id))
    let realPaid := orZero (paidAgg.head?.map (fun g => g.total))
    let grand := asNumber doc.grandTotal
    some { doc with
      amountPaid := some realPaid
      balanceDue := some (max 0 (grand - realPaid))
      paymentStatus := derivedStatus realPaid grand }

/-- The `filters` option of `listInvoices`; dates are timestamps. -/
structure Filters where
  status : Option String := none
  customerId : Option String := none
  fromDate : Option Int := none
  toDate : Option Int := none
  deriving DecidableEq

/-- The caller's `query` object. The repository's only caller passes `{}`; the model admits the
organization scope its comment announces and an override of the `isDeleted` default. -/
structure Query where
  isDeleted : Option Bool := none
  organizationId : Option String := none
  deriving DecidableEq

/-- Whether a stored invoice satisfies the filter object `q` built at lines 315-324. -/
def matchesQuery (query : Query) (filters : Filters) (d : InvoiceDoc) : Bool :=
  (d.isDeleted == query.isDeleted.getD false)
  && (match query.organizationId with
      | some o => d.organizationId == some o
      | none => true)
  && (if truthy filters.status then some d.status == filters.status else true)
  && (if truthy filters.customerId then some d.customerId == filters.customerId else true)
  && (match filters.fromDate with
      | some f => decide (f ≤ d.invoiceDate)
      | none => true)
  && (match filters.toDate with
      | some t => decide (d.invoiceDate ≤ t)
      | none => true)

/-- The default sort `{ invoiceDate: -1 }`: newest first; documents of equal date keep their
collection order. -/
def newestFirst (a b : InvoiceDoc) : Bool := decide (b.invoiceDate ≤ a.invoiceDate)

/-- Lookup in `new Map(payments.map(p => [String(p._id), p.total]))`. -/
def idToPaidGet (groups : List PaidGroup) (id : String) : Option ℚ :=
  ((groups.filter (fun g => g._id == id)).getLast?).map (fun g => g.total)

/-- The body of the loop at lines 343-349: overwrite the three payment fields of one document. -/
def deriveListed (groups : List PaidGroup) (d : InvoiceDoc) : InvoiceDoc :=
  let realPaid := orZero (idToPaidGet groups d._id)
  let grand := asNumber d.grandTotal
  { d with
    amountPaid := some realPaid
    balanceDue := some (max 0 (grand - realPaid))
    paymentStatus := derivedStatus realPaid grand }

structure InvoicePage where
  data : List InvoiceDoc
  total : Nat
  page : Nat
  limit : Nat
  deriving DecidableEq

/-- Source `listInvoices` (lines 312-353), called as the controller calls it: with the default
sort and the options `page`, `limit` and `filters`. A negative skip (page `0` with a positive
limit) is rejected by the database; a limit of `0` means no limit. -/
def listInvoices (invoices : List InvoiceDoc) (payments : List Payment) (query : Query)
    (page limit : Nat) (filters : Filters) : Except String InvoicePage :=
  if page = 0 ∧ limit ≠ 0 then
    .error "Skip value must be non-negative"
  else
    let skip := (page - 1) * limit
    let found := invoices.filter (matchesQuery query filters)
    let sorted := found.mergeSort newestFirst
    let skipped := sorted.drop skip
    let docs := if limit = 0 then skipped else skipped.take limit
    let total := found.length
    let ids := docs.map (fun d => d._id)
    if ids.length > 0 then
      let payments := groupByInvoice (payments.filter (fun p => ids.contains p.invoice_id))
      .ok { data := docs.map (deriveListed payments), total := total, page := page, limit := limit }
    else
      .ok { data := docs, total := total, page := page, limit := limit }

/-! ## Sequence counters -/

/-- A `Counter` document (`src/models/counter.model.js`). -/
structure CounterDoc where
  key : String
  seq : Nat
  deriving DecidableEq

/-- The call `Counter.findOneAndUpdate({ key }, { $inc: { seq: 1 } }, { new: true, upsert: true })`:
one atomic database operation that returns the updated document and the new collection. -/
def findOneAndUpdateInc (store : List CounterDoc) (key : String) : CounterDoc × List CounterDoc :=
  match store with
  | [] => ({ key := key, seq := 1 }, [{ key := key, seq := 1 }])
  | d :: ds =>
    if d.key = key then
      ({ key := d.key, seq := d.seq + 1 }, { key := d.key, seq := d.seq + 1 } :: ds)
    else
      let r := findOneAndUpdateInc ds key
      (r.1, d :: r.2)

/-- The counter stored under a key, if any. -/
def seqOf (store : List CounterDoc) (key : String) : Option Nat :=
  match store with
  | [] => none
  | d :: ds => if d.key = key then some d.seq else seqOf ds key

/-- JavaScript `s.padStart(n, '0')`. -/
def padStart (s : String) (n : Nat) : String :=
  String.mk (List.replicate (n - s.length) '0') ++ s

/-- The expression `organizationId || 'global'`. -/
def orgOrGlobal (organizationId : Option String) : String :=
  (jsOr organizationId (some "global")).getD "global"

def invoiceKey (organizationId : Option String) (year : Nat) : String :=
  "invoice_" ++ orgOrGlobal organizationId ++ "_" ++ toString year

def employeeKey (organizationId : Option String) (year : Nat) : String :=
  "employee_" ++ orgOrGlobal organizationId ++ "_" ++ toString year

/-- The formatting of a document number: `PREFIX-YEAR-` and the sequence padded to 4 digits. -/
def formatNumber (pre : String) (year seq : Nat) : String :=
  pre ++ "-" ++ toString year ++ "-" ++ padStart (toString seq) 4

/-- Source `generateInvoiceNumber` (lines 147-160): the number and the store after the call. -/
def generateInvoiceNumber (store : List CounterDoc) (organizationId : Option String)
    (year : Nat) : String × List CounterDoc :=
  let key := invoiceKey organizationId year
  let r := findOneAndUpdateInc store key
  let updated := r.1
  (formatNumber "INV" year updated.seq, r.2)

/-- Source `generateEmployeeId` (`employee.service.js`, lines 11-21). -/
def generateEmployeeId (store : List CounterDoc) (organizationId : Option String)
    (year : Nat) : String × List CounterDoc :=
  let key := employeeKey organizationId year
  let r := findOneAndUpdateInc store key
  let counter := r.1
  (formatNumber "EMP" year counter.seq, r.2)

/-- The numbers returned by `n` successive calls of a generator, oldest first. -/
def successive (gen : List CounterDoc → String × List CounterDoc) :
    Nat → List CounterDoc → List String
  | 0, _ => []
  | n + 1, store => (gen store).1 :: successive gen n (gen store).2

/-! ## Concurrent allocations

Each in-flight call of `generateInvoiceNumber` is a small process: it awaits the one database
operation, then formats the number locally. A schedule names, step by step, the call that runs
next; the database operation is the only step that touches shared state. -/

inductive CallState where
  | waiting
  | received (seq : Nat)
  | returned (seq : Nat) (number : String)
  deriving DecidableEq

structure SysState where
  store : List CounterDoc
  calls : List CallState
  deriving DecidableEq

/-- The sequence number a call holds, once the database has answered it. -/
def CallState.seq? : CallState → Option Nat
  | .waiting => none
  | .received n => some n
  | .returned n _ => some n

/-- One step of call `i` of `generateInvoiceNumber(organizationId)` in year `year`. -/
def stepCall (organizationId : Option String) (year : Nat) (s : SysState) (i : Nat) : SysState :=
  match s.calls[i]? with
  | some .waiting =>
    let r := findOneAndUpdateInc s.store (invoiceKey organizationId year)
    { store := r.2, calls := s.calls.set i (.received r.1.seq) }
  | some (.received n) =>
    { store := s.store, calls := s.calls.set i (.returned n (formatNumber "INV" year n)) }
  | _ => s

/-- Run a schedule from a state. -/
def runSchedule (organizationId : Option String) (year : Nat) (s : SysState)
    (schedule : List Nat) : SysState :=
  schedule.foldl (stepCall organizationId year) s

/-- Initially `n` calls have been issued and none has reached the database. -/
def initState (store : List CounterDoc) (n : Nat) : SysState :=
  { store := store, calls := List.replicate n .waiting }

/-- The sequence number held by call `i` in a state, if the database has answered it. -/
def seqAt (s : SysState) (i : Nat) : Option Nat :=
  (s.calls[i]?).bind CallState.seq?

/-- How far a call has got: 0 waiting, 1 answered by the database, 2 returned. -/
def CallState.progress : CallState → Nat
  | .waiting => 0
  | .received _ => 1
  | .returned _ _ => 2

/-- The counter of the key the concurrent calls allocate from. -/
def current (organizationId : Option String) (year : Nat) (s : SysState) : Nat :=
  (seqOf s.store (invoiceKey organizationId year)).getD 0

/-- The invariant of the interleaved runs: every number handed out is at most the counter, and
no two calls hold the same number. -/
def Distinct (organizationId : Option String) (year : Nat) (s : SysState) : Prop :=
  (∀ k n, seqAt s k = some n → n ≤ current organizationId year s)
  ∧ (∀ k j n, k ≠ j → seqAt s k = some n → seqAt s j ≠ some n)

/-- A returned call carries the formatting of the number it received. -/
def Formatted (year : Nat) (s : SysState) : Prop :=
  ∀ (k a : Nat) (str : String),
    s.calls[k]? = some (CallState.returned a str) → str = formatNumber "INV" year a

/-! ## Specification-side helpers and sample data -/

/-- Forget the three cached payment fields of a stored invoice. -/
def eraseCached (d : InvoiceDoc) : InvoiceDoc :=
  { d with amountPaid := none, balanceDue := none, paymentStatus := "" }

/-- The settlement scenario: one invoice of grand total 384. -/
def sampleInvoices : List InvoiceDoc := [{ _id := "inv1", grandTotal := some 384 }]

/-- The same invoice with stale cached payment fields. -/
def staleInvoices : List InvoiceDoc :=
  [{ _id := "inv1", grandTotal := some 384, amountPaid := some 999, balanceDue := some 5,
     paymentStatus := "Partial" }]

/-- The settlement scenario: ledger entries 200 then 184. -/
def sampleLedger : List Payment :=
  [{ invoice_id := "inv1", amount_received := 200 },
   { invoice_id := "inv1", amount_received := 184 }]

/-- The tax-split scenario: price 100, quantity 2, rate 18, no discount. -/
def sampleLine : RawLine :=
  { productId := some "p1", quantity := some 2, unitPrice := some 100, taxRate := some 18 }

/-! ## Supply type resolution -/

/-- The characters JavaScript's `trim` removes (white space and line terminators). -/
def jsIsWhiteSpace (c : Char) : Bool :=
  let n := c.toNat
  (9 ≤ n && n ≤ 13) || n == 32 || n == 160 || n == 5760 || (8192 ≤ n && n ≤ 8202)
    || n == 8232 || n == 8233 || n == 8239 || n == 8287 || n == 12288 || n == 65279

/-- JavaScript `s.trim()`. -/
def jsTrim (s : String) : String :=
  String.mk ((s.toList.dropWhile jsIsWhiteSpace).reverse.dropWhile jsIsWhiteSpace).reverse

/-- JavaScript `s.toLowerCase()` on the ASCII letters; other characters are kept. -/
def jsToLowerCase (s : String) : String :=
  String.mk (s.toList.map Char.toLower)

/-- Source `determineSupplyType` (lines 52-57); a missing state is `none`. -/
def determineSupplyType (originState destinationState : Option String) : String :=
  if !(truthy originState) || !(truthy destinationState) then SUPPLY_INTRA
  else
    let origin := jsToLowerCase (jsTrim (originState.getD ""))
    let destination := jsToLowerCase (jsTrim (destinationState.getD ""))
    if origin = destination then SUPPLY_INTRA else SUPPLY_INTER

/-- The part of the `createInvoice` payload and of the customer document that
`resolvePlaceOfSupply` reads. -/
structure PlacePayload where
  placeOfSupply : Option String := none
  place_of_supply : Option String := none
  shippingAddress : Option Address := none
  billingAddress : Option Address := none
  deriving DecidableEq

structure CustomerDoc where
  place_of_supply : Option String := none
  addresses : List Address := []
  gstin : Option String := none
  deriving DecidableEq

/-- Source `resolvePlaceOfSupply` (lines 59-69). -/
def resolvePlaceOfSupply (payload : PlacePayload) (customerDoc : Option CustomerDoc) : String :=
  (jsOr payload.placeOfSupply
    (jsOr payload.place_of_supply
      (jsOr (payload.shippingAddress.bind (fun a => a.state))
        (jsOr (payload.billingAddress.bind (fun a => a.state))
          (jsOr (customerDoc.bind (fun c => c.place_of_supply))
            (jsOr ((customerDoc.bind (fun c => c.addresses.head?)).bind (fun a => a.state))
              (some ""))))))).getD ""

/-- The supply type `createInvoice` uses (line 217):
`payload.supplyType || determineSupplyType(organization?.address?.state, placeOfSupply)`. -/
def resolveSupplyType (payloadSupplyType : Option String) (organizationState : Option String)
    (placeOfSupply : String) : String :=
  (jsOr payloadSupplyType
    (some (determineSupplyType organizationState (some placeOfSupply)))).getD ""

/-! ## Cached balance: `markInvoiceAsPaid`, `updateInvoice`, `deleteInvoice` -/

/-- A stored line as `calculateTotals` reads it from `inv.items`. -/
def Line.toItem (l : Line) : InvoiceItem :=
  { quantity := some l.quantity
    unitPrice := some l.unitPrice
    discount := some l.discount
    taxRate := some l.taxRate
    taxableValue := some l.taxableValue
    cgstAmount := some l.cgstAmount
    sgstAmount := some l.sgstAmount
    igstAmount := some l.igstAmount }

/-- The call `inv.save()`: the stored document of that `_id` is rewritten (`_id` is unique in a
collection). Casting and schema validation by Mongoose are outside the model. -/
def saveInvoice (invoices : List InvoiceDoc) (inv : InvoiceDoc) : List InvoiceDoc :=
  invoices.map (fun d => if d._id = inv._id then inv else d)

/-- The `paymentInfo` argument of `markInvoiceAsPaid`. -/
structure PaymentInfo where
  paymentDate : Option Int := none
  transactionId : Option String := none
  method : Option String := none
  notes : Option String := none
  deriving DecidableEq

/-- The body of `markInvoiceAsPaid` on the loaded invoice (lines 359-368); `now` is the clock. -/
def markPaidDoc (inv : InvoiceDoc) (amount : Option ℚ) (paymentInfo : PaymentInfo)
    (now : Int) : InvoiceDoc :=
  let paid := asNumber inv.amountPaid + orZero amount
  let amountPaid := toDecimal (some paid)
  let balanceDue := toDecimal (some (asNumber inv.grandTotal - paid))
  let paymentStatus :=
    if asNumber (some balanceDue) ≤ 0 then "Paid"
    else if asNumber (some amountPaid) > 0 then "Partial"
    else inv.paymentStatus
  { inv with
    amountPaid := some amountPaid
    balanceDue := some balanceDue
    paymentDate := some (match paymentInfo.paymentDate with
      | some d => d
      | none => now)
    transactionId := paymentInfo.transactionId
    paymentMethod := paymentInfo.method
    paymentNotes := paymentInfo.notes
    paymentStatus := paymentStatus }

/-- Source `markInvoiceAsPaid` (lines 355-372): the saved invoice and the collection after. -/
def markInvoiceAsPaid (invoices : List InvoiceDoc) (invoiceId : String) (amount : Option ℚ)
    (paymentInfo : PaymentInfo) (now : Int) : Except String (InvoiceDoc × List InvoiceDoc) :=
  match findById invoices invoiceId with
  | none => .error "Invoice not found"
  | some inv =>
    let inv1 := markPaidDoc inv amount paymentInfo now
    .ok (inv1, saveInvoice invoices inv1)

/-- The payload of `updateInvoice`: the updatable keys, each possibly `undefined`. -/
structure UpdatePayload where
  invoiceDate : Option Int := none
  dueDate : Option Int := none
  status : Option String := none
  currency : Option String := none
  notes : Option String := none
  customerId : Option String := none
  customerName : Option String := none
  billingAddress : Option Address := none
  shippingAddress : Option Address := none
  placeOfSupply : Option String := none
  gstTreatment : Option String := none
  customerGSTIN : Option String := none
  supplyType : Option String := none
  items : Option (List RawLine) := none
  shippingCharge : Option ℚ := none
  amountPaid : Option ℚ := none
  deriving DecidableEq

/-- JavaScript `typeof v !== 'undefined' ? v : old` for an optional document field. -/
def assignOpt {α : Type} (old v : Option α) : Option α :=
  match v with
  | some x => some x
  | none => old

/-- The loop over `updatable` (lines 386-388), the `items` key apart: it is rewritten by the
materialised lines right after (lines 394-396). -/
def applyUpdatable (inv : InvoiceDoc) (payload : UpdatePayload) : InvoiceDoc :=
  { inv with
    invoiceDate := payload.invoiceDate.getD inv.invoiceDate
    dueDate := assignOpt inv.dueDate payload.dueDate
    status := payload.status.getD inv.status
    currency := payload.currency.getD inv.currency
    notes := assignOpt inv.notes payload.notes
    customerId := payload.customerId.getD inv.customerId
    customerName := assignOpt inv.customerName payload.customerName
    billingAddress := assignOpt inv.billingAddress payload.billingAddress
    shippingAddress := assignOpt inv.shippingAddress payload.shippingAddress
    placeOfSupply := assignOpt inv.placeOfSupply payload.placeOfSupply
    gstTreatment := payload.gstTreatment.getD inv.gstTreatment
    customerGSTIN := assignOpt inv.customerGSTIN payload.customerGSTIN
    supplyType := payload.supplyType.getD inv.supplyType
    shippingCharge := assignOpt inv.shippingCharge payload.shippingCharge
    amountPaid := assignOpt inv.amountPaid payload.amountPaid }

/-- Lines 410-419: store the recomputed totals. -/
def storeTotals (inv : InvoiceDoc) (t : FinalTotals) : InvoiceDoc :=
  { inv with
    subTotal := some (toDecimal (some t.subTotal))
    discountTotal := some (toDecimal (some t.discountTotal))
    cgstTotal := some (toDecimal (some t.cgstTotal))
    sgstTotal := some (toDecimal (some t.sgstTotal))
    igstTotal := some (toDecimal (some t.igstTotal))
    taxAmount := some (toDecimal (some t.taxTotal))
    shippingCharge := some (toDecimal (some t.shipping))
    grandTotal := some (toDecimal (some t.grandTotal)) }

/-- Lines 421-428: recompute the balance and the status from the stored amounts. -/
def recomputeBalance (inv : InvoiceDoc) : InvoiceDoc :=
  let paid := asNumber inv.amountPaid
  let balanceDue := toDecimal (some (asNumber inv.grandTotal - paid))
  { inv with
    balanceDue := some balanceDue
    paymentStatus :=
      if asNumber (some balanceDue) ≤ 0 then "Paid"
      else if paid > 0 then "Partial"
      else "Unpaid" }

/-- The body of `updateInvoice` on the loaded invoice (lines 379-428). -/
def updateDoc (itemColl : List CatalogDoc) (inv : InvoiceDoc) (payload : UpdatePayload) :
    Except String InvoiceDoc :=
  let inv1 := applyUpdatable inv payload
  let supplyType := if inv1.supplyType = "" then SUPPLY_INTRA else inv1.supplyType
  let shippingValue :=
    match payload.shippingCharge with
    | some v => v
    | none => asNumber inv1.shippingCharge
  let recomputed : Except String InvoiceDoc :=
    match payload.items with
    | some rawItems =>
      match prepareInvoiceLineItems itemColl rawItems supplyType with
      | .error e => .error e
      | .ok p =>
        .ok (storeTotals { inv1 with items := p.mappedItems }
          (finalizeTotals p.totals shippingValue 0))
    | none =>
      match payload.shippingCharge with
      | some _ =>
        .ok (storeTotals inv1
          (calculateTotals (inv1.items.map Line.toItem) shippingValue 0 supplyType))
      | none => .ok inv1
  match recomputed with
  | .error e => .error e
  | .ok inv2 =>
    match payload.amountPaid with
    | some _ => .ok (recomputeBalance inv2)
    | none => .ok inv2

/-- Source `updateInvoice` (lines 374-432): the saved invoice and the collection after. -/
def updateInvoice (itemColl : List CatalogDoc) (invoices : List InvoiceDoc)
    (invoiceId : String) (payload : UpdatePayload) :
    Except String (InvoiceDoc × List InvoiceDoc) :=
  match findById invoices invoiceId with
  | none => .error "Invoice not found"
  | some inv =>
    match updateDoc itemColl inv payload with
    | .error e => .error e
    | .ok inv1 => .ok (inv1, saveInvoice invoices inv1)

/-- Source `deleteInvoice` (lines 434-440): the collection after the soft delete. -/
def deleteInvoice (invoices : List InvoiceDoc) (invoiceId : String) :
    Except String (List InvoiceDoc) :=
  match findById invoices invoiceId with
  | none => .error "Invoice not found"
  | some inv => .ok (saveInvoice invoices { inv with isDeleted := true })

/-! ## Dates

A date is its time value: milliseconds since the epoch, an unbounded integer (the range limit
of JavaScript dates is outside the model). The local time zone is a fixed offset `tza` in
milliseconds (no daylight saving). The day and year arithmetic follows ECMAScript. -/

def msPerDay : Int := 86400000

/-- ECMAScript `DayFromYear`: the day number of the first day of year `y`. -/
def dayFromYear (y : Int) : Int :=
  365 * (y - 1970) + (y - 1969) / 4 - (y - 1901) / 100 + (y - 1601) / 400

/-- ECMAScript `InLeapYear`, as a flag. -/
def inLeapYear (y : Int) : Bool :=
  (y % 4 == 0 && y % 100 != 0) || y % 400 == 0

/-- ECMAScript `YearFromTime` on day numbers: the year whose first day is the latest one not
after `d`, found from the mean year length and corrected by at most one. -/
def yearFromDay (d : Int) : Int :=
  let y := 1970 + (400 * d) / 146097
  if dayFromYear (y + 1) ≤ d then y + 1
  else if dayFromYear y ≤ d then y
  else y - 1

/-- The number of days of a year before its month `m` (0 = January); 12 gives the length of
the year. -/
def daysBeforeMonth (leap : Bool) (m : Int) : Int :=
  let l : Int := if leap then 1 else 0
  if m ≤ 0 then 0
  else if m = 1 then 31
  else if m = 2 then 59 + l
  else if m = 3 then 90 + l
  else if m = 4 then 120 + l
  else if m = 5 then 151 + l
  else if m = 6 then 181 + l
  else if m = 7 then 212 + l
  else if m = 8 then 243 + l
  else if m = 9 then 273 + l
  else if m = 10 then 304 + l
  else if m = 11 then 334 + l
  else 365 + l

/-- ECMAScript `MonthFromTime` on day numbers (0 = January). -/
def monthFromDay (d : Int) : Int :=
  let y := yearFromDay d
  let dw := d - dayFromYear y
  let l : Int := if inLeapYear y then 1 else 0
  if dw < 31 then 0
  else if dw < 59 + l then 1
  else if dw < 90 + l then 2
  else if dw < 120 + l then 3
  else if dw < 151 + l then 4
  else if dw < 181 + l then 5
  else if dw < 212 + l then 6
  else if dw < 243 + l then 7
  else if dw < 273 + l then 8
  else if dw < 304 + l then 9
  else if dw < 334 + l then 10
  else 11

/-- ECMAScript `MakeDay(year, month, date)`: months beyond 0..11 carry into the year, the date
is an offset from the first of the month. -/
def makeDay (year month date : Int) : Int :=
  let ym := year + month / 12
  let mn := month % 12
  dayFromYear ym + daysBeforeMonth (inLeapYear ym) mn + date - 1

/-- ECMAScript `MakeTime`. -/
def makeTime (hour min sec ms : Int) : Int :=
  hour * 3600000 + min * 60000 + sec * 1000 + ms

/-- The constructor `new Date(year, month, date, hours, minutes, seconds, ms)` in local time;
a year from 0 to 99 means 1900 + year. -/
def newDate (tza : Int) (year month date hour min sec ms : Int) : Int :=
  let yr := if 0 ≤ year ∧ year ≤ 99 then 1900 + year else year
  makeDay yr month date * msPerDay + makeTime hour min sec ms - tza

/-- The local day number of a time value. -/
def localDay (tza : Int) (t : Int) : Int := (t + tza) / msPerDay

/-- JavaScript `date.getFullYear()`. -/
def getFullYear (tza : Int) (t : Int) : Int := yearFromDay (localDay tza t)

/-- JavaScript `date.getMonth()`. -/
def getMonth (tza : Int) (t : Int) : Int := monthFromDay (localDay tza t)

/-- Source `startOfMonth` (line 23). -/
def startOfMonth (tza : Int) (date : Int) : Int :=
  newDate tza (getFullYear tza date) (getMonth tza date) 1 0 0 0 0

/-- Source `endOfMonth` (line 24). -/
def endOfMonth (tza : Int) (date : Int) : Int :=
  newDate tza (getFullYear tza date) (getMonth tza date + 1) 0 23 59 59 999

/-- Source `formatPeriod` (line 25). -/
def formatPeriod (tza : Int) (date : Int) : String :=
  toString (getFullYear tza date) ++ "-" ++ padStart (toString (getMonth tza date + 1)) 2

/-- The value of a string of decimal digits (`Number` on a match of `\d+`). -/
def digitsToNat (cs : List Char) : Nat :=
  cs.foldl (fun n c => 10 * n + (c.toNat - 48)) 0

/-- The test `/^\d{4}-\d{2}$/` and the split into year and month (lines 31-32). -/
def parseLabel (s : String) : Option (Nat × Nat) :=
  match s.toList with
  | [a, b, c, d, sep, e, f] =>
    if a.isDigit && b.isDigit && c.isDigit && d.isDigit && sep == '-' && e.isDigit && f.isDigit
    then some (digitsToNat [a, b, c, d], digitsToNat [e, f])
    else none
  | _ => none

structure PeriodWindow where
  periodLabel : String
  start : Int
  end_ : Int
  deriving DecidableEq

/-- Source `resolvePeriodWindow` (lines 27-51). `now` is the clock and `parseDate` the date
parser of `new Date(string)`, `none` for an invalid date. -/
def resolvePeriodWindow (tza now : Int) (parseDate : String → Option Int)
    (periodInput : Option String) : PeriodWindow :=
  let baseDate : Int :=
    if truthy periodInput then
      match parseLabel (periodInput.getD "") with
      | some (year, month) => newDate tza year ((month : Int) - 1) 1 0 0 0 0
      | none =>
        match parseDate (periodInput.getD "") with
        | some t => t
        | none => now
    else now
  let start := startOfMonth tza baseDate
  let end_ := endOfMonth tza baseDate
  let periodLabel := formatPeriod tza start
  { periodLabel := periodLabel, start := start, end_ := end_ }

/-! ## Period aggregation (`src/services/gst_return.service.js`) -/

/-- Source `coerceNumber`: `null`/`undefined` becomes `0`, a numeric value is itself. -/
def coerceNumber (value : Option ℚ) : ℚ :=
  match value with
  | none => 0
  | some q => q

/-- Whether a string is the canonical form of an ObjectId: 24 hexadecimal digits. -/
def isValidObjectId (s : String) : Bool :=
  s.length == 24 && s.toList.all (fun c => c.isDigit || ('a' ≤ c && c ≤ 'f') || ('A' ≤ c && c ≤ 'F'))

/-- Source `toObjectId`: `null` for a missing or malformed id. -/
def toObjectId (value : Option String) : Option String :=
  match value with
  | some v => if truthy (some v) && isValidObjectId v then some v else none
  | none => none

/-- The filter `{ organizationId, isDeleted: { $ne: true }, invoiceDate: { $gte, $lte } }`; an
organization of `null` matches the invoices without one. -/
def matchesPeriod (organizationId : Option String) (start end_ : Int) (d : InvoiceDoc) : Bool :=
  (d.organizationId == organizationId) && (d.isDeleted != true)
    && decide (start ≤ d.invoiceDate) && decide (d.invoiceDate ≤ end_)

/-- One row of the grouping by invoice status. -/
structure StatusRow where
  _id : String
  invoices : Nat
  value : ℚ
  deriving DecidableEq

/-- The `$group` accumulator of the grouping by `$status`. -/
def addToStatusRows (rows : List StatusRow) (d : InvoiceDoc) : List StatusRow :=
  match rows with
  | [] => [{ _id := d.status, invoices := 1, value := coerceNumber d.grandTotal }]
  | r :: rs =>
    if r._id = d.status then
      { _id := r._id, invoices := r.invoices + 1, value := r.value + coerceNumber d.grandTotal }
        :: rs
    else r :: addToStatusRows rs d

structure StatusBucket where
  count : Nat
  value : ℚ
  deriving DecidableEq

/-- The assignment `bucketMap[key] = bucket` on an object kept as an association list. -/
def setBucket (m : List (String × StatusBucket)) (key : String) (b : StatusBucket) :
    List (String × StatusBucket) :=
  match m with
  | [] => [(key, b)]
  | e :: es => if e.1 = key then (key, b) :: es else e :: setBucket es key b

structure InvoiceSummary where
  totalInvoices : Nat
  totalTaxableValue : ℚ
  totalTax : ℚ
  grossTurnover : ℚ
  bucketsByStatus : List (String × StatusBucket)
  deriving DecidableEq

/-- The single output row of the `$group` with `_id: null` (lines 64-82), absent when nothing
matches. -/
structure SummaryRow where
  totalInvoices : Nat
  totalTaxableValue : ℚ
  totalTax : ℚ
  grossTurnover : ℚ
  deriving DecidableEq

def addToSummary (row : SummaryRow) (d : InvoiceDoc) : SummaryRow :=
  { totalInvoices := row.totalInvoices + 1
    totalTaxableValue :=
      row.totalTaxableValue + (coerceNumber d.subTotal - coerceNumber d.discountTotal)
    totalTax := row.totalTax + coerceNumber d.taxAmount
    grossTurnover := row.grossTurnover + coerceNumber d.grandTotal }

def groupSummary (matched : List InvoiceDoc) : List SummaryRow :=
  match matched with
  | [] => []
  | _ :: _ =>
    [matched.foldl addToSummary
      { totalInvoices := 0, totalTaxableValue := 0, totalTax := 0, grossTurnover := 0 }]

/-- Source `aggregateInvoiceSummary` (lines 53-112). -/
def aggregateInvoiceSummary (invoices : List InvoiceDoc) (organizationId : Option String)
    (start end_ : Int) : Except String InvoiceSummary :=
  match toObjectId organizationId with
  | none => .error "Invalid organization id for GST aggregation"
  | some org =>
    let matched := invoices.filter (matchesPeriod (some org) start end_)
    let summary := groupSummary matched
    let grouped := summary.head?
    let invoicesByStatus := matched.foldl addToStatusRows []
    let bucketMap := invoicesByStatus.foldl
      (fun m row =>
        setBucket m (if row._id = "" then "UNKNOWN" else row._id)
          { count := row.invoices, value := row.value }) []
    .ok { totalInvoices := (grouped.map (fun g => g.totalInvoices)).getD 0
          totalTaxableValue := coerceNumber (grouped.map (fun g => g.totalTaxableValue))
          totalTax := coerceNumber (grouped.map (fun g => g.totalTax))
          grossTurnover := coerceNumber (grouped.map (fun g => g.grossTurnover))
          bucketsByStatus := bucketMap }

/-- A `Transaction` document, as the aggregation reads it. -/
structure TransactionDoc where
  organization_id : Option String := none
  payment_date : Int := 0
  status : String := "completed"
  direction : String := "received"
  amount : Option ℚ := none
  deriving DecidableEq

structure DirectionRow where
  _id : String
  total : ℚ
  count : Nat
  deriving DecidableEq

def addToDirectionRows (rows : List DirectionRow) (t : TransactionDoc) : List DirectionRow :=
  match rows with
  | [] => [{ _id := t.direction, total := coerceNumber t.amount, count := 1 }]
  | r :: rs =>
    if r._id = t.direction then
      { _id := r._id, total := r.total + coerceNumber t.amount, count := r.count + 1 } :: rs
    else r :: addToDirectionRows rs t

structure TransactionSummary where
  paymentsReceived : ℚ
  paymentsMade : ℚ
  transactionCount : Nat
  deriving DecidableEq

/-- The entry of a direction in the map built at lines 150-156. -/
def directionEntry (rows : List DirectionRow) (key : String) : Option DirectionRow :=
  (rows.filter (fun r => (if r._id = "" then "unknown" else r._id) == key)).getLast?

/-- Source `aggregateTransactionsSplit` (lines 132-163). -/
def aggregateTransactionsSplit (transactions : List TransactionDoc)
    (organizationId : Option String) (start end_ : Int) : TransactionSummary :=
  let org := toObjectId organizationId
  let matched := transactions.filter (fun t =>
    (t.organization_id == org) && decide (start ≤ t.payment_date)
      && decide (t.payment_date ≤ end_) && (t.status == "completed"))
  let rows := matched.foldl addToDirectionRows []
  { paymentsReceived := orZero ((directionEntry rows "received").map (fun r => r.total))
    paymentsMade := orZero ((directionEntry rows "paid").map (fun r => r.total))
    transactionCount :=
      ((directionEntry rows "received").map (fun r => r.count)).getD 0
        + ((directionEntry rows "paid").map (fun r => r.count)).getD 0 }

structure GstSummary where
  organization_id : Option String
  period : String
  period_start : Int
  period_end : Int
  return_type : String
  total_taxable_value : ℚ
  total_tax : ℚ
  total_cess : ℚ
  gross_turnover : ℚ
  payments_received : ℚ
  outstanding_tax_liability : ℚ
  total_invoices : Nat
  total_transactions : Nat
  summary_invoices : List (String × StatusBucket)
  summary_received : ℚ
  summary_paid : ℚ
  deriving DecidableEq

/-- Source `generateGstSummary` (lines 165-197). -/
def generateGstSummary (tza now : Int) (parseDate : String → Option Int)
    (invoices : List InvoiceDoc) (transactions : List TransactionDoc)
    (organizationId : Option String) (period : Option String) (returnType : String) :
    Except String GstSummary :=
  let w := resolvePeriodWindow tza now parseDate period
  match aggregateInvoiceSummary invoices organizationId w.start w.end_ with
  | .error e => .error e
  | .ok invoiceSummary =>
    let transactionSummary :=
      aggregateTransactionsSplit transactions organizationId w.start w.end_
    .ok { organization_id := toObjectId organizationId
          period := w.periodLabel
          period_start := w.start
          period_end := w.end_
          return_type := returnType
          total_taxable_value := invoiceSummary.totalTaxableValue
          total_tax := invoiceSummary.totalTax
          total_cess := 0
          gross_turnover := invoiceSummary.grossTurnover
          payments_received := transactionSummary.paymentsReceived
          outstanding_tax_liability :=
            max (invoiceSummary.totalTax - orZero (some transactionSummary.paymentsMade)) 0
          total_invoices := invoiceSummary.totalInvoices
          total_transactions := transactionSummary.transactionCount
          summary_invoices := invoiceSummary.bucketsByStatus
          summary_received := transactionSummary.paymentsReceived
          summary_paid := transactionSummary.paymentsMade }

/-- One section of the draft (lines 293-298). -/
structure Section where
  label : String
  count : Nat
  taxableValue : ℚ
  tax : ℚ
  invoiceNumbers : List String
  deriving DecidableEq

structure Sections where
  b2b : Section
  b2c : Section
  export_ : Section
  nil_ : Section
  deriving DecidableEq

/-- Source `foldSectionTotals` (lines 282-290). -/
def foldSectionTotals (acc : Section) (invoice : InvoiceDoc) : Section :=
  let taxable := coerceNumber invoice.subTotal - coerceNumber invoice.discountTotal
  let tax := coerceNumber invoice.taxAmount
  { label := acc.label
    count := acc.count + 1
    taxableValue := acc.taxableValue + taxable
    tax := acc.tax + tax
    invoiceNumbers := acc.invoiceNumbers ++ [invoice.invoiceNumber] }

def emptySections : Sections :=
  { b2b := { label := "B2B Supplies", count := 0, taxableValue := 0, tax := 0,
             invoiceNumbers := [] }
    b2c := { label := "B2C Supplies", count := 0, taxableValue := 0, tax := 0,
             invoiceNumbers := [] }
    export_ := { label := "Export / SEZ", count := 0, taxableValue := 0, tax := 0,
                 invoiceNumbers := [] }
    nil_ := { label := "Nil / Exempt", count := 0, taxableValue := 0, tax := 0,
              invoiceNumbers := [] } }

/-- The callback of `invoices.forEach` in `buildDraftSections` (lines 300-310). -/
def sectionStep (sections : Sections) (invoice : InvoiceDoc) : Sections :=
  if invoice.gstTreatment = "b2c" then
    { sections with b2c := foldSectionTotals sections.b2c invoice }
  else if invoice.gstTreatment = "export" ∨ invoice.gstTreatment = "sez" then
    { sections with export_ := foldSectionTotals sections.export_ invoice }
  else if coerceNumber invoice.subTotal = 0 then
    { sections with nil_ := foldSectionTotals sections.nil_ invoice }
  else
    { sections with b2b := foldSectionTotals sections.b2b invoice }

/-- Source `buildDraftSections` (lines 292-313). -/
def buildDraftSections (invoices : List InvoiceDoc) : Sections :=
  invoices.foldl sectionStep emptySections

structure DraftTotals where
  taxableValue : ℚ
  tax : ℚ
  invoices : Nat
  deriving DecidableEq

structure InvoicePreview where
  invoiceNumber : String
  invoiceDate : Int
  customerName : Option String
  customerGSTIN : Option String
  gstTreatment : String
  status : String
  subTotal : ℚ
  taxAmount : ℚ
  cgstTotal : ℚ
  sgstTotal : ℚ
  igstTotal : ℚ
  placeOfSupply : Option String
  deriving DecidableEq

structure GstDraft where
  period : String
  rangeStart : Int
  rangeEnd : Int
  totals : DraftTotals
  sections : Sections
  invoices : List InvoicePreview
  deriving DecidableEq

/-- The sort `{ invoiceDate: 1 }`: oldest first; equal dates keep their collection order. -/
def oldestFirst (a b : InvoiceDoc) : Bool := decide (a.invoiceDate ≤ b.invoiceDate)

/-- Source `buildGstDraft` (lines 315-361). -/
def buildGstDraft (tza now : Int) (parseDate : String → Option Int)
    (invoiceColl : List InvoiceDoc) (organizationId : Option String)
    (period : Option String) : GstDraft :=
  let w := resolvePeriodWindow tza now parseDate period
  let invoices :=
    (invoiceColl.filter (matchesPeriod (toObjectId organizationId) w.start w.end_)).mergeSort
      oldestFirst
  let sections := buildDraftSections invoices
  let totals := invoices.foldl
    (fun acc invoice =>
      { taxableValue := acc.taxableValue + coerceNumber invoice.subTotal
        tax := acc.tax + coerceNumber invoice.taxAmount
        invoices := acc.invoices + 1 })
    ({ taxableValue := 0, tax := 0, invoices := 0 } : DraftTotals)
  { period := w.periodLabel
    rangeStart := w.start
    rangeEnd := w.end_
    totals := totals
    sections := sections
    invoices := invoices.map (fun invoice =>
      { invoiceNumber := invoice.invoiceNumber
        invoiceDate := invoice.invoiceDate
        customerName := invoice.customerName
        customerGSTIN := invoice.customerGSTIN
        gstTreatment := invoice.gstTreatment
        status := invoice.status
        subTotal := coerceNumber invoice.subTotal
        taxAmount := coerceNumber invoice.taxAmount
        cgstTotal := coerceNumber invoice.cgstTotal
        sgstTotal := coerceNumber invoice.sgstTotal
        igstTotal := coerceNumber invoice.igstTotal
        placeOfSupply := invoice.placeOfSupply }) }

/-- The catalog entry a product reference designates: the stored item of that `_id`. -/
def lookupItem (itemColl : List CatalogDoc) (productId : Option String) : Option CatalogDoc :=
  (itemColl.filter (fun d => some d._id == productId)).getLast?

/-- A catalog with one item: price 100, rate 18. -/
def sampleCatalog : List CatalogDoc :=
  [{ _id := "p1", unit_price := some 100, tax_rate := some 18, name := some "Widget",
     hsn_sac_code := some "8471" }]

/-- A request for that item that overrides price and rate with 0 and gives a description. -/
def overrideLine : RawLine :=
  { productId := some "p1", quantity := some 2, unitPrice := some 0, taxRate := some 0,
    description := some "Custom" }

/-! ## Sequences of balance updates (specification side) -/

/-- The position of a payment status on the path Unpaid, Partial, Paid. -/
def statusRank (s : String) : Nat :=
  if s = "Paid" then 2 else if s = "Partial" then 1 else 0

/-- The status that the amounts `grand` and `paid` call for. -/
def statusOf (grand paid : ℚ) : String :=
  if grand - paid ≤ 0 then "Paid" else if paid > 0 then "Partial" else "Unpaid"

/-- A call that changes the cached balance of an invoice. -/
inductive InvoiceOp where
  | markPaid (amount : Option ℚ) (paymentInfo : PaymentInfo) (now : Int)
  | update (payload : UpdatePayload)

/-- The invoice collection after a call on invoice `invoiceId`; a failed call changes nothing. -/
def applyOp (itemColl : List CatalogDoc) (invoiceId : String) (invoices : List InvoiceDoc)
    (op : InvoiceOp) : List InvoiceDoc :=
  match op with
  | .markPaid amount paymentInfo now =>
    match markInvoiceAsPaid invoices invoiceId amount paymentInfo now with
    | .ok r => r.2
    | .error _ => invoices
  | .update payload =>
    match updateInvoice itemColl invoices invoiceId payload with
    | .ok r => r.2
    | .error _ => invoices

/-- The stored payment status of an invoice. -/
def storedStatus (invoices : List InvoiceDoc) (invoiceId : String) : String :=
  ((findById invoices invoiceId).map (fun d => d.paymentStatus)).getD ""

/-- The stored paid amount of an invoice. -/
def storedPaid (invoices : List InvoiceDoc) (invoiceId : String) : ℚ :=
  asNumber ((findById invoices invoiceId).bind (fun d => d.amountPaid))

/-- The stored grand total of an invoice. -/
def storedGrand (invoices : List InvoiceDoc) (invoiceId : String) : ℚ :=
  asNumber ((findById invoices invoiceId).bind (fun d => d.grandTotal))

/-- Along the calls, the stored status never moves backward. -/
def StatusForward (itemColl : List CatalogDoc) (invoiceId : String) :
    List InvoiceDoc → List InvoiceOp → Prop
  | _, [] => True
  | invoices, op :: rest =>
    statusRank (storedStatus invoices invoiceId)
        ≤ statusRank (storedStatus (applyOp itemColl invoiceId invoices op) invoiceId)
      ∧ StatusForward itemColl invoiceId (applyOp itemColl invoiceId invoices op) rest

/-- Along the calls, the paid amount never decreases and the grand total never increases. -/
def AmountsForward (itemColl : List CatalogDoc) (invoiceId : String) :
    List InvoiceDoc → List InvoiceOp → Prop
  | _, [] => True
  | invoices, op :: rest =>
    storedPaid invoices invoiceId ≤ storedPaid (applyOp itemColl invoiceId invoices op) invoiceId
      ∧ storedGrand (applyOp itemColl invoiceId invoices op) invoiceId
          ≤ storedGrand invoices invoiceId
      ∧ AmountsForward itemColl invoiceId (applyOp itemColl invoiceId invoices op) rest

/-- The stored status is not ahead of what the stored amounts call for. -/
def NotAhead (d : InvoiceDoc) : Prop :=
  statusRank d.paymentStatus
    ≤ statusRank (statusOf (asNumber d.grandTotal) (asNumber d.amountPaid))

/-- An invoice of grand total 384 with 100 paid. -/
def partialInvoice : InvoiceDoc :=
  { _id := "inv1", grandTotal := some 384, amountPaid := some 100, balanceDue := some 284,
    paymentStatus := "Partial" }

def partialInvoices : List InvoiceDoc := [partialInvoice]

/-- An invoice of grand total 384, fully paid. -/
def paidInvoice : InvoiceDoc :=
  { _id := "inv1", grandTotal := some 384, amountPaid := some 384, balanceDue := some 0,
    paymentStatus := "Paid" }

def paidInvoices : List InvoiceDoc := [paidInvoice]

/-- A newly created invoice of grand total 384. -/
def unpaidInvoice : InvoiceDoc :=
  { _id := "inv1", grandTotal := some 384, amountPaid := some 0, balanceDue := some 384,
    paymentStatus := "Unpaid" }

def unpaidInvoices : List InvoiceDoc := [unpaidInvoice]

/-- The section an invoice falls into, by the tests of `buildDraftSections` in their order. -/
def sectionKey (invoice : InvoiceDoc) : String :=
  if invoice.gstTreatment = "b2c" then "b2c"
  else if invoice.gstTreatment = "export" ∨ invoice.gstTreatment = "sez" then "export"
  else if coerceNumber invoice.subTotal = 0 then "nil"
  else "b2b"

/-- The invoice numbers of the invoices of one section, in order. -/
def numbersOf (key : String) (invoices : List InvoiceDoc) : List String :=
  (invoices.filter (fun d => sectionKey d == key)).map (fun d => d.invoiceNumber)

/-- Four invoices of one period, one for each section of the draft. -/
def draftInvoices : List InvoiceDoc :=
  [{ _id := "i1", invoiceNumber := "INV-1", gstTreatment := "b2b", subTotal := some 100 },
   { _id := "i2", invoiceNumber := "INV-2", gstTreatment := "b2c", subTotal := some 0 },
   { _id := "i3", invoiceNumber := "INV-3", gstTreatment := "sez", subTotal := some 50 },
   { _id := "i4", invoiceNumber := "INV-4", gstTreatment := "b2b", subTotal := some 0 }]

/-- The non-deleted invoices of an organization dated within a window, in collection order. -/
def periodInvoices (invoices : List InvoiceDoc) (org : String) (start end_ : Int) :
    List InvoiceDoc :=
  invoices.filter (fun d =>
    decide (d.organizationId = some org ∧ d.isDeleted = false ∧ start ≤ d.invoiceDate
      ∧ d.invoiceDate ≤ end_))

/-- The organization of the integration test. -/
def sampleOrg : String := "64b7f0c2a1d3e4f5a6b7c8d9"

/-- The first invoice of the integration test, dated 5 November 2025 (UTC). -/
def novemberFirst : InvoiceDoc :=
  { _id := "n1", organizationId := some sampleOrg, invoiceNumber := "INV-TEST-001",
    status := "Sent", invoiceDate := 1762300800000, subTotal := some 100000,
    discountTotal := some 0, taxAmount := some 18000, grandTotal := some 118000 }

/-- The second invoice of the integration test, dated 15 November 2025 (UTC). -/
def novemberSecond : InvoiceDoc :=
  { _id := "n2", organizationId := some sampleOrg, invoiceNumber := "INV-TEST-002",
    status := "Paid", invoiceDate := 1763164800000, subTotal := some 50000,
    discountTotal := some 0, taxAmount := some 4500, grandTotal := some 54500,
    paymentStatus := "Paid" }

def novemberInvoices : List InvoiceDoc := [novemberFirst, novemberSecond]

/-! ## Period returns: `upsertGstReturn`, `getGstReturnById`, `updateGstReturnStatus` -/

/-- How a request fails: `throw new ApiError(statusCode, message)`, or another exception (an
`Error`, a validation error of Mongoose). -/
inductive Failure where
  | api (statusCode : Nat) (message : String)
  | thrown (message : String)
  deriving DecidableEq

deriving instance DecidableEq for Except

/-- One entry of the filing history (`filingHistorySchema`). -/
structure Filing where
  status : String
  referenceNumber : Option String := none
  notes : Option String := none
  submittedAt : Int := 0
  submittedBy : Option String := none
  deriving DecidableEq

/-- A stored `GstReturn` document (`src/models/gst_return.model.js`): the fields that are
written from the summary payload, kept together as `summary`, the status and the filing
history. The top-level `notes`, `created_by`, `updated_by` and the timestamps are left out. -/
structure GstReturnDoc where
  _id : String
  summary : GstSummary
  status : String := "draft"
  filings : List Filing := []
  deriving DecidableEq

/-- The operation `Model.findOneAndUpdate(filter, update, { new: true })` on a collection: the
first document that matches is rewritten. The updated document and the collection after;
`none` when no document matches. -/
def findOneAndUpdate {α : Type} (p : α → Bool) (f : α → α) : List α → Option (α × List α)
  | [] => none
  | d :: ds =>
    if p d then some (f d, f d :: ds)
    else
      match findOneAndUpdate p f ds with
      | some r => some (r.1, d :: r.2)
      | none => none

/-- Source `upsertGstReturn` (lines 199-222): the returned document (or the failure) and the
collection after. `newId` is the `_id` of an inserted document. -/
def upsertGstReturn (tza now : Int) (parseDate : String → Option Int)
    (invoices : List InvoiceDoc) (transactions : List TransactionDoc)
    (returns : List GstReturnDoc) (newId : String)
    (organizationId period returnType : Option String) :
    Except Failure GstReturnDoc × List GstReturnDoc :=
  let returnType := returnType.getD "GSTR1"
  match generateGstSummary tza now parseDate invoices transactions organizationId period
      returnType with
  | .error e => (.error (.api 400 e), returns)
  | .ok summary =>
    match findOneAndUpdate
        (fun d => d.summary.organization_id == summary.organization_id
          && d.summary.period == summary.period && d.summary.return_type == returnType)
        (fun d => { d with summary := summary, status := "draft" }) returns with
    | some r => (.ok r.1, r.2)
    | none =>
      let doc : GstReturnDoc :=
        { _id := newId, summary := summary, status := "draft", filings := [] }
      (.ok doc, returns ++ [doc])

/-- Source `getGstReturnById` (lines 244-250). -/
def getGstReturnById (returns : List GstReturnDoc) (id : String)
    (organizationId : Option String) : Except Failure GstReturnDoc :=
  match returns.find?
      (fun d => d._id == id && d.summary.organization_id == toObjectId organizationId) with
  | none => .error (.api 404 "GST return not found")
  | some doc => .ok doc

/-- The list `allowed` of `updateGstReturnStatus` (line 253). -/
def allowedStatuses : List String := ["draft", "submitted", "filed", "paid"]

/-- Source `updateGstReturnStatus` (lines 252-280): the returned document (or the failure) and
the collection after; a missing `status` is `none`, `now` is the clock. -/
def updateGstReturnStatus (returns : List GstReturnDoc) (now : Int) (id : String)
    (organizationId status notes referenceNumber userId : Option String) :
    Except Failure GstReturnDoc × List GstReturnDoc :=
  match status with
  | none => (.error (.api 400 "Invalid GST return status"), returns)
  | some st =>
    if !(allowedStatuses.contains st) then
      (.error (.api 400 "Invalid GST return status"), returns)
    else
      match findOneAndUpdate
          (fun d => d._id == id && d.summary.organization_id == toObjectId organizationId)
          (fun d => { d with
            status := st
            filings := d.filings ++ [{ status := st, referenceNumber := referenceNumber,
                                       notes := notes, submittedAt := now,
                                       submittedBy := userId }] })
          returns with
      | none => (.error (.api 404 "GST return not found"), returns)
      | some r => (.ok r.1, r.2)

/-- A summary of November 2025 for the sample organization. -/
def sampleSummary : GstSummary :=
  { organization_id := some sampleOrg, period := "2025-11", period_start := 1761955200000,
    period_end := 1764547199999, return_type := "GSTR1", total_taxable_value := 100000,
    total_tax := 18000, total_cess := 0, gross_turnover := 118000, payments_received := 0,
    outstanding_tax_liability := 18000, total_invoices := 1, total_transactions := 0,
    summary_invoices := [], summary_received := 0, summary_paid := 0 }

/-- A stored return of November 2025 that was submitted and then filed. -/
def filedReturn : GstReturnDoc :=
  { _id := "r1", summary := sampleSummary, status := "filed",
    filings := [{ status := "submitted", submittedAt := 1764600000000 },
                { status := "filed", referenceNumber := some "ARN-1",
                  submittedAt := 1764700000000 }] }

/-! ## Items, stock movements and invoice creation -/

/-- A stored `Item` document (`src/models/item.model.js`). -/
structure ItemDoc where
  _id : String
  organization_id : Option String := none
  name : Option String := none
  unit_price : Option ℚ := none
  stock_quantity : Option ℚ := none
  hsn_sac_code : Option String := none
  tax_rate : Option ℚ := none
  deriving DecidableEq

/-- The projection `{ hsn_sac_code: 1, tax_rate: 1, unit_price: 1, name: 1 }` of an item. -/
def ItemDoc.toCatalog (d : ItemDoc) : CatalogDoc :=
  { _id := d._id, hsn_sac_code := d.hsn_sac_code, tax_rate := d.tax_rate,
    unit_price := d.unit_price, name := d.name }

/-- A stored `StockMovement` document (`src/models/stock_movement.model.js`). -/
structure StockMovementDoc where
  organization_id : String
  item_id : String
  quantity_change : ℚ
  reason : String := "adjustment"
  notes : Option String := none
  deriving DecidableEq

/-- The payload of `createInvoice`: the request body; the place fields are those that
`resolvePlaceOfSupply` reads. -/
structure CreatePayload where
  customerId : Option String := none
  customer_id : Option String := none
  items : Option (List RawLine) := none
  shippingCharge : Option ℚ := none
  notes : Option String := none
  customerName : Option String := none
  customerGSTIN : Option String := none
  place : PlacePayload := {}
  supplyType : Option String := none
  gstTreatment : Option String := none
  deriving DecidableEq

/-- What `createInvoice` reads besides the collections: the customer and the organization
lookups, the clock, and the `_id` given to the new document. -/
structure CreateEnv where
  customers : String → Option CustomerDoc
  organizationState : Option String
  year : Nat
  now : Int
  newId : String

/-- The schema validation of `inv.save()` for a new invoice (`src/models/invoice.model.js`):
`productId` is required on every line, `supplyType` and `gstTreatment` are enumerations, and
`invoiceNumber` has a unique index. The other required paths are always set by
`createInvoice`. -/
def validateNewInvoice (invoices : List InvoiceDoc) (inv : InvoiceDoc) : Option String :=
  if inv.items.any (fun l => l.productId.isNone) then
    some "Invoice validation failed: items.productId is required"
  else if !(["intra", "inter"].contains inv.supplyType) then
    some "Invoice validation failed: supplyType is not a valid enum value"
  else if !(["b2b", "b2c", "export", "sez"].contains inv.gstTreatment) then
    some "Invoice validation failed: gstTreatment is not a valid enum value"
  else if invoices.any (fun d => d.invoiceNumber == inv.invoiceNumber) then
    some "E11000 duplicate key error: invoiceNumber"
  else none

/-- The document built at lines 225-250. -/
def newInvoice (env : CreateEnv) (organizationId : Option String) (payload : CreatePayload)
    (customerId invoiceNumber : String) (p : Prepared) : InvoiceDoc :=
  let customerDoc := env.customers customerId
  let placeOfSupply := resolvePlaceOfSupply payload.place customerDoc
  let supplyType := resolveSupplyType payload.supplyType env.organizationState placeOfSupply
  let gstTreatment :=
    (jsOr payload.gstTreatment
      (some (if truthy (customerDoc.bind (fun c => c.gstin)) then "b2b" else "b2c"))).getD ""
  let customerGSTIN := jsOr payload.customerGSTIN (customerDoc.bind (fun c => c.gstin))
  let shippingValue := orZero payload.shippingCharge
  let finalTotals := finalizeTotals p.totals shippingValue 0
  { _id := env.newId
    invoiceNumber := invoiceNumber
    invoiceDate := env.now
    customerId := customerId
    customerName := payload.customerName
    customerGSTIN := customerGSTIN
    billingAddress := payload.place.billingAddress
    shippingAddress := payload.place.shippingAddress
    placeOfSupply := some placeOfSupply
    supplyType := supplyType
    gstTreatment := gstTreatment
    organizationId := organizationId
    items := p.mappedItems
    subTotal := some (toDecimal (some p.totals.subTotal))
    taxAmount := some (toDecimal (some finalTotals.taxTotal))
    cgstTotal := some (toDecimal (some p.totals.cgstTotal))
    sgstTotal := some (toDecimal (some p.totals.sgstTotal))
    igstTotal := some (toDecimal (some p.totals.igstTotal))
    discountTotal := some (toDecimal (some p.totals.discountTotal))
    shippingCharge := some (toDecimal (some finalTotals.shipping))
    grandTotal := some (toDecimal (some finalTotals.grandTotal))
    amountPaid := some (toDecimal (some 0))
    balanceDue := some (toDecimal (some finalTotals.grandTotal))
    paymentStatus := "Unpaid"
    notes := payload.notes }

/-- Source `createInvoice` (lines 193-266): the saved invoice (or the failure), the counter
collection after and the invoice collection after; `items` is the item collection. The counter
is incremented outside the session. -/
def createInvoice (env : CreateEnv) (items : List ItemDoc) (counters : List CounterDoc)
    (invoices : List InvoiceDoc) (organizationId : Option String) (payload : CreatePayload) :
    Except Failure InvoiceDoc × List CounterDoc × List InvoiceDoc :=
  let customerId := jsOr payload.customerId payload.customer_id
  if !(truthy customerId) then (.error (.thrown "customerId required"), counters, invoices)
  else
    let numbered := generateInvoiceNumber counters organizationId env.year
    let customerDoc := env.customers (customerId.getD "")
    let placeOfSupply := resolvePlaceOfSupply payload.place customerDoc
    let supplyType := resolveSupplyType payload.supplyType env.organizationState placeOfSupply
    match prepareInvoiceLineItems (items.map ItemDoc.toCatalog) (payload.items.getD [])
        supplyType with
    | .error e => (.error (.thrown e), numbered.2, invoices)
    | .ok p =>
      let inv := newInvoice env organizationId payload (customerId.getD "") numbered.1 p
      match validateNewInvoice invoices inv with
      | some e => (.error (.thrown e), numbered.2, invoices)
      | none => (.ok inv, numbered.2, invoices ++ [inv])

/-- The update `Item.findByIdAndUpdate(id, { $inc: { stock_quantity: delta } })`: the first
item of that id, if any, is rewritten; a missing quantity counts as `0`. -/
def incStock (items : List ItemDoc) (id : String) (delta : ℚ) : List ItemDoc :=
  match findOneAndUpdate (fun d => d._id == id)
      (fun d => { d with stock_quantity := some (asNumber d.stock_quantity + delta) }) items with
  | some r => r.2
  | none => items

/-- One iteration of the loop of `adjustStockForInvoice` (lines 272-287). A line without
product is skipped. `findByIdAndUpdate` with an id that no item has matches nothing, changes
nothing and does not throw, so the movement is created all the same. `StockMovement.create`
without an organization fails the schema validation (`organization_id` is required) before
anything is sent; that exception is caught by the `try` of the loop and the loop goes on. -/
def adjustStockStep (invoiceDoc : InvoiceDoc)
    (st : List ItemDoc × List StockMovementDoc) (it : Line) :
    List ItemDoc × List StockMovementDoc :=
  let qty := it.quantity
  if !(truthy it.productId) then st
  else
    let pid := it.productId.getD ""
    let items1 := incStock st.1 pid (-qty)
    match invoiceDoc.organizationId with
    | none => (items1, st.2)
    | some org =>
      (items1, st.2 ++ [{ organization_id := org, item_id := pid, quantity_change := -qty,
                          reason := "sale",
                          notes := some ("Invoice " ++ invoiceDoc.invoiceNumber) }])

/-- Source `adjustStockForInvoice` (lines 268-288): the item and the movement collections
after. -/
def adjustStockForInvoice (invoiceDoc : InvoiceDoc)
    (items : List ItemDoc) (movements : List StockMovementDoc) :
    List ItemDoc × List StockMovementDoc :=
  invoiceDoc.items.foldl (adjustStockStep invoiceDoc) (items, movements)

/-! ## Request handlers (`src/controllers`) -/

/-- JavaScript `s.includes(sub)`. -/
def jsIncludes (s sub : String) : Bool :=
  s.toList.tails.any (fun t => sub.toList.isPrefixOf t)

/-- The collections the invoice creation request writes. -/
structure Collections where
  counters : List CounterDoc := []
  invoices : List InvoiceDoc := []
  items : List ItemDoc := []
  movements : List StockMovementDoc := []

/-- Handler `createInvoice` (`invoice.controller.js`, lines 8-35): the response and the
collections after the request. The writes of the service calls are made in a session: they are
visible after `commitTransaction` and dropped by `abortTransaction`; the counter is written
outside the session. -/
def InvoiceController.createInvoice (env : CreateEnv) (db : Collections)
    (organization_id : String) (body : CreatePayload) : Except Failure InvoiceDoc × Collections :=
  let customerId := jsOr body.customerId body.customer_id
  if !(truthy customerId) then (.error (.api 400 "customerId required"), db)
  else
    let payload := { body with customerId := customerId }
    match Saral.createInvoice env db.items db.counters db.invoices (some organization_id)
        payload with
    | (.error e, counters1, _) =>
      let message := match e with
        | .api _ m => m
        | .thrown m => m
      let db1 := { db with counters := counters1 }
      if jsIncludes (jsToLowerCase message) "customerid required" then
        (.error (.api 400 "customerId required"), db1)
      else
        (.error (.api 500 (if message = "" then "Failed to create invoice" else message)), db1)
    | (.ok invoice, counters1, invoices1) =>
      let adjusted := adjustStockForInvoice invoice db.items db.movements
      (.ok invoice,
        { counters := counters1, invoices := invoices1, items := adjusted.1,
          movements := adjusted.2 })

/-- Handler `getInvoice` (lines 49-54); `_organization_id` is `req.organization_id`, which the
handler does not read. -/
def InvoiceController.getInvoice (_organization_id : String) (invoices : List InvoiceDoc)
    (payments : List Payment) (id : String) : Except Failure InvoiceDoc :=
  match getInvoiceById invoices payments id with
  | none => .error (.api 404 "Invoice not found")
  | some invoice => .ok invoice

/-- Handler `updateInvoice` (lines 56-60): the response and the invoice collection after. -/
def InvoiceController.updateInvoice (_organization_id : String) (itemColl : List CatalogDoc)
    (invoices : List InvoiceDoc) (id : String) (body : UpdatePayload) :
    Except Failure InvoiceDoc × List InvoiceDoc :=
  match Saral.updateInvoice itemColl invoices id body with
  | .error e => (.error (.thrown e), invoices)
  | .ok r => (.ok r.1, r.2)

/-- Handler `deleteInvoice` (lines 62-66): the response and the invoice collection after. -/
def InvoiceController.deleteInvoice (_organization_id : String) (invoices : List InvoiceDoc)
    (id : String) : Except Failure Bool × List InvoiceDoc :=
  match Saral.deleteInvoice invoices id with
  | .error e => (.error (.thrown e), invoices)
  | .ok invoices1 => (.ok true, invoices1)

/-- JavaScript `!amount` on a possibly missing number. -/
def falsyNumber (x : Option ℚ) : Bool :=
  match x with
  | none => true
  | some q => q == 0

/-- The value a request body gives for an amount. The body parsers of `app.js` (lines 34-35)
accept JSON and urlencoded bodies, so the value can be a JSON number, the empty string, or a
non-empty string; `numeral q` is a non-empty string that `Number` reads as the number `q`, as
the string "0" reads as 0. Strings that `Number` does not read as a finite number, and JSON
booleans, arrays and objects, are outside the model, as `NaN` is. A field that is absent or
`null` is `none`. -/
inductive AmountValue where
  | number (q : ℚ)
  | emptyString
  | numeral (q : ℚ)
  deriving DecidableEq

/-- JavaScript `!amount` on the amount of a request body: a missing value, the number 0 and the
empty string are falsy; a non-empty string is truthy whatever number it reads as. -/
def falsyAmount (x : Option AmountValue) : Bool :=
  match x with
  | none => true
  | some (.number q) => q == 0
  | some .emptyString => true
  | some (.numeral _) => false

/-- JavaScript `Number(amount)`, which is also the cast of a `Number` path of a schema. -/
def amountNumber (x : AmountValue) : ℚ :=
  match x with
  | .number q => q
  | .emptyString => 0
  | .numeral q => q

/-- Handler `updatePayment` (lines 68-74): the response and the invoice collection after. The
service reads the amount as `Number(amount || 0)`. -/
def InvoiceController.updatePayment (_organization_id : String) (invoices : List InvoiceDoc)
    (now : Int) (id : String) (amount : Option AmountValue) (paymentInfo : Option PaymentInfo) :
    Except Failure InvoiceDoc × List InvoiceDoc :=
  if falsyAmount amount then (.error (.api 400 "amount required"), invoices)
  else
    match markInvoiceAsPaid invoices id (amount.map amountNumber) (paymentInfo.getD {}) now with
    | .error e => (.error (.thrown e), invoices)
    | .ok r => (.ok r.1, r.2)

/-- The body of the payment request. -/
structure PaymentBody where
  invoice_id : Option String := none
  amount_received : Option AmountValue := none
  payment_mode : Option String := none
  notes : Option String := none
  deriving DecidableEq

/-- Handler `createPayment` (`payment.controller.js`, lines 8-53): the response, the payment
ledger after and the transaction ledger after. `Payment.create` validates the enumeration of
`payment_mode`; the mirrored transaction is written in a `try` whose failure is logged. -/
def PaymentController.createPayment (organization_id : String) (invoices : List InvoiceDoc)
    (payments : List Payment) (transactions : List TransactionDoc) (now : Int)
    (body : PaymentBody) : Except Failure Payment × List Payment × List TransactionDoc :=
  if !(truthy body.invoice_id) || falsyAmount body.amount_received then
    (.error (.api 400 "invoice_id and amount_received are required"), payments, transactions)
  else
    match invoices.find? (fun d => d._id == body.invoice_id.getD "") with
    | none => (.error (.api 404 "Invoice not found"), payments, transactions)
    | some invoice =>
      if !(["bank_transfer", "credit_card", "upi", "cash", "other"].contains
          (body.payment_mode.getD "other")) then
        (.error (.thrown "Payment validation failed: payment_mode is not a valid enum value"),
          payments, transactions)
      else
        let amount_received := (body.amount_received.map amountNumber).getD 0
        let payment : Payment := { invoice_id := invoice._id, amount_received := amount_received }
        (.ok payment, payments ++ [payment],
          transactions ++ [{ organization_id := some organization_id, payment_date := now,
                             status := "completed", direction := "received",
                             amount := some amount_received }])

/-- The body of the stock adjustment request. -/
structure AdjustBody where
  item_id : Option String := none
  quantity_change : Option ℚ := none
  reason : Option String := none
  notes : Option String := none
  deriving DecidableEq

/-- The response of the stock adjustment request. -/
structure AdjustResponse where
  item_id : String
  stock_quantity : ℚ
  movement : StockMovementDoc
  deriving DecidableEq

/-- The call `item.save()`: the stored item of that `_id` is rewritten. -/
def saveItem (items : List ItemDoc) (item : ItemDoc) : List ItemDoc :=
  items.map (fun d => if d._id = item._id then item else d)

/-- Handler `adjustStock` (`inventory.controller.js`, lines 16-36): the response, the item
collection after and the movement collection after. `StockMovement.create` validates the
enumeration of `reason`, after the item is saved. -/
def InventoryController.adjustStock (organization_id : String) (items : List ItemDoc)
    (movements : List StockMovementDoc) (body : AdjustBody) :
    Except Failure AdjustResponse × List ItemDoc × List StockMovementDoc :=
  if !(truthy body.item_id) || falsyNumber body.quantity_change then
    (.error (.api 400 "item_id and quantity_change are required"), items, movements)
  else
    match items.find? (fun d => d._id == body.item_id.getD ""
        && d.organization_id == some organization_id) with
    | none => (.error (.api 404 "Item not found"), items, movements)
    | some item =>
      let newQty := orZero item.stock_quantity + asNumber body.quantity_change
      if newQty < 0 then (.error (.api 400 "Stock cannot be negative"), items, movements)
      else
        let items1 := saveItem items { item with stock_quantity := some newQty }
        if !(["adjustment", "purchase", "sale", "correction"].contains
            (body.reason.getD "adjustment")) then
          (.error (.thrown "StockMovement validation failed: reason is not a valid enum value"),
            items1, movements)
        else
          let movement : StockMovementDoc :=
            { organization_id := organization_id, item_id := item._id,
              quantity_change := asNumber body.quantity_change,
              reason := body.reason.getD "adjustment", notes := body.notes }
          (.ok { item_id := item._id, stock_quantity := newQty, movement := movement },
            items1, movements ++ [movement])

/-- The stock of the item of an id, `none` when the collection has no such item; a missing
quantity counts as `0`. -/
def stockOf (items : List ItemDoc) (id : String) : Option ℚ :=
  (items.find? (fun d => d._id == id)).map (fun d => asNumber d.stock_quantity)

/-! ## Sample data of the request handlers -/

/-- A second organization. -/
def otherOrg : String := "64b7f0c2a1d3e4f5a6b7c8da"

/-- An item of the sample organization with 5 units in stock. -/
def stockItem : ItemDoc :=
  { _id := "p1", organization_id := some sampleOrg, name := some "Widget",
    unit_price := some 100, stock_quantity := some 5, tax_rate := some 18 }

def sampleEnv : CreateEnv :=
  { customers := fun _ => none, organizationState := some "Maharashtra", year := 2025,
    now := 1762300800000, newId := "inv9" }

/-- A request for 10 units of the item that has 5 in stock. -/
def oversellBody : CreatePayload :=
  { customerId := some "c1", items := some [{ productId := some "p1", quantity := some 10 }] }

/-- The quantity of the item of an id that the lines of an invoice sell. -/
def soldQuantity (lines : List Line) (id : String) : ℚ :=
  ((lines.filter (fun l => l.productId == some id)).map (fun l => l.quantity)).sum

/-- The stock movement that records the sale of a line. -/
def saleMovement (org invoiceNumber : String) (l : Line) : StockMovementDoc :=
  { organization_id := org, item_id := l.productId.getD "", quantity_change := -l.quantity,
    reason := "sale", notes := some ("Invoice " ++ invoiceNumber) }

/-- An invoice of the second organization. -/
def foreignInvoice : InvoiceDoc :=
  { _id := "invB", organizationId := some otherOrg, invoiceNumber := "INV-2025-0007",
    customerId := "c7", grandTotal := some 384, amountPaid := some 0, balanceDue := some 384 }

/-- The well-formed id of the invoice of the settlement scenarios. -/
def settledInvoiceId : String := "64b7f0c2a1d3e4f5a6b7c8a1"

/-- An invoice of grand total 384 on which 100 is paid. -/
def openInvoice : InvoiceDoc :=
  { _id := settledInvoiceId, customerId := "64b7f0c2a1d3e4f5a6b7c8c1", grandTotal := some 384,
    amountPaid := some 100, balanceDue := some 284, paymentStatus := "Partial" }

/-- The settlement scenario with well-formed ids: ledger entries 200 then 184. -/
def settledLedger : List Payment :=
  [{ invoice_id := settledInvoiceId, amount_received := 200 },
   { invoice_id := settledInvoiceId, amount_received := 184 }]

/-- A well-formed item id that no stored item has. -/
def missingItemId : String := "64b7f0c2a1d3e4f5a6b7c8ff"

/-- The stored item of the missing-item scenario: 5 units in stock. -/
def shelfItem : ItemDoc :=
  { _id := "64b7f0c2a1d3e4f5a6b7c8e1", organization_id := some sampleOrg, name := some "Widget",
    unit_price := some 100, stock_quantity := some 5, tax_rate := some 18 }

/-- The taxable-value scenario: price 100, quantity 2, discount 0. -/
def taxableLine : RawLine :=
  { productId := some missingItemId, quantity := some 2, unitPrice := some 100,
    discount := some 0 }

/-- A request for 3 units of a product that has no item document. -/
def ghostBody : CreatePayload :=
  { customerId := some "64b7f0c2a1d3e4f5a6b7c8c1",
    items := some [{ productId := some missingItemId, quantity := some 3,
                     unitPrice := some 10 }] }

/-- A call after which the cached balance is recomputed, or its inputs are as before: every
payment, and an update that supplies `amountPaid` or changes neither the items nor the shipping
charge. -/
def KeepsBalance : InvoiceOp → Prop
  | .markPaid _ _ _ => True
  | .update payload =>
    payload.amountPaid ≠ none ∨ (payload.items = none ∧ payload.shippingCharge = none)

/-- The invoice that `createInvoice` stores for the request of 10 units. -/
def oversoldInvoice : InvoiceDoc :=
  { _id := "inv9", organizationId := some sampleOrg, invoiceNumber := "INV-2025-0001",
    invoiceDate := 1762300800000, customerId := "c1", grandTotal := some 1180,
    amountPaid := some 0, balanceDue := some 1180, paymentStatus := "Unpaid",
    placeOfSupply := some "", supplyType := "intra", gstTreatment := "b2c",
    items := [{ productId := some "p1", description := some "Widget", quantity := 10,
                unitPrice := 100, discount := 0, taxRate := 18, hsnSac := none,
                taxableValue := 1000, cgstAmount := 90, sgstAmount := 90, igstAmount := 0,
                total := 1180 }],
    subTotal := some 1000, taxAmount := some 180, cgstTotal := some 90, sgstTotal := some 90,
    igstTotal := some 0, discountTotal := some 0, shippingCharge := some 0 }

/-- A request with a discount of 150 on one unit at 100. -/
def overDiscountBody : CreatePayload :=
  { customerId := some "c1",
    items := some [{ productId := some "p1", quantity := some 1, unitPrice := some 100,
                     discount := some 150, taxRate := some 0 }] }

/-- Three tax amounts sit in the channel of a supply type: no central and state amount for
'inter', no integrated amount for any other supply type ('intra' included). -/
def InChannel (supplyType : String) (cgst sgst igst : ℚ) : Prop :=
  (supplyType = "inter" → cgst = 0 ∧ sgst = 0) ∧ (supplyType ≠ "inter" → igst = 0)

/-- The tax amounts of the stored lines and the stored tax totals of an invoice sit in the
channel of its supply type. -/
def TaxInChannel (d : InvoiceDoc) : Prop :=
  (∀ l ∈ d.items, InChannel d.supplyType l.cgstAmount l.sgstAmount l.igstAmount)
  ∧ InChannel d.supplyType (asNumber d.cgstTotal) (asNumber d.sgstTotal) (asNumber d.igstTotal)

/-- A call that leaves the supply type as it is or recomputes the lines: every payment, and an
update that resends the items or does not supply `supplyType`. -/
def KeepsChannel : InvoiceOp → Prop
  | .markPaid _ _ _ => True
  | .update payload => payload.items ≠ none ∨ payload.supplyType = none

/-! ## Binary64 arithmetic -/

/-- Round to the nearest integer, ties to the even one. -/
def roundHalfEven (x : ℚ) : ℤ :=
  let f := ⌊x⌋
  let d := x - f
  if d < 1 / 2 then f
  else if 1 / 2 < d then f + 1
  else if f % 2 = 0 then f else f + 1

/-- The binary64 number nearest to `x`, ties to even: the value of a JavaScript arithmetic
operation whose exact result is `x`, and of a decimal read as a `Number`. The exponent is the
integer logarithm of `|x|` in base 2, not below -1022 (subnormal numbers), and the significand
has 53 bits. Overflow to an infinity is outside the model. -/
def roundDouble (x : ℚ) : ℚ :=
  if x = 0 then 0
  else
    let e := max (Int.log 2 |x|) (-1022)
    roundHalfEven (x / 2 ^ (e - 52)) * 2 ^ (e - 52)

/-- The accumulator of `addToGroup` with the sum rounded by `round`. -/
def addToGroupRounded (round : ℚ → ℚ) (groups : List PaidGroup) (p : Payment) :
    List PaidGroup :=
  match groups with
  | [] => [{ _id := p.invoice_id, total := p.amount_received }]
  | g :: gs =>
    if g._id = p.invoice_id then
      { _id := g._id, total := round (g.total + p.amount_received) } :: gs
    else g :: addToGroupRounded round gs p

/-- The stage `$group` of `groupByInvoice` with the sums rounded by `round`. -/
def groupByInvoiceRounded (round : ℚ → ℚ) (matched : List Payment) : List PaidGroup :=
  matched.foldl (addToGroupRounded round) []

/-- Source `getInvoiceById` (lines 290-310) with its arithmetic rounded by `round`: the sums
of `$sum` over the `Number` amounts, the reading of the Decimal128 grand total by `asNumber`,
and the subtraction `grand - realPaid`. With `roundDouble` this is the binary64 arithmetic of
the code; with the identity it is `getInvoiceById`. -/
def getInvoiceByIdRounded (round : ℚ → ℚ) (invoices : List InvoiceDoc)
    (payments : List Payment) (id : String) : Option InvoiceDoc :=
  match findById invoices id with
  | none => none
  | some doc =>
    let paidAgg :=
      groupByInvoiceRounded round (payments.filter (fun p => p.invoice_id == doc._id))
    let realPaid := orZero (paidAgg.head?.map (fun g => g.total))
    let grand := round (asNumber doc.grandTotal)
    some { doc with
      amountPaid := some realPaid
      balanceDue := some (max 0 (round (grand - realPaid)))
      paymentStatus := derivedStatus realPaid grand }

/-- An invoice of grand total 100.01. -/
def decimalInvoice : InvoiceDoc :=
  { _id := settledInvoiceId, grandTotal := some (10001 / 100) }

/-- Two ledger entries of 24.99 and 75.02, stored as the `Number` values of these decimals. -/
def decimalLedger : List Payment :=
  [{ invoice_id := settledInvoiceId, amount_received := roundDouble (2499 / 100) },
   { invoice_id := settledInvoiceId, amount_received := roundDouble (7502 / 100) }]

/-! # Theorems -/

/-! ## Totals balance (C1) -/

theorem intra_ne_inter : ¬ ("intra" = SUPPLY_INTER) := by decide

theorem foldl_calcStep_subTotal (supplyType : String) (items : List InvoiceItem) (acc : Totals) :
    (items.foldl (calcStep supplyType) acc).subTotal =
      acc.subTotal + (items.map (fun it => asNumber it.quantity * asNumber it.unitPrice)).sum := by
  induction items generalizing acc with
  | nil => simp
  | cons it rest ih =>
    rw [List.foldl_cons, ih]
    simp [calcStep, add_assoc]

theorem foldl_calcStep_discountTotal (supplyType : String) (items : List InvoiceItem)
    (acc : Totals) :
    (items.foldl (calcStep supplyType) acc).discountTotal =
      acc.discountTotal + (items.map (fun it => asNumber it.discount)).sum := by
  induction items generalizing acc with
  | nil => simp
  | cons it rest ih =>
    rw [List.foldl_cons, ih]
    simp [calcStep, add_assoc]

/-- C1: for every list of lines, shipping charge and invoice-level discount, the totals of
`calculateTotals` satisfy `grandTotal = subTotal - discountTotal + taxTotal + shipping - discount`
with `taxTotal = cgstTotal + sgstTotal + igstTotal`, `subTotal` the sum of `quantity * unitPrice`
and `discountTotal` the sum of the line discounts; `finalizeTotals` satisfies the same balance
for every base totals object. -/
theorem calculateTotals_grandTotal_balances (items : List InvoiceItem) (shipping discount : ℚ)
    (supplyType : String) (baseTotals : Totals) :
    ((calculateTotals items shipping discount supplyType).grandTotal =
        (calculateTotals items shipping discount supplyType).subTotal
          - (calculateTotals items shipping discount supplyType).discountTotal
          + (calculateTotals items shipping discount supplyType).taxTotal
          + shipping - discount
      ∧ (calculateTotals items shipping discount supplyType).taxTotal =
        (calculateTotals items shipping discount supplyType).cgstTotal
          + (calculateTotals items shipping discount supplyType).sgstTotal
          + (calculateTotals items shipping discount supplyType).igstTotal
      ∧ (calculateTotals items shipping discount supplyType).shipping = shipping
      ∧ (calculateTotals items shipping discount supplyType).subTotal =
        (items.map (fun it => asNumber it.quantity * asNumber it.unitPrice)).sum
      ∧ (calculateTotals items shipping discount supplyType).discountTotal =
        (items.map (fun it => asNumber it.discount)).sum)
    ∧ ((finalizeTotals baseTotals shipping discount).grandTotal =
        baseTotals.subTotal - baseTotals.discountTotal
          + (finalizeTotals baseTotals shipping discount).taxTotal + shipping - discount
      ∧ (finalizeTotals baseTotals shipping discount).taxTotal =
        baseTotals.cgstTotal + baseTotals.sgstTotal + baseTotals.igstTotal
      ∧ (finalizeTotals baseTotals shipping discount).subTotal = baseTotals.subTotal
      ∧ (finalizeTotals baseTotals shipping discount).discountTotal = baseTotals.discountTotal) := by
  refine ⟨⟨rfl, rfl, rfl, ?_, ?_⟩, rfl, rfl, rfl, rfl⟩
  · show (items.foldl (calcStep supplyType) zeroTotals).subTotal = _
    rw [foldl_calcStep_subTotal]; simp [zeroTotals]
  · show (items.foldl (calcStep supplyType) zeroTotals).discountTotal = _
    rw [foldl_calcStep_discountTotal]; simp [zeroTotals]

/-- The invoice-totals scenario of the specification: 300 - 0 + 54 + 50 - 20 = 384. -/
theorem calculateTotals_scenario :
    calculateTotals
      [{ quantity := some 2, unitPrice := some 100, taxRate := some 18 },
       { quantity := some 1, unitPrice := some 100, taxRate := some 18 }] 50 20 "intra" =
    { subTotal := 300, discountTotal := 0, cgstTotal := 27, sgstTotal := 27, igstTotal := 0,
      taxTotal := 54, shipping := 50, grandTotal := 384 } := by
  norm_num [calculateTotals, finalizeTotals, calcStep, splitTaxAmounts, asNumber, zeroTotals,
    intra_ne_inter]

/-! ## Tax split (C2) -/

theorem div_hundred_ne_zero (x : ℚ) (h : x ≠ 0) : ¬ (x / 100 = 0) :=
  div_ne_zero h (by norm_num)

theorem splitTaxAmounts_zero (t r : ℚ) (s : String) (h : t * r = 0) :
    splitTaxAmounts t r s = { cgst := 0, sgst := 0, igst := 0 } := by
  simp [splitTaxAmounts, h]

theorem splitTaxAmounts_inter (t r : ℚ) (h : t * r ≠ 0) :
    splitTaxAmounts t r "inter" = { cgst := 0, sgst := 0, igst := t * r / 100 } := by
  simp [splitTaxAmounts, div_hundred_ne_zero _ h, SUPPLY_INTER]

theorem splitTaxAmounts_not_inter (t r : ℚ) (s : String) (hs : s ≠ "inter") (h : t * r ≠ 0) :
    splitTaxAmounts t r s =
      { cgst := t * r / 100 / 2, sgst := t * r / 100 / 2, igst := 0 } := by
  simp [splitTaxAmounts, div_hundred_ne_zero _ h, SUPPLY_INTER, hs]

/-- C2: `splitTaxAmounts t r 'intra'` returns `cgst = sgst = t*r/200` and `igst = 0`,
`splitTaxAmounts t r 'inter'` returns `cgst = sgst = 0` and `igst = t*r/100`, and the three
components sum to `t*r/100` for both supply types (for every `t` and `r`, in particular for the
non-negative ones of the claim). -/
theorem splitTaxAmounts_split_kind_invariant (t r : ℚ) :
    splitTaxAmounts t r "intra" = { cgst := t * r / 200, sgst := t * r / 200, igst := 0 }
    ∧ splitTaxAmounts t r "inter" = { cgst := 0, sgst := 0, igst := t * r / 100 }
    ∧ (splitTaxAmounts t r "intra").cgst + (splitTaxAmounts t r "intra").sgst
        + (splitTaxAmounts t r "intra").igst = t * r / 100
    ∧ (splitTaxAmounts t r "inter").cgst + (splitTaxAmounts t r "inter").sgst
        + (splitTaxAmounts t r "inter").igst = t * r / 100 := by
  have hintra : splitTaxAmounts t r "intra"
      = { cgst := t * r / 200, sgst := t * r / 200, igst := 0 } := by
    by_cases h : t * r = 0
    · rw [splitTaxAmounts_zero t r _ h, h]; simp
    · rw [splitTaxAmounts_not_inter t r _ (by decide) h]
      congr 1 <;> ring
  have hinter : splitTaxAmounts t r "inter"
      = { cgst := 0, sgst := 0, igst := t * r / 100 } := by
    by_cases h : t * r = 0
    · rw [splitTaxAmounts_zero t r _ h, h]; simp
    · exact splitTaxAmounts_inter t r h
  refine ⟨hintra, hinter, ?_, ?_⟩
  · rw [hintra]; ring
  · rw [hinter]; ring

/-! ## Materialised lines (C3, C4) -/

theorem foldl_prepareStep_mappedItems (catalog : List CatalogDoc) (supplyType : String)
    (items : List RawLine) (acc : Prepared) :
    (items.foldl (prepareStep catalog supplyType) acc).mappedItems =
      acc.mappedItems ++ items.map (mapLine catalog supplyType) := by
  induction items generalizing acc with
  | nil => simp
  | cons raw rest ih =>
    rw [List.foldl_cons, ih]
    simp [prepareStep]

/-- The promise of `prepareInvoiceLineItems` always resolves, with one line per requested line. -/
theorem prepareInvoiceLineItems_ok (itemColl : List CatalogDoc) (items : List RawLine)
    (supplyType : String) :
    ∃ p, prepareInvoiceLineItems itemColl items supplyType = .ok p
      ∧ p.mappedItems = items.map (mapLine (buildCatalog itemColl items) supplyType) := by
  unfold prepareInvoiceLineItems
  by_cases h : items.length = 0
  · have h0 : items = [] := List.length_eq_zero.mp h
    subst h0
    exact ⟨_, rfl, rfl⟩
  · rw [if_neg h]
    exact ⟨_, rfl, by rw [foldl_prepareStep_mappedItems]; simp⟩

theorem mapLine_taxableValue (catalog : List CatalogDoc) (supplyType : String) (raw : RawLine) :
    (mapLine catalog supplyType raw).taxableValue =
      max ((mapLine catalog supplyType raw).quantity * (mapLine catalog supplyType raw).unitPrice
        - (mapLine catalog supplyType raw).discount) 0 := rfl

theorem mapLine_amounts (catalog : List CatalogDoc) (supplyType : String) (raw : RawLine) :
    (mapLine catalog supplyType raw).cgstAmount =
        (splitTaxAmounts (mapLine catalog supplyType raw).taxableValue
          (mapLine catalog supplyType raw).taxRate supplyType).cgst
    ∧ (mapLine catalog supplyType raw).sgstAmount =
        (splitTaxAmounts (mapLine catalog supplyType raw).taxableValue
          (mapLine catalog supplyType raw).taxRate supplyType).sgst
    ∧ (mapLine catalog supplyType raw).igstAmount =
        (splitTaxAmounts (mapLine catalog supplyType raw).taxableValue
          (mapLine catalog supplyType raw).taxRate supplyType).igst := ⟨rfl, rfl, rfl⟩

/-- C3, as stated, fails: a requested line without a tax rate (quantity 2, price 100) is
materialised under the supply type 'intra' with `cgstAmount`, `sgstAmount` and `igstAmount` all
zero, so neither the same-region pair nor the cross-region amount is non-zero. -/
theorem prepareInvoiceLineItems_untaxed_line_all_zero :
    ∃ p, prepareInvoiceLineItems []
        [{ productId := some "p1", quantity := some 2, unitPrice := some 100 }] "intra" = .ok p
      ∧ ∃ l ∈ p.mappedItems, l.cgstAmount = 0 ∧ l.sgstAmount = 0 ∧ l.igstAmount = 0 := by
  refine ⟨_, rfl, _, List.mem_singleton.mpr rfl, ?_, ?_, ?_⟩ <;>
    simp [mapLine, splitTaxAmounts, toDecimal, nullish, jsOr, buildCatalog, findItems,
      catalogGet, catalogEntryOf]

/-- C3 amended: for every line materialised by `prepareInvoiceLineItems`, when the line's tax
`taxableValue * taxRate / 100` is zero all three amounts are zero; when it is non-zero exactly
one channel is non-zero, fixed by the supply type: `igstAmount` for 'inter' (the pair is zero),
the equal pair `cgstAmount = sgstAmount` for every other supply type, 'intra' included
(`igstAmount` is zero). -/
theorem prepareInvoiceLineItems_tax_channels (itemColl : List CatalogDoc) (items : List RawLine)
    (supplyType : String) :
    ∃ p, prepareInvoiceLineItems itemColl items supplyType = .ok p ∧ ∀ l ∈ p.mappedItems,
      (l.taxableValue * l.taxRate = 0 →
        l.cgstAmount = 0 ∧ l.sgstAmount = 0 ∧ l.igstAmount = 0)
      ∧ (l.taxableValue * l.taxRate ≠ 0 → supplyType = "inter" →
        l.igstAmount ≠ 0 ∧ l.cgstAmount = 0 ∧ l.sgstAmount = 0)
      ∧ (l.taxableValue * l.taxRate ≠ 0 → supplyType ≠ "inter" →
        l.cgstAmount ≠ 0 ∧ l.sgstAmount ≠ 0 ∧ l.cgstAmount = l.sgstAmount
          ∧ l.igstAmount = 0) := by
  obtain ⟨p, hp, hmap⟩ := prepareInvoiceLineItems_ok itemColl items supplyType
  refine ⟨p, hp, fun l hl => ?_⟩
  rw [hmap] at hl
  obtain ⟨raw, -, rfl⟩ := List.mem_map.mp hl
  obtain ⟨hc, hs, hi⟩ := mapLine_amounts (buildCatalog itemColl items) supplyType raw
  refine ⟨fun h0 => ?_, fun hne hst => ?_, fun hne hst => ?_⟩
  · rw [hc, hs, hi, splitTaxAmounts_zero _ _ _ h0]
    exact ⟨rfl, rfl, rfl⟩
  · subst hst
    rw [hc, hs, hi, splitTaxAmounts_inter _ _ hne]
    exact ⟨div_hundred_ne_zero _ hne, rfl, rfl⟩
  · rw [hc, hs, hi, splitTaxAmounts_not_inter _ _ _ hst hne]
    have : (mapLine (buildCatalog itemColl items) supplyType raw).taxableValue
        * (mapLine (buildCatalog itemColl items) supplyType raw).taxRate / 100 / 2 ≠ 0 :=
      div_ne_zero (div_hundred_ne_zero _ hne) (by norm_num)
    exact ⟨this, this, rfl, rfl⟩

/-- The tax-split scenarios of the specification: taxable 200, 18 + 18 + 0 (same region) and
0 + 0 + 36 (cross region), line total 236. -/
theorem prepareInvoiceLineItems_scenario :
    prepareInvoiceLineItems [] [sampleLine] "intra" =
      .ok { mappedItems :=
              [{ productId := some "p1", description := some "", quantity := 2, unitPrice := 100,
                 discount := 0, taxRate := 18, hsnSac := none, taxableValue := 200,
                 cgstAmount := 18, sgstAmount := 18, igstAmount := 0, total := 236 }],
            totals := { subTotal := 200, discountTotal := 0, cgstTotal := 18, sgstTotal := 18,
                        igstTotal := 0 } }
    ∧ prepareInvoiceLineItems [] [sampleLine] "inter" =
      .ok { mappedItems :=
              [{ productId := some "p1", description := some "", quantity := 2, unitPrice := 100,
                 discount := 0, taxRate := 18, hsnSac := none, taxableValue := 200,
                 cgstAmount := 0, sgstAmount := 0, igstAmount := 36, total := 236 }],
            totals := { subTotal := 200, discountTotal := 0, cgstTotal := 0, sgstTotal := 0,
                        igstTotal := 36 } } := by
  constructor <;>
    simp [prepareInvoiceLineItems, prepareStep, addLine, zeroTotals, mapLine, sampleLine,
      splitTaxAmounts, toDecimal, nullish, jsOr, buildCatalog, findItems, catalogGet,
      catalogEntryOf, SUPPLY_INTER] <;>
    norm_num

/-- Witness of C3 amended on the same-region scenario line. -/
theorem prepareInvoiceLineItems_tax_channels_witness :
    ∃ p, prepareInvoiceLineItems [] [sampleLine] "intra" = .ok p ∧ ∀ l ∈ p.mappedItems,
      (l.taxableValue * l.taxRate = 0 →
        l.cgstAmount = 0 ∧ l.sgstAmount = 0 ∧ l.igstAmount = 0)
      ∧ (l.taxableValue * l.taxRate ≠ 0 → "intra" = "inter" →
        l.igstAmount ≠ 0 ∧ l.cgstAmount = 0 ∧ l.sgstAmount = 0)
      ∧ (l.taxableValue * l.taxRate ≠ 0 → "intra" ≠ "inter" →
        l.cgstAmount ≠ 0 ∧ l.sgstAmount ≠ 0 ∧ l.cgstAmount = l.sgstAmount
          ∧ l.igstAmount = 0) :=
  prepareInvoiceLineItems_tax_channels [] [sampleLine] "intra"

/-! ## Derived payment state (C5, C6) -/

theorem orZero_some (q : ℚ) : orZero (some q) = q := by
  show (if q = 0 then 0 else q) = q
  split_ifs with h
  · exact h.symm
  · rfl

theorem foldl_addToGroup_same (id : String) (ms : List Payment)
    (h : ∀ p ∈ ms, p.invoice_id = id) (g : ℚ) :
    ms.foldl addToGroup [{ _id := id, total := g }] =
      [{ _id := id, total := g + (ms.map (fun p => p.amount_received)).sum }] := by
  induction ms generalizing g with
  | nil => simp
  | cons p rest ih =>
    have hp : p.invoice_id = id := h p (List.mem_cons_self _ _)
    have hstep : addToGroup [{ _id := id, total := g }] p
        = [{ _id := id, total := g + p.amount_received }] := by
      simp [addToGroup, hp]
    rw [List.foldl_cons, hstep, ih (fun q hq => h q (List.mem_cons_of_mem _ hq))]
    simp [add_assoc]

/-- The amount read from the aggregation is the sum of the matched ledger entries. -/
theorem realPaid_eq_sum (id : String) (ms : List Payment) (h : ∀ p ∈ ms, p.invoice_id = id) :
    orZero ((groupByInvoice ms).head?.map (fun g => g.total)) =
      (ms.map (fun p => p.amount_received)).sum := by
  cases ms with
  | nil => rfl
  | cons p rest =>
    have hp : p.invoice_id = id := h p (List.mem_cons_self _ _)
    have h1 : groupByInvoice (p :: rest)
        = rest.foldl addToGroup [{ _id := id, total := p.amount_received }] := by
      simp [groupByInvoice, addToGroup, hp]
    rw [h1, foldl_addToGroup_same id rest (fun q hq => h q (List.mem_cons_of_mem _ hq))]
    simp [orZero_some]

theorem derivedStatus_paid_iff (x g : ℚ) : derivedStatus x g = "Paid" ↔ x ≥ g := by
  unfold derivedStatus
  by_cases h : x ≥ g
  · simp [h]
  · by_cases h2 : x > 0
    · simp [h, h2]
    · simp [h, h2]

/-- In exact arithmetic: for a stored invoice of grand total `G` and a ledger whose entries
recorded against it total `X`, `getInvoiceById` returns `amountPaid = X`,
`balanceDue = max(G - X, 0)` and `paymentStatus = 'Paid'` exactly when `X >= G`. -/
theorem getInvoiceById_derived_state (invoices : List InvoiceDoc) (payments : List Payment)
    (id : String) (doc : InvoiceDoc) (hdoc : findById invoices id = some doc) :
    ∃ r, getInvoiceById invoices payments id = some r
      ∧ r.amountPaid = some
          ((payments.filter (fun p => p.invoice_id == doc._id)).map
            (fun p => p.amount_received)).sum
      ∧ r.balanceDue = some (max (asNumber doc.grandTotal
          - ((payments.filter (fun p => p.invoice_id == doc._id)).map
            (fun p => p.amount_received)).sum) 0)
      ∧ (r.paymentStatus = "Paid" ↔
          ((payments.filter (fun p => p.invoice_id == doc._id)).map
            (fun p => p.amount_received)).sum ≥ asNumber doc.grandTotal) := by
  have hsum := realPaid_eq_sum doc._id (payments.filter (fun p => p.invoice_id == doc._id))
    (fun p hp => by simpa using (List.mem_filter.mp hp).2)
  refine ⟨_, by rw [getInvoiceById, hdoc], ?_, ?_, ?_⟩
  · simp only [hsum]
  · simp only [hsum, max_comm]
  · simp only [hsum]
    exact derivedStatus_paid_iff _ _

/-- The derived state in exact arithmetic on the settlement scenario. -/
theorem getInvoiceById_derived_state_witness :
    findById sampleInvoices "inv1" = some { _id := "inv1", grandTotal := some 384 }
    ∧ ∃ r, getInvoiceById sampleInvoices sampleLedger "inv1" = some r
      ∧ r.amountPaid = some
          ((sampleLedger.filter (fun p => p.invoice_id == "inv1")).map
            (fun p => p.amount_received)).sum
      ∧ r.balanceDue = some (max (asNumber (some 384)
          - ((sampleLedger.filter (fun p => p.invoice_id == "inv1")).map
            (fun p => p.amount_received)).sum) 0)
      ∧ (r.paymentStatus = "Paid" ↔
          ((sampleLedger.filter (fun p => p.invoice_id == "inv1")).map
            (fun p => p.amount_received)).sum ≥ asNumber (some 384)) :=
  ⟨by decide,
    getInvoiceById_derived_state sampleInvoices sampleLedger "inv1"
      { _id := "inv1", grandTotal := some 384 } (by decide)⟩

/-- The settlement scenario of the specification: 200 then 184 against 384 gives paid 384,
balance 0, status Paid. -/
theorem getInvoiceById_scenario :
    getInvoiceById sampleInvoices sampleLedger "inv1" =
      some { _id := "inv1", grandTotal := some 384, amountPaid := some 384,
             balanceDue := some 0, paymentStatus := "Paid" } := by
  simp [getInvoiceById, findById, sampleInvoices, sampleLedger, groupByInvoice, addToGroup,
    orZero, asNumber, derivedStatus]
  norm_num

theorem map_eq_of_eraseCached {β : Type} (f : InvoiceDoc → β)
    (hf : ∀ d, f (eraseCached d) = f d) (l1 l2 : List InvoiceDoc)
    (h : l1.map eraseCached = l2.map eraseCached) : l1.map f = l2.map f := by
  have h2 := congrArg (List.map f) h
  simpa [List.map_map, Function.comp_def, hf] using h2

theorem filter_eraseCached (query : Query) (filters : Filters) (c : List InvoiceDoc) :
    (c.filter (matchesQuery query filters)).map eraseCached =
      (c.map eraseCached).filter (matchesQuery query filters) := by
  rw [List.filter_map]
  rfl

theorem mergeSort_eraseCached (l : List InvoiceDoc) :
    (l.mergeSort newestFirst).map eraseCached = (l.map eraseCached).mergeSort newestFirst :=
  List.map_mergeSort (fun _ _ _ _ => rfl)

/-- The page selected by `listInvoices` depends on the collection only up to the cached
payment fields. -/
theorem select_eraseCached (query : Query) (filters : Filters) (skip limit : Nat)
    (c1 c2 : List InvoiceDoc) (h : c1.map eraseCached = c2.map eraseCached) :
    (if limit = 0 then ((c1.filter (matchesQuery query filters)).mergeSort newestFirst).drop skip
      else (((c1.filter (matchesQuery query filters)).mergeSort newestFirst).drop skip).take
        limit).map eraseCached =
    (if limit = 0 then ((c2.filter (matchesQuery query filters)).mergeSort newestFirst).drop skip
      else (((c2.filter (matchesQuery query filters)).mergeSort newestFirst).drop skip).take
        limit).map eraseCached := by
  have hs : ((c1.filter (matchesQuery query filters)).mergeSort newestFirst).map eraseCached
      = ((c2.filter (matchesQuery query filters)).mergeSort newestFirst).map eraseCached := by
    rw [mergeSort_eraseCached, mergeSort_eraseCached, filter_eraseCached, filter_eraseCached, h]
  split_ifs
  · rw [List.map_drop, List.map_drop, hs]
  · rw [List.map_take, List.map_take, List.map_drop, List.map_drop, hs]

theorem findById_eraseCached (c : List InvoiceDoc) (id : String) :
    (findById c id).map eraseCached = findById (c.map eraseCached) id := by
  induction c with
  | nil => rfl
  | cons d rest ih =>
    simp only [findById, List.map_cons, List.find?_cons] at ih ⊢
    have : (eraseCached d)._id = d._id := rfl
    rw [this]
    cases hd : (d._id == id)
    · simpa using ih
    · simp

theorem finishPage_congr (payments : List Payment) (docs1 docs2 : List InvoiceDoc)
    (total page limit : Nat) (h : docs1.map eraseCached = docs2.map eraseCached) :
    (if (docs1.map (fun d => d._id)).length > 0 then
        (Except.ok
          { data := docs1.map (deriveListed (groupByInvoice
              (payments.filter (fun p => (docs1.map (fun d => d._id)).contains p.invoice_id))))
            total := total, page := page, limit := limit } : Except String InvoicePage)
      else .ok { data := docs1, total := total, page := page, limit := limit }) =
    (if (docs2.map (fun d => d._id)).length > 0 then
        (Except.ok
          { data := docs2.map (deriveListed (groupByInvoice
              (payments.filter (fun p => (docs2.map (fun d => d._id)).contains p.invoice_id))))
            total := total, page := page, limit := limit } : Except String InvoicePage)
      else .ok { data := docs2, total := total, page := page, limit := limit }) := by
  have hids := map_eq_of_eraseCached (fun d => d._id) (fun _ => rfl) _ _ h
  have hlen : docs1.length = docs2.length := by
    simpa using congrArg List.length h
  rw [hids]
  by_cases hpos : (docs2.map (fun d => d._id)).length > 0
  · rw [if_pos hpos, if_pos hpos]
    rw [map_eq_of_eraseCached (deriveListed _) (fun _ => rfl) _ _ h]
  · rw [if_neg hpos, if_neg hpos]
    have h2 : docs2 = [] := by simpa using hpos
    have h1 : docs1 = [] := by
      apply List.eq_nil_of_length_eq_zero
      rw [hlen, h2]; rfl
    rw [h1, h2]

/-- C6: two invoice collections that differ only in the stored `amountPaid`, `balanceDue` and
`paymentStatus` of their invoices give, with the same ledger, the same result of
`getInvoiceById` and of `listInvoices` (so the same derived payment state). -/
theorem derived_state_ignores_cached_fields (c1 c2 : List InvoiceDoc) (payments : List Payment)
    (h : c1.map eraseCached = c2.map eraseCached) (id : String) (query : Query)
    (page limit : Nat) (filters : Filters) :
    getInvoiceById c1 payments id = getInvoiceById c2 payments id
    ∧ listInvoices c1 payments query page limit filters =
        listInvoices c2 payments query page limit filters := by
  constructor
  · have hf : (findById c1 id).map eraseCached = (findById c2 id).map eraseCached := by
      rw [findById_eraseCached, findById_eraseCached, h]
    unfold getInvoiceById
    cases h1 : findById c1 id with
    | none =>
      cases h2 : findById c2 id with
      | none => rfl
      | some d2 => rw [h1, h2] at hf; simp at hf
    | some d1 =>
      cases h2 : findById c2 id with
      | none => rw [h1, h2] at hf; simp at hf
      | some d2 =>
        rw [h1, h2] at hf
        have he : eraseCached d1 = eraseCached d2 := by simpa using hf
        cases d1; cases d2
        simp only [eraseCached, InvoiceDoc.mk.injEq] at he
        simp_all
  · unfold listInvoices
    by_cases hpage : page = 0 ∧ limit ≠ 0
    · rw [if_pos hpage, if_pos hpage]
    · rw [if_neg hpage, if_neg hpage]
      have hsel := select_eraseCached query filters ((page - 1) * limit) limit c1 c2 h
      have hlen : (c1.filter (matchesQuery query filters)).length
          = (c2.filter (matchesQuery query filters)).length := by
        have := congrArg List.length
          (show (c1.filter (matchesQuery query filters)).map eraseCached
            = (c2.filter (matchesQuery query filters)).map eraseCached by
              rw [filter_eraseCached, filter_eraseCached, h])
        simpa using this
      dsimp only
      rw [hlen]
      exact finishPage_congr payments _ _ _ page limit hsel

/-- Witness of C6: the scenario invoice stored with stale cached fields and with none. -/
theorem derived_state_ignores_cached_fields_witness :
    staleInvoices.map eraseCached = sampleInvoices.map eraseCached
    ∧ getInvoiceById staleInvoices sampleLedger "inv1"
        = getInvoiceById sampleInvoices sampleLedger "inv1"
    ∧ listInvoices staleInvoices sampleLedger {} 1 20 {}
        = listInvoices sampleInvoices sampleLedger {} 1 20 {} :=
  ⟨by decide,
    derived_state_ignores_cached_fields staleInvoices sampleInvoices sampleLedger (by decide)
      "inv1" {} 1 20 {}⟩

/-- The listing derives the same state as the single read on the settlement scenario, whatever
the cached fields hold. -/
theorem listInvoices_scenario :
    listInvoices staleInvoices sampleLedger {} 1 20 {} =
      .ok { data := [{ _id := "inv1", grandTotal := some 384, amountPaid := some 384,
                       balanceDue := some 0, paymentStatus := "Paid" }],
            total := 1, page := 1, limit := 20 } := by
  simp [listInvoices, staleInvoices, sampleLedger, matchesQuery, truthy, deriveListed,
    idToPaidGet, groupByInvoice, addToGroup, orZero, asNumber, derivedStatus]
  norm_num

/-! ## Derived payment state in binary64 (C5) -/

theorem roundHalfEven_intCast (k : ℤ) : roundHalfEven (k : ℚ) = k := by
  unfold roundHalfEven
  simp

theorem roundHalfEven_nonpos (x : ℚ) (hx : x ≤ 0) : roundHalfEven x ≤ 0 := by
  unfold roundHalfEven
  have hf : ⌊x⌋ ≤ 0 := by
    have := Int.floor_le x
    have h2 : ((⌊x⌋ : ℤ) : ℚ) ≤ 0 := le_trans this hx
    exact_mod_cast h2
  have key : x - ⌊x⌋ ≥ 1 / 2 → ⌊x⌋ + 1 ≤ 0 := by
    intro hd
    by_contra hcon
    have h0 : ⌊x⌋ = 0 := by omega
    rw [h0] at hd
    simp at hd
    linarith
  dsimp only
  split_ifs with h1 h2 h3
  · exact hf
  · exact key (le_of_lt h2)
  · exact hf
  · exact key (not_lt.mp h1)

/-- Rounding to binary64 keeps a number that is not positive not positive. -/
theorem roundDouble_nonpos (x : ℚ) (hx : x ≤ 0) : roundDouble x ≤ 0 := by
  unfold roundDouble
  split_ifs with h0
  · exact le_refl _
  · dsimp only
    have hp : (0 : ℚ) < 2 ^ (max (Int.log 2 |x|) (-1022) - 52) := zpow_pos (by norm_num) _
    have hm : x / 2 ^ (max (Int.log 2 |x|) (-1022) - 52) ≤ 0 :=
      div_nonpos_of_nonpos_of_nonneg hx (le_of_lt hp)
    have hr := roundHalfEven_nonpos _ hm
    have hr2 : ((roundHalfEven (x / 2 ^ (max (Int.log 2 |x|) (-1022) - 52)) : ℤ) : ℚ) ≤ 0 := by
      exact_mod_cast hr
    exact mul_nonpos_of_nonpos_of_nonneg hr2 (le_of_lt hp)

/-- An integer below 2^53 in absolute value is a binary64 number. -/
theorem roundDouble_intCast (n : ℤ) (h : |n| < 2 ^ 53) : roundDouble (n : ℚ) = n := by
  unfold roundDouble
  by_cases h0 : (n : ℚ) = 0
  · rw [if_pos h0, h0]
  rw [if_neg h0]
  dsimp only
  have hn0 : n ≠ 0 := by
    intro hh
    exact h0 (by rw [hh]; simp)
  have habs1 : (1 : ℚ) ≤ |(n : ℚ)| := by
    have : (1 : ℤ) ≤ |n| := Int.one_le_abs hn0
    exact_mod_cast this
  have habs2 : |(n : ℚ)| < 2 ^ (53 : ℤ) := by
    have : ((|n| : ℤ) : ℚ) < ((2 ^ 53 : ℤ) : ℚ) := by exact_mod_cast h
    rw [Int.cast_abs] at this
    calc |(n : ℚ)| < ((2 ^ 53 : ℤ) : ℚ) := this
      _ = 2 ^ (53 : ℤ) := by norm_num
  have hpos : (0 : ℚ) < |(n : ℚ)| := lt_of_lt_of_le one_pos habs1
  have he0 : 0 ≤ Int.log 2 |(n : ℚ)| := by
    rw [← Int.zpow_le_iff_le_log (by norm_num) hpos]
    simpa using habs1
  have he1 : Int.log 2 |(n : ℚ)| < 53 := by
    rw [← Int.lt_zpow_iff_log_lt (by norm_num) hpos]
    exact_mod_cast habs2
  have hmax : max (Int.log 2 |(n : ℚ)|) (-1022) = Int.log 2 |(n : ℚ)| := max_eq_left (by omega)
  rw [hmax]
  obtain ⟨k, hk⟩ : ∃ k : ℕ, 52 - Int.log 2 |(n : ℚ)| = k :=
    ⟨(52 - Int.log 2 |(n : ℚ)|).toNat, by omega⟩
  have hexp : Int.log 2 |(n : ℚ)| - 52 = -(k : ℤ) := by omega
  rw [hexp, zpow_neg, zpow_natCast]
  have hdiv : (n : ℚ) / ((2 : ℚ) ^ k)⁻¹ = ((n * 2 ^ k : ℤ) : ℚ) := by
    rw [div_inv_eq_mul]
    push_cast
    ring
  rw [hdiv, roundHalfEven_intCast]
  push_cast
  have h2 : ((2 : ℚ) ^ k) ≠ 0 := pow_ne_zero _ (by norm_num)
  field_simp

theorem roundDouble_of_int (x : ℚ) (hx : ∃ n : ℤ, x = n) (hb : |x| < 2 ^ 53) :
    roundDouble x = x := by
  obtain ⟨n, rfl⟩ := hx
  apply roundDouble_intCast
  have h1 : ((|n| : ℤ) : ℚ) < ((2 ^ 53 : ℤ) : ℚ) := by
    rw [Int.cast_abs]
    calc |(n : ℚ)| < 2 ^ 53 := hb
      _ = ((2 ^ 53 : ℤ) : ℚ) := by norm_num
  exact_mod_cast h1

theorem foldl_addToGroupRounded_int (id : String) (ms : List Payment)
    (h : ∀ p ∈ ms, p.invoice_id = id) (hint : ∀ p ∈ ms, ∃ a : ℤ, p.amount_received = a)
    (g : ℚ) (hg : ∃ n : ℤ, g = n)
    (hb : |g| + (ms.map (fun p => |p.amount_received|)).sum < 2 ^ 53) :
    ms.foldl (addToGroupRounded roundDouble) [{ _id := id, total := g }] =
      [{ _id := id, total := g + (ms.map (fun p => p.amount_received)).sum }] := by
  induction ms generalizing g with
  | nil => simp
  | cons p rest ih =>
    have hp : p.invoice_id = id := h p (List.mem_cons_self _ _)
    obtain ⟨a, ha⟩ := hint p (List.mem_cons_self _ _)
    obtain ⟨n, hn⟩ := hg
    simp only [List.map_cons, List.sum_cons] at hb
    have hrest : 0 ≤ (rest.map (fun p => |p.amount_received|)).sum := by
      apply List.sum_nonneg
      intro x hx
      obtain ⟨q, -, rfl⟩ := List.mem_map.mp hx
      exact abs_nonneg _
    have htri : |g + p.amount_received| ≤ |g| + |p.amount_received| := abs_add _ _
    have hround : roundDouble (g + p.amount_received) = g + p.amount_received := by
      apply roundDouble_of_int
      · exact ⟨n + a, by rw [hn, ha]; push_cast; rfl⟩
      · linarith
    have hstep : addToGroupRounded roundDouble [{ _id := id, total := g }] p
        = [{ _id := id, total := g + p.amount_received }] := by
      simp [addToGroupRounded, hp, hround]
    rw [List.foldl_cons, hstep, ih (fun q hq => h q (List.mem_cons_of_mem _ hq))
      (fun q hq => hint q (List.mem_cons_of_mem _ hq)) (g + p.amount_received)
      ⟨n + a, by rw [hn, ha]; push_cast; rfl⟩ (by linarith)]
    simp [add_assoc]

/-- With integer amounts of total absolute value below 2^53, the binary64 aggregation returns
the exact sum of the matched ledger entries. -/
theorem realPaid_rounded_eq_sum (id : String) (ms : List Payment)
    (h : ∀ p ∈ ms, p.invoice_id = id) (hint : ∀ p ∈ ms, ∃ a : ℤ, p.amount_received = a)
    (hb : (ms.map (fun p => |p.amount_received|)).sum < 2 ^ 53) :
    orZero ((groupByInvoiceRounded roundDouble ms).head?.map (fun g => g.total)) =
      (ms.map (fun p => p.amount_received)).sum := by
  cases ms with
  | nil => rfl
  | cons p rest =>
    have hp : p.invoice_id = id := h p (List.mem_cons_self _ _)
    have h1 : groupByInvoiceRounded roundDouble (p :: rest)
        = rest.foldl (addToGroupRounded roundDouble)
            [{ _id := id, total := p.amount_received }] := by
      simp [groupByInvoiceRounded, addToGroupRounded, hp]
    simp only [List.map_cons, List.sum_cons] at hb
    rw [h1, foldl_addToGroupRounded_int id rest (fun q hq => h q (List.mem_cons_of_mem _ hq))
      (fun q hq => hint q (List.mem_cons_of_mem _ hq)) p.amount_received
      (hint p (List.mem_cons_self _ _)) hb]
    simp [orZero_some]

theorem addToGroupRounded_id (groups : List PaidGroup) (p : Payment) :
    addToGroupRounded (fun x => x) groups p = addToGroup groups p := by
  induction groups with
  | nil => rfl
  | cons g gs ih =>
    simp only [addToGroupRounded, addToGroup, ih]

/-- Without rounding, `getInvoiceByIdRounded` is `getInvoiceById`. -/
theorem getInvoiceByIdRounded_id (invoices : List InvoiceDoc) (payments : List Payment)
    (id : String) :
    getInvoiceByIdRounded (fun x => x) invoices payments id
      = getInvoiceById invoices payments id := by
  have hfold : ∀ ms : List Payment,
      groupByInvoiceRounded (fun x => x) ms = groupByInvoice ms := by
    intro ms
    unfold groupByInvoiceRounded groupByInvoice
    congr 1
    funext groups p
    exact addToGroupRounded_id groups p
  unfold getInvoiceByIdRounded getInvoiceById
  cases findById invoices id with
  | none => rfl
  | some doc => simp only [hfold]

/-- The binary64 rounding of a number whose binary exponent is known. -/
theorem roundDouble_of_exponent (x : ℚ) (e : ℤ) (hx : 0 < |x|) (h1 : (2 : ℚ) ^ e ≤ |x|)
    (h2 : |x| < (2 : ℚ) ^ (e + 1)) (he : -1022 ≤ e) :
    roundDouble x = roundHalfEven (x / 2 ^ (e - 52)) * 2 ^ (e - 52) := by
  have hlog : Int.log 2 |x| = e := by
    apply le_antisymm
    · have := (Int.lt_zpow_iff_log_lt (b := 2) (by norm_num) hx (x := e + 1)).mp
        (by exact_mod_cast h2)
      omega
    · exact (Int.zpow_le_iff_le_log (b := 2) (by norm_num) hx (x := e)).mp (by exact_mod_cast h1)
  have hx0 : x ≠ 0 := by
    intro h
    rw [h] at hx
    simp at hx
  unfold roundDouble
  rw [if_neg hx0]
  dsimp only
  rw [hlog, max_eq_left he]

/-- The stored invoice with the derived fields computed by `getInvoiceByIdRounded`. -/
theorem getInvoiceByIdRounded_eq (round : ℚ → ℚ) (invoices : List InvoiceDoc)
    (payments : List Payment) (id : String) (doc : InvoiceDoc)
    (hdoc : findById invoices id = some doc) (paid grand balance : ℚ) (status : String)
    (hpaid : orZero ((groupByInvoiceRounded round
      (payments.filter (fun p => p.invoice_id == doc._id))).head?.map (fun g => g.total)) = paid)
    (hgrand : round (asNumber doc.grandTotal) = grand)
    (hbalance : max 0 (round (grand - paid)) = balance)
    (hstatus : derivedStatus paid grand = status) :
    getInvoiceByIdRounded round invoices payments id =
      some { doc with amountPaid := some paid, balanceDue := some balance,
                      paymentStatus := status } := by
  subst hpaid hgrand hbalance hstatus
  rw [getInvoiceByIdRounded, hdoc]

/-- C5 counterexample: an invoice of grand total 100.01 and two ledger entries of 24.99 and
75.02, which total 100.01. The binary64 sum of the two amounts is 100.00999999999999, below the
grand total, so `getInvoiceById` answers 'Partial' with a positive balance, where the claim
gives paid 100.01, balance 0 and 'Paid'. -/
theorem getInvoiceById_decimal_amounts_partial :
    (2499 / 100 + 7502 / 100 : ℚ) = 10001 / 100
    ∧ getInvoiceByIdRounded roundDouble [decimalInvoice] decimalLedger settledInvoiceId =
      some { decimalInvoice with
             amountPaid := some (439848631575511 / 4398046511104),
             balanceDue := some (1 / 70368744177664), paymentStatus := "Partial" }
    ∧ (439848631575511 / 4398046511104 : ℚ) < roundDouble (10001 / 100) := by
  refine ⟨by norm_num, ?_, by decide!⟩
  have htiny : roundDouble (1 / 70368744177664) = 1 / 70368744177664 := by
    rw [roundDouble_of_exponent (1 / 70368744177664) (-46) (by norm_num)
      (by rw [abs_of_pos (by norm_num)]; norm_num)
      (by rw [abs_of_pos (by norm_num)]; norm_num) (by norm_num)]
    have hm : (1 / 70368744177664 : ℚ) / 2 ^ ((-46 : ℤ) - 52)
        = ((4503599627370496 : ℤ) : ℚ) := by norm_num
    rw [hm, roundHalfEven_intCast]
    norm_num
  exact getInvoiceByIdRounded_eq roundDouble [decimalInvoice] decimalLedger settledInvoiceId
    decimalInvoice (by decide!)
    (439848631575511 / 4398046511104) (7037578105208177 / 70368744177664)
    (1 / 70368744177664) "Partial" (by decide!) (by decide!)
    (by
      have hd : (7037578105208177 / 70368744177664 - 439848631575511 / 4398046511104 : ℚ)
          = 1 / 70368744177664 := by norm_num
      rw [hd, htiny]
      norm_num)
    (by decide!)

/-- C5 amended: in the binary64 arithmetic of the code, `getInvoiceById` returns for a stored
invoice the status 'Paid' exactly when the returned paid amount is at least the grand total,
the balance `max(0, G - paid)` of the rounded difference, and the balance 0 for a paid invoice.
When the grand total `G` and the ledger amounts recorded against the invoice are integers of
total absolute value below 2^53, the sums are exact: `amountPaid = X`, the total of the
amounts, `balanceDue = max(G - X, 0)` and `paymentStatus = 'Paid'` exactly when `X >= G`. -/
theorem getInvoiceById_binary64_state (invoices : List InvoiceDoc) (payments : List Payment)
    (id : String) (doc : InvoiceDoc) (hdoc : findById invoices id = some doc) :
    ∃ r, getInvoiceByIdRounded roundDouble invoices payments id = some r
      ∧ (r.paymentStatus = "Paid" ↔
          asNumber r.amountPaid ≥ roundDouble (asNumber doc.grandTotal))
      ∧ r.balanceDue = some (max 0
          (roundDouble (roundDouble (asNumber doc.grandTotal) - asNumber r.amountPaid)))
      ∧ (r.paymentStatus = "Paid" → r.balanceDue = some 0)
      ∧ ((∃ g : ℤ, asNumber doc.grandTotal = g) →
          (∀ p ∈ payments, p.invoice_id = doc._id → ∃ a : ℤ, p.amount_received = a) →
          |asNumber doc.grandTotal|
            + ((payments.filter (fun p => p.invoice_id == doc._id)).map
                (fun p => |p.amount_received|)).sum < 2 ^ 53 →
          r.amountPaid = some
              ((payments.filter (fun p => p.invoice_id == doc._id)).map
                (fun p => p.amount_received)).sum
          ∧ r.balanceDue = some (max (asNumber doc.grandTotal
              - ((payments.filter (fun p => p.invoice_id == doc._id)).map
                (fun p => p.amount_received)).sum) 0)
          ∧ (r.paymentStatus = "Paid" ↔
              ((payments.filter (fun p => p.invoice_id == doc._id)).map
                (fun p => p.amount_received)).sum ≥ asNumber doc.grandTotal)) := by
  refine ⟨_, by rw [getInvoiceByIdRounded, hdoc], ?_, ?_, ?_, ?_⟩
  · exact derivedStatus_paid_iff _ _
  · rfl
  · intro hpaid
    have hge := (derivedStatus_paid_iff _ _).mp hpaid
    have hle := roundDouble_nonpos _ (sub_nonpos.mpr hge)
    show some (max 0 _) = some 0
    rw [max_eq_left hle]
  · intro hG hint hb
    have hmem : ∀ p ∈ payments.filter (fun p => p.invoice_id == doc._id),
        p.invoice_id = doc._id := fun p hp => by simpa using (List.mem_filter.mp hp).2
    have habs : 0 ≤ |asNumber doc.grandTotal| := abs_nonneg _
    have hsumabs : 0 ≤ ((payments.filter (fun p => p.invoice_id == doc._id)).map
        (fun p => |p.amount_received|)).sum := by
      apply List.sum_nonneg
      intro x hx
      obtain ⟨q, -, rfl⟩ := List.mem_map.mp hx
      exact abs_nonneg _
    have hsum := realPaid_rounded_eq_sum doc._id
      (payments.filter (fun p => p.invoice_id == doc._id)) hmem
      (fun p hp => hint p (List.mem_filter.mp hp).1 (hmem p hp)) (by linarith)
    have hsumle : |((payments.filter (fun p => p.invoice_id == doc._id)).map
        (fun p => p.amount_received)).sum|
        ≤ ((payments.filter (fun p => p.invoice_id == doc._id)).map
          (fun p => |p.amount_received|)).sum := by
      generalize payments.filter (fun p => p.invoice_id == doc._id) = ms
      induction ms with
      | nil => simp
      | cons q rest ih =>
        simp only [List.map_cons, List.sum_cons]
        exact le_trans (abs_add _ _) (by linarith)
    have hsumint : ∃ n : ℤ, ((payments.filter (fun p => p.invoice_id == doc._id)).map
        (fun p => p.amount_received)).sum = n := by
      have hint2 : ∀ p ∈ payments.filter (fun p => p.invoice_id == doc._id),
          ∃ a : ℤ, p.amount_received = a :=
        fun p hp => hint p (List.mem_filter.mp hp).1 (hmem p hp)
      generalize payments.filter (fun p => p.invoice_id == doc._id) = ms at hint2
      induction ms with
      | nil => exact ⟨0, by simp⟩
      | cons q rest ih =>
        obtain ⟨a, ha⟩ := hint2 q (List.mem_cons_self _ _)
        obtain ⟨n, hn⟩ := ih (fun p hp => hint2 p (List.mem_cons_of_mem _ hp))
        exact ⟨a + n, by simp only [List.map_cons, List.sum_cons]; rw [ha, hn]; push_cast; rfl⟩
    have hGr : roundDouble (asNumber doc.grandTotal) = asNumber doc.grandTotal :=
      roundDouble_of_int _ hG (by linarith)
    have hdiff : roundDouble (asNumber doc.grandTotal
        - ((payments.filter (fun p => p.invoice_id == doc._id)).map
            (fun p => p.amount_received)).sum)
        = asNumber doc.grandTotal
          - ((payments.filter (fun p => p.invoice_id == doc._id)).map
            (fun p => p.amount_received)).sum := by
      apply roundDouble_of_int
      · obtain ⟨g, hg⟩ := hG
        obtain ⟨n, hn⟩ := hsumint
        exact ⟨g - n, by rw [hg, hn]; push_cast; rfl⟩
      · have := abs_sub (asNumber doc.grandTotal)
          (((payments.filter (fun p => p.invoice_id == doc._id)).map
            (fun p => p.amount_received)).sum)
        linarith
    refine ⟨?_, ?_, ?_⟩
    · show some (orZero _) = _
      rw [hsum]
    · show some (max 0 (roundDouble (roundDouble (asNumber doc.grandTotal) - orZero _))) = _
      rw [hsum, hGr, hdiff, max_comm]
    · show derivedStatus (orZero _) (roundDouble (asNumber doc.grandTotal)) = "Paid" ↔ _
      rw [hsum, hGr]
      exact derivedStatus_paid_iff _ _

/-- Witness of C5 amended on the settlement scenario: 200 then 184 against 384 gives paid 384,
balance 0, status Paid. -/
theorem getInvoiceById_binary64_state_witness :
    ∃ r, getInvoiceByIdRounded roundDouble [openInvoice] settledLedger settledInvoiceId = some r
      ∧ r.amountPaid = some 384 ∧ r.balanceDue = some 0 ∧ r.paymentStatus = "Paid" := by
  obtain ⟨r, hr, -, -, -, h⟩ := getInvoiceById_binary64_state [openInvoice] settledLedger
    settledInvoiceId openInvoice (by decide!)
  obtain ⟨h1, h2, h3⟩ := h ⟨384, by simp [asNumber, openInvoice]⟩
    (by
      intro p hp _
      simp only [settledLedger, List.mem_cons, List.mem_singleton, List.not_mem_nil,
        or_false] at hp
      rcases hp with rfl | rfl
      · exact ⟨200, by norm_num⟩
      · exact ⟨184, by norm_num⟩)
    (by decide!)
  refine ⟨r, hr, ?_, ?_, ?_⟩
  · rw [h1]; decide!
  · rw [h2]; decide!
  · rw [h3]; decide!

/-! ## Sequence counters (C7, C8) -/

theorem findOneAndUpdateInc_seq (store : List CounterDoc) (key : String) :
    (findOneAndUpdateInc store key).1.seq = (seqOf store key).getD 0 + 1 := by
  induction store with
  | nil => rfl
  | cons d ds ih =>
    by_cases h : d.key = key
    · simp [findOneAndUpdateInc, seqOf, h]
    · simp [findOneAndUpdateInc, seqOf, h, ih]

theorem seqOf_findOneAndUpdateInc_self (store : List CounterDoc) (key : String) :
    seqOf (findOneAndUpdateInc store key).2 key = some ((seqOf store key).getD 0 + 1) := by
  induction store with
  | nil => simp [findOneAndUpdateInc, seqOf]
  | cons d ds ih =>
    by_cases h : d.key = key
    · simp [findOneAndUpdateInc, seqOf, h]
    · simp [findOneAndUpdateInc, seqOf, h, ih]

theorem seqOf_findOneAndUpdateInc_other (store : List CounterDoc) (key k : String)
    (hk : k ≠ key) : seqOf (findOneAndUpdateInc store key).2 k = seqOf store k := by
  induction store with
  | nil => simp [findOneAndUpdateInc, seqOf, Ne.symm hk]
  | cons d ds ih =>
    by_cases h : d.key = key
    · have h2 : ¬ d.key = k := fun h3 => hk (h3 ▸ h)
      rw [findOneAndUpdateInc, if_pos h]
      simp only [seqOf, if_neg h2]
    · rw [findOneAndUpdateInc, if_neg h]
      by_cases h2 : d.key = k
      · simp only [seqOf, if_pos h2]
      · simp only [seqOf, if_neg h2, ih]

theorem padStart_length (s : String) (n : Nat) : n ≤ (padStart s n).length := by
  simp [padStart, String.length_append]
  omega

theorem successive_counter (pre key : String) (year : Nat)
    (gen : List CounterDoc → String × List CounterDoc)
    (hgen : ∀ s, gen s = (formatNumber pre year (findOneAndUpdateInc s key).1.seq,
      (findOneAndUpdateInc s key).2)) (n : Nat) (store : List CounterDoc) :
    successive gen n store =
      (List.range n).map (fun i => formatNumber pre year ((seqOf store key).getD 0 + i + 1)) := by
  induction n generalizing store with
  | zero => rfl
  | succ n ih =>
    rw [successive, ih, List.range_succ_eq_map, List.map_cons, List.map_map, hgen]
    simp only [findOneAndUpdateInc_seq, seqOf_findOneAndUpdateInc_self, Option.getD_some,
      Function.comp_def, Nat.add_zero]
    congr 1
    apply List.map_congr_left
    intro i _
    congr 1
    omega

/-- C7 fails on the code: with an empty counter store, the first allocation for one
organization and the first allocation for another organization in the same year both return
`INV-2025-0001`, because the counter key holds the organization and the number does not. -/
theorem generateInvoiceNumber_collides_across_organizations :
    (generateInvoiceNumber [] (some "64b7f0c2a1d3e4f5a6b7c8d9") 2025).1 = "INV-2025-0001"
    ∧ (generateInvoiceNumber (generateInvoiceNumber [] (some "64b7f0c2a1d3e4f5a6b7c8d9") 2025).2
        (some "64b7f0c2a1d3e4f5a6b7c8da") 2025).1 = "INV-2025-0001" := by
  decide

/-- C8: a call of `generateInvoiceNumber` or `generateEmployeeId` sets the counter of its own
key to its old value (0 when absent) plus one, leaves the counter of every other key unchanged,
and returns `INV-` or `EMP-`, the year, `-` and the new value padded with zeros to at least 4
characters; so `n` successive calls on one key return the values `old + 1, ..., old + n`,
strictly increasing and starting at 1 on a fresh key. -/
theorem counter_allocation_per_key (store : List CounterDoc) (org : Option String)
    (year : Nat) :
    ((generateInvoiceNumber store org year).1 =
        "INV" ++ "-" ++ toString year ++ "-"
          ++ padStart (toString ((seqOf store (invoiceKey org year)).getD 0 + 1)) 4
      ∧ seqOf (generateInvoiceNumber store org year).2 (invoiceKey org year) =
          some ((seqOf store (invoiceKey org year)).getD 0 + 1)
      ∧ ∀ k, k ≠ invoiceKey org year →
          seqOf (generateInvoiceNumber store org year).2 k = seqOf store k)
    ∧ ((generateEmployeeId store org year).1 =
        "EMP" ++ "-" ++ toString year ++ "-"
          ++ padStart (toString ((seqOf store (employeeKey org year)).getD 0 + 1)) 4
      ∧ seqOf (generateEmployeeId store org year).2 (employeeKey org year) =
          some ((seqOf store (employeeKey org year)).getD 0 + 1)
      ∧ ∀ k, k ≠ employeeKey org year →
          seqOf (generateEmployeeId store org year).2 k = seqOf store k)
    ∧ (∀ s : String, 4 ≤ (padStart s 4).length)
    ∧ (∀ n, successive (fun s => generateInvoiceNumber s org year) n store =
        (List.range n).map (fun i =>
          formatNumber "INV" year ((seqOf store (invoiceKey org year)).getD 0 + i + 1)))
    ∧ (∀ n, successive (fun s => generateEmployeeId s org year) n store =
        (List.range n).map (fun i =>
          formatNumber "EMP" year ((seqOf store (employeeKey org year)).getD 0 + i + 1))) := by
  refine ⟨⟨?_, ?_, ?_⟩, ⟨?_, ?_, ?_⟩, fun s => padStart_length s 4, ?_, ?_⟩
  · simp only [generateInvoiceNumber, formatNumber, findOneAndUpdateInc_seq]
  · exact seqOf_findOneAndUpdateInc_self _ _
  · exact fun k hk => seqOf_findOneAndUpdateInc_other _ _ k hk
  · simp only [generateEmployeeId, formatNumber, findOneAndUpdateInc_seq]
  · exact seqOf_findOneAndUpdateInc_self _ _
  · exact fun k hk => seqOf_findOneAndUpdateInc_other _ _ k hk
  · exact fun n => successive_counter "INV" _ year _ (fun _ => rfl) n store
  · exact fun n => successive_counter "EMP" _ year _ (fun _ => rfl) n store

/-- Witness of C8: an invoice allocation leaves the employee counter of the same organization
and year unchanged. -/
theorem counter_allocation_per_key_witness :
    "employee_org1_2025" ≠ invoiceKey (some "org1") 2025
    ∧ seqOf (generateInvoiceNumber [{ key := "employee_org1_2025", seq := 7 }]
        (some "org1") 2025).2 "employee_org1_2025"
      = seqOf [{ key := "employee_org1_2025", seq := 7 }] "employee_org1_2025" :=
  ⟨by decide,
    (counter_allocation_per_key [{ key := "employee_org1_2025", seq := 7 }]
      (some "org1") 2025).1.2.2 "employee_org1_2025" (by decide)⟩

/-- Three successive allocations on a fresh key return the sequence numbers 1, 2, 3. -/
theorem successive_scenario :
    successive (fun s => generateInvoiceNumber s (some "org1") 2025) 3 [] =
      ["INV-2025-0001", "INV-2025-0002", "INV-2025-0003"] := by
  decide

/-! ## Concurrent allocations (C9) -/

theorem seqAt_step_waiting (org : Option String) (year : Nat) (s : SysState) (i k : Nat)
    (h : s.calls[i]? = some .waiting) :
    seqAt (stepCall org year s i) k =
      if i = k then some (current org year s + 1) else seqAt s k := by
  have hi : i < s.calls.length := by
    by_contra hc
    rw [List.getElem?_eq_none (by omega)] at h
    cases h
  simp only [seqAt, stepCall, h, List.getElem?_set, hi, if_true, current,
    findOneAndUpdateInc_seq]
  split_ifs <;> rfl

theorem current_step_waiting (org : Option String) (year : Nat) (s : SysState) (i : Nat)
    (h : s.calls[i]? = some .waiting) :
    current org year (stepCall org year s i) = current org year s + 1 := by
  simp only [current, stepCall, h, seqOf_findOneAndUpdateInc_self, Option.getD_some]

theorem seqAt_step_received (org : Option String) (year : Nat) (s : SysState) (i k n : Nat)
    (h : s.calls[i]? = some (.received n)) :
    seqAt (stepCall org year s i) k = seqAt s k := by
  have hi : i < s.calls.length := by
    by_contra hc
    rw [List.getElem?_eq_none (by omega)] at h
    cases h
  simp only [seqAt, stepCall, h, List.getElem?_set, hi, if_true]
  split_ifs with hik
  · subst hik
    rw [h]; rfl
  · rfl

theorem distinct_step (org : Option String) (year : Nat) (s : SysState) (i : Nat)
    (hs : Distinct org year s) : Distinct org year (stepCall org year s i) := by
  obtain ⟨hle, hne⟩ := hs
  cases h : s.calls[i]? with
  | none =>
    have : stepCall org year s i = s := by simp [stepCall, h]
    rw [this]; exact ⟨hle, hne⟩
  | some c =>
    cases c with
    | waiting =>
      refine ⟨fun k n hk => ?_, fun k j n hkj hk hj => ?_⟩
      · rw [current_step_waiting org year s i h]
        rw [seqAt_step_waiting org year s i k h] at hk
        split_ifs at hk with hik
        · cases hk; exact le_refl _
        · exact Nat.le_succ_of_le (hle k n hk)
      · rw [seqAt_step_waiting org year s i k h] at hk
        rw [seqAt_step_waiting org year s i j h] at hj
        split_ifs at hk hj with hik hij hij
        · exact hkj (hik ▸ hij)
        · cases hk
          have := hle j _ hj
          omega
        · cases hj
          have := hle k _ hk
          omega
        · exact hne k j n hkj hk hj
    | received n =>
      have hcur : current org year (stepCall org year s i) = current org year s := by
        simp [current, stepCall, h]
      refine ⟨fun k m hk => ?_, fun k j m hkj hk hj => ?_⟩
      · rw [hcur]
        rw [seqAt_step_received org year s i k n h] at hk
        exact hle k m hk
      · rw [seqAt_step_received org year s i k n h] at hk
        rw [seqAt_step_received org year s i j n h] at hj
        exact hne k j m hkj hk hj
    | returned n str =>
      have : stepCall org year s i = s := by simp [stepCall, h]
      rw [this]; exact ⟨hle, hne⟩

theorem distinct_run (org : Option String) (year : Nat) (schedule : List Nat) (s : SysState)
    (hs : Distinct org year s) : Distinct org year (runSchedule org year s schedule) := by
  induction schedule generalizing s with
  | nil => exact hs
  | cons i rest ih => exact ih _ (distinct_step org year s i hs)

theorem distinct_init (org : Option String) (year : Nat) (store : List CounterDoc) (n : Nat) :
    Distinct org year (initState store n) := by
  have h : ∀ k, seqAt (initState store n) k = none := by
    intro k
    simp only [seqAt, initState, List.getElem?_replicate]
    split_ifs <;> rfl
  refine ⟨fun k m hk => ?_, fun k j m _ hk _ => ?_⟩ <;>
    · rw [h k] at hk
      cases hk


theorem calls_step_other (org : Option String) (year : Nat) (s : SysState) (i j : Nat)
    (hij : j ≠ i) : (stepCall org year s j).calls[i]? = s.calls[i]? := by
  unfold stepCall
  split <;> simp [List.getElem?_set_ne hij]

theorem calls_step_self (org : Option String) (year : Nat) (s : SysState) (i : Nat)
    (c : CallState) (h : s.calls[i]? = some c) :
    ∃ c', (stepCall org year s i).calls[i]? = some c'
      ∧ c'.progress = min 2 (c.progress + 1) := by
  have hi : i < s.calls.length := by
    by_contra hc
    rw [List.getElem?_eq_none (by omega)] at h
    cases h
  cases c with
  | waiting =>
    exact ⟨.received (findOneAndUpdateInc s.store (invoiceKey org year)).1.seq,
      by simp only [stepCall, h, List.getElem?_set, hi, if_true], rfl⟩
  | received n =>
    exact ⟨.returned n (formatNumber "INV" year n),
      by simp only [stepCall, h, List.getElem?_set, hi, if_true], rfl⟩
  | returned n str =>
    exact ⟨.returned n str, by simp only [stepCall, h], rfl⟩

theorem formatted_step (org : Option String) (year : Nat) (s : SysState) (i : Nat)
    (hs : Formatted year s) : Formatted year (stepCall org year s i) := by
  intro k a str hk
  by_cases hik : i = k
  · subst hik
    cases h : s.calls[i]? with
    | none =>
      have : stepCall org year s i = s := by simp [stepCall, h]
      rw [this] at hk
      exact hs i a str hk
    | some c =>
      have hi : i < s.calls.length := by
        by_contra hc
        rw [List.getElem?_eq_none (by omega)] at h
        cases h
      cases c with
      | waiting =>
        simp only [stepCall, h, List.getElem?_set, hi, if_true] at hk
        cases hk
      | received n =>
        simp only [stepCall, h, List.getElem?_set, hi, if_true] at hk
        cases hk
        rfl
      | returned n str2 =>
        have : stepCall org year s i = s := by simp [stepCall, h]
        rw [this] at hk
        exact hs i a str hk
  · rw [calls_step_other org year s k i hik] at hk
    exact hs k a str hk

theorem formatted_run (org : Option String) (year : Nat) (schedule : List Nat) (s : SysState)
    (hs : Formatted year s) : Formatted year (runSchedule org year s schedule) := by
  induction schedule generalizing s with
  | nil => exact hs
  | cons i rest ih => exact ih _ (formatted_step org year s i hs)

theorem progress_run (org : Option String) (year : Nat) (i : Nat) (schedule : List Nat)
    (s : SysState) (c : CallState) (h : s.calls[i]? = some c) :
    ∃ c', (runSchedule org year s schedule).calls[i]? = some c'
      ∧ c'.progress = min 2 (c.progress + schedule.count i) := by
  induction schedule generalizing s c with
  | nil =>
    refine ⟨c, h, ?_⟩
    cases c <;> simp [CallState.progress]
  | cons j rest ih =>
    by_cases hji : j = i
    · subst hji
      obtain ⟨c1, h1, hp1⟩ := calls_step_self org year s j c h
      obtain ⟨c2, h2, hp2⟩ := ih (stepCall org year s j) c1 h1
      refine ⟨c2, h2, ?_⟩
      rw [hp2, hp1, List.count_cons_self]
      omega
    · rw [← calls_step_other org year s i j hji] at h
      obtain ⟨c2, h2, hp2⟩ := ih (stepCall org year s j) c h
      refine ⟨c2, h2, ?_⟩
      rw [hp2, List.count_cons_of_ne (Ne.symm hji)]

/-- C9: `n` concurrent calls of `generateInvoiceNumber` for one organization and year, run
under any schedule of their steps, never hold the same sequence number in two different calls;
and under every schedule that lets each call take its two steps, all `n` calls return, each with
the formatted number of the (pairwise distinct) sequence number it received. -/
theorem concurrent_allocations_distinct (store : List CounterDoc) (org : Option String)
    (year n : Nat) (schedule : List Nat) :
    (∀ i j a b, i ≠ j →
      seqAt (runSchedule org year (initState store n) schedule) i = some a →
      seqAt (runSchedule org year (initState store n) schedule) j = some b → a ≠ b)
    ∧ ((∀ i, i < n → 2 ≤ schedule.count i) →
      ∀ i, i < n → ∃ a,
        (runSchedule org year (initState store n) schedule).calls[i]?
          = some (.returned a (formatNumber "INV" year a))) := by
  constructor
  · intro i j a b hij hi hj hab
    subst hab
    exact (distinct_run org year schedule _ (distinct_init org year store n)).2 i j a hij hi hj
  · intro hsched i hi
    have h0 : (initState store n).calls[i]? = some .waiting := by
      simp [initState, List.getElem?_replicate, hi]
    obtain ⟨c, hc, hp⟩ := progress_run org year i schedule _ _ h0
    have h2 := hsched i hi
    have hp2 : c.progress = 2 := by
      rw [hp]; simp only [CallState.progress]; omega
    have hform : Formatted year (runSchedule org year (initState store n) schedule) := by
      apply formatted_run
      intro k a str hk
      simp only [initState, List.getElem?_replicate] at hk
      split_ifs at hk
      cases hk
    cases c with
    | waiting => cases hp2
    | received m => cases hp2
    | returned a str =>
      refine ⟨a, ?_⟩
      rw [hc, hform i a str hc]

/-- Witness of C9: two calls interleaved as 0, 1, 1, 0 on a fresh counter; call 0 holds 1 and
call 1 holds 2, and both return. -/
theorem concurrent_allocations_distinct_witness :
    (1 : Nat) ≠ 2
    ∧ (∀ i, i < 2 → 2 ≤ [0, 1, 1, 0].count i)
    ∧ ∀ i, i < 2 → ∃ a,
        (runSchedule (some "org1") 2025 (initState [] 2) [0, 1, 1, 0]).calls[i]?
          = some (.returned a (formatNumber "INV" 2025 a)) :=
  ⟨(concurrent_allocations_distinct [] (some "org1") 2025 2 [0, 1, 1, 0]).1 0 1 1 2
      (by decide) (by decide) (by decide),
    by decide,
    (concurrent_allocations_distinct [] (some "org1") 2025 2 [0, 1, 1, 0]).2 (by decide)⟩

/-- The sequence-allocator scenario: two interleaved calls on `org1` in 2025 return 1 and 2. -/
theorem runSchedule_scenario :
    runSchedule (some "org1") 2025 (initState [] 2) [0, 1, 1, 0] =
      { store := [{ key := "invoice_org1_2025", seq := 2 }],
        calls := [.returned 1 "INV-2025-0001", .returned 2 "INV-2025-0002"] } := by
  decide

/-! ## Lines without catalog entry, quantity or price (C10) -/

theorem catalogGet_buildCatalog_mem (itemColl : List CatalogDoc) (items : List RawLine)
    (pid : String) (d : CatalogDoc)
    (h : catalogGet (buildCatalog itemColl items) pid = some d) :
    d ∈ itemColl ∧ d._id = pid := by
  have hm := List.mem_of_getLast?_eq_some h
  obtain ⟨hd, hid⟩ := List.mem_filter.mp hm
  refine ⟨?_, by simpa using hid⟩
  unfold buildCatalog at hd
  dsimp only at hd
  split_ifs at hd
  · exact (List.mem_filter.mp hd).1
  · cases hd

theorem catalogEntryOf_unknown (itemColl : List CatalogDoc) (items : List RawLine)
    (productId : Option String) (h : ∀ d ∈ itemColl, some d._id ≠ productId) :
    catalogEntryOf (buildCatalog itemColl items) productId = none := by
  cases productId with
  | none => rfl
  | some pid =>
    show catalogGet (buildCatalog itemColl items) pid = none
    cases hg : catalogGet (buildCatalog itemColl items) pid with
    | none => rfl
    | some d =>
      obtain ⟨hd, hid⟩ := catalogGet_buildCatalog_mem itemColl items pid d hg
      exact absurd (congrArg some hid) (h d hd)

theorem mapLine_of_entry_none (catalog : List CatalogDoc) (supplyType : String) (raw : RawLine)
    (h : catalogEntryOf catalog (jsOr raw.productId (jsOr raw.item_id none)) = none) :
    mapLine catalog supplyType raw = mapLine [] supplyType raw := by
  have h0 : catalogEntryOf [] (jsOr raw.productId (jsOr raw.item_id none)) = none := by
    cases jsOr raw.productId (jsOr raw.item_id none) <;> rfl
  simp only [mapLine, h, h0]

/-- C10, as stated, fails in its second half: a line with a well-formed catalog reference that
no stored item has and with neither quantity nor price is not rejected;
`prepareInvoiceLineItems` resolves with a line of quantity 0 and unit price 0. -/
theorem prepareInvoiceLineItems_accepts_missing_quantity_and_price :
    prepareInvoiceLineItemsCast isObjectIdHex [shelfItem.toCatalog]
        [{ productId := some missingItemId }] "intra" =
      .ok { mappedItems :=
              [{ productId := some missingItemId, description := some "", quantity := 0,
                 unitPrice := 0, discount := 0, taxRate := 0, hsnSac := none, taxableValue := 0,
                 cgstAmount := 0, sgstAmount := 0, igstAmount := 0, total := 0 }],
            totals := zeroTotals } := by
  decide!

/-- C10 amended: on requested lines that are objects, `prepareInvoiceLineItems` fails exactly
when a product reference of the request cannot be cast to an ObjectId (the catalog query
throws). Otherwise it resolves with one line per requested line; a line whose catalog reference is unknown is the line computed from the
caller-supplied values alone (empty catalog); and a line without quantity or price is not
rejected: a line with no quantity gets quantity 0, and a line with no price from the caller or
the catalog gets unit price 0. -/
theorem prepareInvoiceLineItems_unknown_reference (castable : String → Bool)
    (itemColl : List CatalogDoc) (items : List RawLine) (supplyType : String) :
    ((idsToHydrate items).all castable = false →
      ∃ e, prepareInvoiceLineItemsCast castable itemColl items supplyType = .error e)
    ∧ ((idsToHydrate items).all castable = true →
      ∃ p, prepareInvoiceLineItemsCast castable itemColl items supplyType = .ok p
        ∧ p.mappedItems.length = items.length
        ∧ ∀ (i : Nat) (raw : RawLine), items[i]? = some raw →
            ∃ l, p.mappedItems[i]? = some l
              ∧ ((∀ d ∈ itemColl, some d._id ≠ l.productId) → l = mapLine [] supplyType raw)
              ∧ (raw.quantity = none → raw.qty = none → l.quantity = 0)
              ∧ (raw.unitPrice = none → raw.unit_price = none →
                  (∀ d ∈ itemColl, some d._id = l.productId → d.unit_price = none) →
                  l.unitPrice = 0)) := by
  refine ⟨fun hc => ⟨"Cast to ObjectId failed", ?_⟩, fun hc => ?_⟩
  · simp only [prepareInvoiceLineItemsCast, hc, Bool.false_eq_true, if_false]
  obtain ⟨p, hp, hmap⟩ := prepareInvoiceLineItems_ok itemColl items supplyType
  have hp2 : prepareInvoiceLineItemsCast castable itemColl items supplyType = .ok p := by
    simp only [prepareInvoiceLineItemsCast, hc, if_true, hp]
  refine ⟨p, hp2, by simp [hmap], fun i raw hi => ?_⟩
  refine ⟨mapLine (buildCatalog itemColl items) supplyType raw, ?_, ?_, ?_, ?_⟩
  · rw [hmap, List.getElem?_map, hi]; rfl
  · intro hunknown
    exact mapLine_of_entry_none _ _ _ (catalogEntryOf_unknown itemColl items _ hunknown)
  · intro hq hq2
    simp [mapLine, hq, hq2, nullish, toDecimal]
  · intro hu hu2 hcat
    have hentry : (catalogEntryOf (buildCatalog itemColl items)
        (jsOr raw.productId (jsOr raw.item_id none))).bind (fun c => c.unit_price) = none := by
      cases hpid : jsOr raw.productId (jsOr raw.item_id none) with
      | none => rfl
      | some pid =>
        show (catalogGet (buildCatalog itemColl items) pid).bind _ = none
        cases hg : catalogGet (buildCatalog itemColl items) pid with
        | none => rfl
        | some d =>
          obtain ⟨hd, hid⟩ := catalogGet_buildCatalog_mem itemColl items pid d hg
          have : (mapLine (buildCatalog itemColl items) supplyType raw).productId = some pid := hpid
          exact hcat d hd (by rw [this, hid])
    simp [mapLine, hu, hu2, hentry, nullish, toDecimal]

/-- Witness of C10 amended: the catalog holds one item and the request names a well-formed id
that no item has, without quantity or price; and a request that names `p9`, which is not an
ObjectId, fails. -/
theorem prepareInvoiceLineItems_unknown_reference_witness :
    (∃ e, prepareInvoiceLineItemsCast isObjectIdHex [shelfItem.toCatalog]
        [{ productId := some "p9" }] "intra" = .error e)
    ∧ ∃ p, prepareInvoiceLineItemsCast isObjectIdHex [shelfItem.toCatalog]
          [{ productId := some missingItemId }] "intra" = .ok p
        ∧ p.mappedItems.length = 1
        ∧ ∃ l, p.mappedItems[0]? = some l
            ∧ l = mapLine [] "intra" { productId := some missingItemId }
            ∧ l.quantity = 0 ∧ l.unitPrice = 0 := by
  refine ⟨(prepareInvoiceLineItems_unknown_reference isObjectIdHex [shelfItem.toCatalog]
    [{ productId := some "p9" }] "intra").1 (by decide), ?_⟩
  obtain ⟨p, hp, hlen, h⟩ := (prepareInvoiceLineItems_unknown_reference isObjectIdHex
    [shelfItem.toCatalog] [{ productId := some missingItemId }] "intra").2 (by decide!)
  obtain ⟨l, hl, h1, h2, h3⟩ := h 0 { productId := some missingItemId } rfl
  have hpid : l.productId = some missingItemId := by
    obtain ⟨q, hq, hmap⟩ := prepareInvoiceLineItems_ok [shelfItem.toCatalog]
      [{ productId := some missingItemId }] "intra"
    have hpq : prepareInvoiceLineItemsCast isObjectIdHex [shelfItem.toCatalog]
        [{ productId := some missingItemId }] "intra" = .ok q := by
      rw [← hq]; decide!
    rw [hp] at hpq
    have hpq2 : p = q := by injection hpq
    subst hpq2
    rw [hmap] at hl
    simp only [List.map_cons, List.map_nil, List.getElem?_cons_zero, Option.some.injEq] at hl
    rw [← hl]
    decide
  refine ⟨p, hp, by simpa using hlen, l, hl, ?_, h2 rfl rfl, ?_⟩
  · apply h1
    intro d hd
    rw [hpid]
    simp only [List.mem_singleton] at hd
    subst hd
    decide
  · apply h3 rfl rfl
    intro d hd hid
    rw [hpid] at hid
    simp only [List.mem_singleton] at hd
    subst hd
    exact absurd hid (by decide)

/-! ## Caller values before catalog values (C11) -/

theorem mem_eraseDups_loop (a : String) (as bs : List String) :
    a ∈ List.eraseDups.loop as bs ↔ a ∈ as ∨ a ∈ bs := by
  induction as generalizing bs with
  | nil => simp [List.eraseDups.loop]
  | cons x xs ih =>
    rw [List.eraseDups.loop]
    cases hx : bs.elem x with
    | true =>
      simp only [ih]
      have hxb : x ∈ bs := by simpa using hx
      constructor
      · rintro (h | h)
        · exact Or.inl (List.mem_cons_of_mem _ h)
        · exact Or.inr h
      · rintro (h | h)
        · rcases List.mem_cons.mp h with h | h
          · exact Or.inr (h ▸ hxb)
          · exact Or.inl h
        · exact Or.inr h
    | false =>
      simp only [ih, List.mem_cons]
      tauto

theorem mem_idsToHydrate (items : List RawLine) (raw : RawLine) (pid : String)
    (hraw : raw ∈ items) (hpid : jsOr raw.productId (jsOr raw.item_id none) = some pid) :
    pid ∈ idsToHydrate items := by
  have hne : pid ≠ "" ∧ jsOr raw.productId raw.item_id = some pid := by
    unfold jsOr at hpid ⊢
    cases hp : raw.productId with
    | none =>
      rw [hp] at hpid
      cases hi : raw.item_id with
      | none => rw [hi] at hpid; simp at hpid
      | some s =>
        rw [hi] at hpid
        by_cases hs : s = ""
        · simp [hs] at hpid
        · simp [hs] at hpid
          subst hpid
          exact ⟨hs, rfl⟩
    | some s =>
      rw [hp] at hpid
      by_cases hs : s = ""
      · simp only [hs, if_true] at hpid ⊢
        cases hi : raw.item_id with
        | none => rw [hi] at hpid; simp at hpid
        | some s2 =>
          rw [hi] at hpid
          by_cases hs2 : s2 = ""
          · simp [hs2] at hpid
          · simp [hs2] at hpid
            subst hpid
            exact ⟨hs2, rfl⟩
      · simp [hs] at hpid ⊢
        subst hpid
        exact ⟨hs, rfl⟩
  unfold idsToHydrate List.eraseDups
  rw [mem_eraseDups_loop]
  left
  rw [List.mem_filterMap]
  refine ⟨some pid, ?_, rfl⟩
  rw [List.mem_filter]
  refine ⟨List.mem_map.mpr ⟨raw, hraw, hne.2⟩, ?_⟩
  simp [truthy, hne.1]

/-- The entry the callback reads from the hydrated catalog is the stored item of the line's
product id. -/
theorem catalogEntryOf_eq_lookupItem (itemColl : List CatalogDoc) (items : List RawLine)
    (raw : RawLine) (hraw : raw ∈ items) :
    catalogEntryOf (buildCatalog itemColl items) (jsOr raw.productId (jsOr raw.item_id none)) =
      lookupItem itemColl (jsOr raw.productId (jsOr raw.item_id none)) := by
  cases hpid : jsOr raw.productId (jsOr raw.item_id none) with
  | none => simp [catalogEntryOf, lookupItem]
  | some pid =>
    have hmem := mem_idsToHydrate items raw pid hraw hpid
    have hlen : (idsToHydrate items).length ≠ 0 := by
      intro h0
      rw [List.length_eq_zero.mp h0] at hmem
      cases hmem
    simp only [catalogEntryOf, catalogGet, buildCatalog, lookupItem, findItems, hlen, ne_eq,
      not_false_eq_true, if_true, List.filter_filter]
    congr 1
    apply List.filter_congr
    intro d _
    by_cases hd : d._id = pid
    · simp [hd, hmem]
    · simp [hd]


theorem jsOr_assoc (a b c : Option String) : jsOr (jsOr a b) c = jsOr a (jsOr b c) := by
  cases a with
  | none => rfl
  | some s =>
    by_cases hs : s = ""
    · simp [jsOr, hs]
    · simp [jsOr, hs]

theorem jsOr_of_ne_empty (s : String) (b : Option String) (hs : s ≠ "") :
    jsOr (some s) b = some s := by
  simp [jsOr, hs]

theorem jsOr_of_not_truthy (a b : Option String) (h : truthy a = false) : jsOr a b = b := by
  cases a with
  | none => rfl
  | some s =>
    have hs : s = "" := by simpa [truthy] using h
    simp [jsOr, hs]

theorem nullish_assoc (a b c : Option ℚ) : nullish (nullish a b) c = nullish a (nullish b c) := by
  cases a <;> rfl

theorem mapLine_fields (catalog : List CatalogDoc) (supplyType : String) (raw : RawLine) :
    (mapLine catalog supplyType raw).productId = jsOr raw.productId (jsOr raw.item_id none)
    ∧ (mapLine catalog supplyType raw).unitPrice =
        (nullish (nullish raw.unitPrice raw.unit_price)
          (nullish ((catalogEntryOf catalog (jsOr raw.productId (jsOr raw.item_id none))).bind
            (fun c => c.unit_price)) (some 0))).getD 0
    ∧ (mapLine catalog supplyType raw).taxRate =
        (nullish (nullish raw.taxRate raw.tax_rate)
          (nullish ((catalogEntryOf catalog (jsOr raw.productId (jsOr raw.item_id none))).bind
            (fun c => c.tax_rate)) (some 0))).getD 0
    ∧ (mapLine catalog supplyType raw).description =
        jsOr (jsOr raw.description raw.name)
          (jsOr ((catalogEntryOf catalog (jsOr raw.productId (jsOr raw.item_id none))).bind
            (fun c => c.name)) (some ""))
    ∧ (mapLine catalog supplyType raw).hsnSac =
        jsOr (jsOr raw.hsnSac (jsOr raw.hsn_sac_code raw.hsn))
          ((catalogEntryOf catalog (jsOr raw.productId (jsOr raw.item_id none))).bind
            (fun c => c.hsn_sac_code)) := by
  refine ⟨rfl, ?_, ?_, ?_, ?_⟩
  · rw [nullish_assoc]; rfl
  · rw [nullish_assoc]; rfl
  · rw [jsOr_assoc]; rfl
  · rw [jsOr_assoc, jsOr_assoc]; rfl

/-- C11: for every requested line, a unit price or tax rate supplied by the caller (0 included)
and a non-empty description or HSN/SAC code supplied by the caller are the values of the
materialised line, whatever the catalog holds; when the caller supplied none, the line carries
the value of the catalog entry of its product (0, the empty description or no code when the
entry or its value is missing). -/
theorem prepareInvoiceLineItems_caller_precedence (itemColl : List CatalogDoc)
    (items : List RawLine) (supplyType : String) :
    ∃ p, prepareInvoiceLineItems itemColl items supplyType = .ok p
      ∧ ∀ (i : Nat) (raw : RawLine), items[i]? = some raw →
          ∃ l, p.mappedItems[i]? = some l
            ∧ (∀ v, nullish raw.unitPrice raw.unit_price = some v → l.unitPrice = v)
            ∧ (∀ v, nullish raw.taxRate raw.tax_rate = some v → l.taxRate = v)
            ∧ (∀ s, jsOr raw.description raw.name = some s → s ≠ "" →
                l.description = some s)
            ∧ (∀ s, jsOr raw.hsnSac (jsOr raw.hsn_sac_code raw.hsn) = some s → s ≠ "" →
                l.hsnSac = some s)
            ∧ (nullish raw.unitPrice raw.unit_price = none →
                l.unitPrice =
                  ((lookupItem itemColl l.productId).bind (fun c => c.unit_price)).getD 0)
            ∧ (nullish raw.taxRate raw.tax_rate = none →
                l.taxRate =
                  ((lookupItem itemColl l.productId).bind (fun c => c.tax_rate)).getD 0)
            ∧ (truthy (jsOr raw.description raw.name) = false →
                l.description =
                  jsOr ((lookupItem itemColl l.productId).bind (fun c => c.name)) (some ""))
            ∧ (truthy (jsOr raw.hsnSac (jsOr raw.hsn_sac_code raw.hsn)) = false →
                l.hsnSac = (lookupItem itemColl l.productId).bind (fun c => c.hsn_sac_code)) := by
  obtain ⟨p, hp, hmap⟩ := prepareInvoiceLineItems_ok itemColl items supplyType
  refine ⟨p, hp, fun i raw hi => ?_⟩
  have hraw : raw ∈ items := List.getElem?_mem hi
  obtain ⟨hpid, hu, ht, hd, hh⟩ := mapLine_fields (buildCatalog itemColl items) supplyType raw
  have hentry := catalogEntryOf_eq_lookupItem itemColl items raw hraw
  refine ⟨mapLine (buildCatalog itemColl items) supplyType raw, ?_, ?_, ?_, ?_, ?_, ?_, ?_, ?_, ?_⟩
  · rw [hmap, List.getElem?_map, hi]; rfl
  · intro v hv
    rw [hu, hv]; rfl
  · intro v hv
    rw [ht, hv]; rfl
  · intro s hs hne
    rw [hd, hs, jsOr_of_ne_empty s _ hne]
  · intro s hs hne
    rw [hh, hs, jsOr_of_ne_empty s _ hne]
  · intro hv
    rw [hu, hv, hpid, hentry]
    cases (lookupItem itemColl (jsOr raw.productId (jsOr raw.item_id none))).bind
      (fun c => c.unit_price) <;> rfl
  · intro hv
    rw [ht, hv, hpid, hentry]
    cases (lookupItem itemColl (jsOr raw.productId (jsOr raw.item_id none))).bind
      (fun c => c.tax_rate) <;> rfl
  · intro hv
    rw [hd, jsOr_of_not_truthy _ _ hv, hpid, hentry]
  · intro hv
    rw [hh, jsOr_of_not_truthy _ _ hv, hpid, hentry]

/-- Witness of C11: the catalog prices `p1` at 100 with rate 18, the caller asks for price 0 and
rate 0 and gives a description. -/
theorem prepareInvoiceLineItems_caller_precedence_witness :
    prepareInvoiceLineItems sampleCatalog [overrideLine] "intra" =
      .ok { mappedItems :=
              [{ productId := some "p1", description := some "Custom", quantity := 2,
                 unitPrice := 0, discount := 0, taxRate := 0, hsnSac := some "8471",
                 taxableValue := 0, cgstAmount := 0, sgstAmount := 0, igstAmount := 0,
                 total := 0 }],
            totals := zeroTotals }
    ∧ ∃ p, prepareInvoiceLineItems sampleCatalog [overrideLine] "intra" = .ok p
      ∧ ∀ (i : Nat) (raw : RawLine), [overrideLine][i]? = some raw →
          ∃ l, p.mappedItems[i]? = some l
            ∧ (∀ v, nullish raw.unitPrice raw.unit_price = some v → l.unitPrice = v)
            ∧ (∀ v, nullish raw.taxRate raw.tax_rate = some v → l.taxRate = v)
            ∧ (∀ s, jsOr raw.description raw.name = some s → s ≠ "" →
                l.description = some s)
            ∧ (∀ s, jsOr raw.hsnSac (jsOr raw.hsn_sac_code raw.hsn) = some s → s ≠ "" →
                l.hsnSac = some s)
            ∧ (nullish raw.unitPrice raw.unit_price = none →
                l.unitPrice =
                  ((lookupItem sampleCatalog l.productId).bind (fun c => c.unit_price)).getD 0)
            ∧ (nullish raw.taxRate raw.tax_rate = none →
                l.taxRate =
                  ((lookupItem sampleCatalog l.productId).bind (fun c => c.tax_rate)).getD 0)
            ∧ (truthy (jsOr raw.description raw.name) = false →
                l.description =
                  jsOr ((lookupItem sampleCatalog l.productId).bind (fun c => c.name))
                    (some ""))
            ∧ (truthy (jsOr raw.hsnSac (jsOr raw.hsn_sac_code raw.hsn)) = false →
                l.hsnSac =
                  (lookupItem sampleCatalog l.productId).bind (fun c => c.hsn_sac_code)) := by
  refine ⟨?_, prepareInvoiceLineItems_caller_precedence _ _ _⟩
  simp [prepareInvoiceLineItems, prepareStep, addLine, zeroTotals, mapLine, splitTaxAmounts,
    toDecimal, nullish, jsOr, buildCatalog, findItems, catalogGet, catalogEntryOf, idsToHydrate,
    truthy, List.eraseDups, List.eraseDups.loop, sampleCatalog, overrideLine]

/-! ## Taxable value of a requested line (C4) -/

theorem mapLine_request_values (catalog : List CatalogDoc) (supplyType : String) (raw : RawLine) :
    (mapLine catalog supplyType raw).quantity = (nullish raw.quantity raw.qty).getD 0
    ∧ (mapLine catalog supplyType raw).discount = raw.discount.getD 0 := by
  constructor
  · show (nullish raw.quantity (nullish raw.qty (some 0))).getD 0 = _
    cases raw.quantity <;> cases raw.qty <;> rfl
  · show (nullish raw.discount (some 0)).getD 0 = _
    cases raw.discount <;> rfl

/-- C4: when `prepareInvoiceLineItems` resolves (every product reference can be cast to an
ObjectId), every requested line is materialised, in order; the line of a request carries the
requested quantity (`quantity`, else `qty`, else 0), the requested unit price (`unitPrice`, else
`unit_price`, else the price of the stored item, else 0) and the requested discount (else 0),
and its `taxableValue` is `max(quantity*unitPrice - discount, 0)` of these values, which is
never negative. -/
theorem prepareInvoiceLineItems_taxableValue (castable : String → Bool)
    (itemColl : List CatalogDoc) (items : List RawLine) (supplyType : String)
    (hc : (idsToHydrate items).all castable = true) :
    ∃ p, prepareInvoiceLineItemsCast castable itemColl items supplyType = .ok p
      ∧ p.mappedItems.length = items.length
      ∧ ∀ (i : Nat) (raw : RawLine), items[i]? = some raw →
          ∃ l, p.mappedItems[i]? = some l
            ∧ l.quantity = (nullish raw.quantity raw.qty).getD 0
            ∧ l.unitPrice =
                (nullish (nullish raw.unitPrice raw.unit_price)
                  ((lookupItem itemColl (jsOr raw.productId (jsOr raw.item_id none))).bind
                    (fun c => c.unit_price))).getD 0
            ∧ l.discount = raw.discount.getD 0
            ∧ l.taxableValue =
                max ((nullish raw.quantity raw.qty).getD 0 *
                    (nullish (nullish raw.unitPrice raw.unit_price)
                      ((lookupItem itemColl (jsOr raw.productId (jsOr raw.item_id none))).bind
                        (fun c => c.unit_price))).getD 0
                  - raw.discount.getD 0) 0
            ∧ 0 ≤ l.taxableValue := by
  obtain ⟨p, hp, hmap⟩ := prepareInvoiceLineItems_ok itemColl items supplyType
  have hp2 : prepareInvoiceLineItemsCast castable itemColl items supplyType = .ok p := by
    simp only [prepareInvoiceLineItemsCast, hc, if_true, hp]
  refine ⟨p, hp2, by simp [hmap], fun i raw hi => ?_⟩
  have hraw : raw ∈ items := List.getElem?_mem hi
  obtain ⟨-, hu, -, -, -⟩ := mapLine_fields (buildCatalog itemColl items) supplyType raw
  obtain ⟨hq, hd⟩ := mapLine_request_values (buildCatalog itemColl items) supplyType raw
  have hentry := catalogEntryOf_eq_lookupItem itemColl items raw hraw
  have hu2 : (mapLine (buildCatalog itemColl items) supplyType raw).unitPrice =
      (nullish (nullish raw.unitPrice raw.unit_price)
        ((lookupItem itemColl (jsOr raw.productId (jsOr raw.item_id none))).bind
          (fun c => c.unit_price))).getD 0 := by
    rw [hu, hentry]
    cases nullish raw.unitPrice raw.unit_price <;>
      cases (lookupItem itemColl (jsOr raw.productId (jsOr raw.item_id none))).bind
        (fun c => c.unit_price) <;> rfl
  have ht := mapLine_taxableValue (buildCatalog itemColl items) supplyType raw
  refine ⟨mapLine (buildCatalog itemColl items) supplyType raw, ?_, hq, hu2, hd, ?_, ?_⟩
  · rw [hmap, List.getElem?_map, hi]; rfl
  · rw [ht, hq, hu2, hd]
  · rw [ht]; exact le_max_right _ _

/-- Witness of C4 on the scenario line: price 100, quantity 2 and discount 0 give the taxable
value 200. -/
theorem prepareInvoiceLineItems_taxableValue_witness :
    ∃ p, prepareInvoiceLineItemsCast isObjectIdHex [shelfItem.toCatalog] [taxableLine] "intra"
        = .ok p
      ∧ p.mappedItems.length = 1
      ∧ ∃ l, p.mappedItems[0]? = some l ∧ l.quantity = 2 ∧ l.unitPrice = 100 ∧ l.discount = 0
          ∧ l.taxableValue = 200 := by
  obtain ⟨p, hp, hlen, h⟩ := prepareInvoiceLineItems_taxableValue isObjectIdHex
    [shelfItem.toCatalog] [taxableLine] "intra" (by decide!)
  obtain ⟨l, hl, hq, hu, hd, ht, -⟩ := h 0 taxableLine (by simp)
  refine ⟨p, hp, by simpa using hlen, l, hl, ?_, ?_, ?_, ?_⟩
  · rw [hq]; simp [taxableLine, nullish]
  · rw [hu]; simp [taxableLine, nullish]
  · rw [hd]; simp [taxableLine]
  · rw [ht]; simp [taxableLine, nullish]; norm_num

/-! ## Supply type (C12) -/

theorem truthy_eq_false_iff (a : Option String) : truthy a = false ↔ a = none ∨ a = some "" := by
  cases a with
  | none => simp [truthy]
  | some s => simp [truthy]

/-- C12: `determineSupplyType` returns 'intra' whenever the home state or the place of supply
is missing or empty; when both are known it returns 'intra' if they are equal after trimming
and lower-casing and 'inter' otherwise. The supply type `createInvoice` resolves without a
caller override is this value for the resolved place of supply. -/
theorem determineSupplyType_spec (originState destinationState : Option String) :
    ((originState = none ∨ originState = some "" ∨ destinationState = none
        ∨ destinationState = some "") →
      determineSupplyType originState destinationState = "intra")
    ∧ (∀ a b, originState = some a → destinationState = some b → a ≠ "" → b ≠ "" →
        (jsToLowerCase (jsTrim a) = jsToLowerCase (jsTrim b) →
          determineSupplyType originState destinationState = "intra")
        ∧ (jsToLowerCase (jsTrim a) ≠ jsToLowerCase (jsTrim b) →
          determineSupplyType originState destinationState = "inter"))
    ∧ (∀ place, resolveSupplyType none originState place =
        determineSupplyType originState (some place)) := by
  refine ⟨fun h => ?_, fun a b ha hb hane hbne => ?_, fun place => ?_⟩
  · have h2 : truthy originState = false ∨ truthy destinationState = false := by
      rcases h with h | h | h | h
      · exact Or.inl ((truthy_eq_false_iff _).mpr (Or.inl h))
      · exact Or.inl ((truthy_eq_false_iff _).mpr (Or.inr h))
      · exact Or.inr ((truthy_eq_false_iff _).mpr (Or.inl h))
      · exact Or.inr ((truthy_eq_false_iff _).mpr (Or.inr h))
    unfold determineSupplyType
    rcases h2 with h2 | h2 <;> simp [h2, SUPPLY_INTRA]
  · subst ha hb
    have ta : truthy (some a) = true := by simp [truthy, hane]
    have tb : truthy (some b) = true := by simp [truthy, hbne]
    constructor
    · intro heq
      simp [determineSupplyType, ta, tb, heq, SUPPLY_INTRA]
    · intro hne
      simp [determineSupplyType, ta, tb, hne, SUPPLY_INTER]
  · simp [resolveSupplyType, jsOr]

/-- Witness of C12: a padded, differently cased spelling of the same state is same-region; a
different state is cross-region; an unknown place of supply is same-region. -/
theorem determineSupplyType_spec_witness :
    determineSupplyType (some " Maharashtra ") (some "maharashtra") = "intra"
    ∧ determineSupplyType (some "Maharashtra") (some "Goa") = "inter"
    ∧ determineSupplyType (some "Maharashtra") (some "") = "intra" :=
  ⟨((determineSupplyType_spec (some " Maharashtra ") (some "maharashtra")).2.1
      " Maharashtra " "maharashtra" rfl rfl (by decide) (by decide)).1 (by decide),
    ((determineSupplyType_spec (some "Maharashtra") (some "Goa")).2.1
      "Maharashtra" "Goa" rfl rfl (by decide) (by decide)).2 (by decide),
    (determineSupplyType_spec (some "Maharashtra") (some "")).1 (Or.inr (Or.inr (Or.inr rfl)))⟩

/-! ## Recomputation from the stored lines (C16) -/

theorem foldl_prepareStep_totals (catalog : List CatalogDoc) (supplyType : String)
    (items : List RawLine) (acc : Prepared) :
    (items.foldl (prepareStep catalog supplyType) acc).totals =
      (items.map (mapLine catalog supplyType)).foldl addLine acc.totals := by
  induction items generalizing acc with
  | nil => rfl
  | cons raw rest ih =>
    rw [List.foldl_cons, ih]
    rfl

/-- The totals `prepareInvoiceLineItems` accumulates are the fold of the materialised lines. -/
theorem prepareInvoiceLineItems_totals (itemColl : List CatalogDoc) (items : List RawLine)
    (supplyType : String) :
    ∃ p, prepareInvoiceLineItems itemColl items supplyType = .ok p
      ∧ p.mappedItems = items.map (mapLine (buildCatalog itemColl items) supplyType)
      ∧ p.totals = p.mappedItems.foldl addLine zeroTotals := by
  unfold prepareInvoiceLineItems
  by_cases h : items.length = 0
  · have h0 : items = [] := List.length_eq_zero.mp h
    subst h0
    exact ⟨_, rfl, rfl, rfl⟩
  · rw [if_neg h]
    refine ⟨_, rfl, by rw [foldl_prepareStep_mappedItems]; simp, ?_⟩
    rw [foldl_prepareStep_totals, foldl_prepareStep_mappedItems]
    simp

/-- A stored split that is all zero comes from a zero tax, so any recomputation is zero. -/
theorem splitTaxAmounts_zero_of_stored_zero (t r : ℚ) (s s2 : String)
    (hc : (splitTaxAmounts t r s).cgst = 0) (hi : (splitTaxAmounts t r s).igst = 0) :
    splitTaxAmounts t r s2 = { cgst := 0, sgst := 0, igst := 0 } := by
  by_cases h : t * r = 0
  · exact splitTaxAmounts_zero t r s2 h
  · exfalso
    by_cases hs : s = "inter"
    · subst hs
      rw [splitTaxAmounts_inter t r h] at hi
      exact div_hundred_ne_zero _ h hi
    · rw [splitTaxAmounts_not_inter t r s hs h] at hc
      exact div_ne_zero (div_hundred_ne_zero _ h) (by norm_num) hc

theorem calcStep_toItem (catalog : List CatalogDoc) (s s2 : String) (raw : RawLine)
    (acc : Totals) :
    calcStep s2 acc (mapLine catalog s raw).toItem = addLine acc (mapLine catalog s raw) := by
  obtain ⟨hc, hs, hi⟩ := mapLine_amounts catalog s raw
  have htv := mapLine_taxableValue catalog s raw
  generalize mapLine catalog s raw = l at hc hs hi htv
  have htv2 : (if l.taxableValue ≠ 0 then l.taxableValue
      else max (l.quantity * l.unitPrice - l.discount) 0) = l.taxableValue := by
    split_ifs with h0
    · rfl
    · exact htv.symm
  have hsplit : (if l.cgstAmount = 0 ∧ l.sgstAmount = 0 ∧ l.igstAmount = 0
        then splitTaxAmounts l.taxableValue l.taxRate s2
        else ({ cgst := l.cgstAmount, sgst := l.sgstAmount, igst := l.igstAmount } : TaxSplit))
      = { cgst := l.cgstAmount, sgst := l.sgstAmount, igst := l.igstAmount } := by
    split_ifs with h0
    · obtain ⟨h1, h2, h3⟩ := h0
      rw [splitTaxAmounts_zero_of_stored_zero l.taxableValue l.taxRate s s2
        (hc ▸ h1) (hi ▸ h3), h1, h2, h3]
    · rfl
  simp only [calcStep, Line.toItem, addLine, asNumber, htv2, hsplit]

theorem foldl_calcStep_toItem (catalog : List CatalogDoc) (s s2 : String) (items : List RawLine)
    (acc : Totals) :
    ((items.map (mapLine catalog s)).map Line.toItem).foldl (calcStep s2) acc =
      (items.map (mapLine catalog s)).foldl addLine acc := by
  induction items generalizing acc with
  | nil => rfl
  | cons raw rest ih =>
    simp only [List.map_cons, List.foldl_cons]
    rw [calcStep_toItem, ih]

/-- C16: for every line list, supply type, shipping value and invoice-level discount,
`calculateTotals` on the lines `prepareInvoiceLineItems` materialised returns the totals that
`finalizeTotals` returns on the totals `prepareInvoiceLineItems` accumulated, whatever supply
type `calculateTotals` is given. -/
theorem calculateTotals_of_materialised (itemColl : List CatalogDoc) (items : List RawLine)
    (supplyType supplyType2 : String) (shipping discount : ℚ) :
    ∃ p, prepareInvoiceLineItems itemColl items supplyType = .ok p
      ∧ calculateTotals (p.mappedItems.map Line.toItem) shipping discount supplyType2 =
          finalizeTotals p.totals shipping discount := by
  obtain ⟨p, hp, hmap, htot⟩ := prepareInvoiceLineItems_totals itemColl items supplyType
  refine ⟨p, hp, ?_⟩
  unfold calculateTotals
  rw [htot, hmap, foldl_calcStep_toItem]

/-- The two update paths on the scenario line: both give grand total 286 with shipping 50. -/
theorem calculateTotals_of_materialised_scenario :
    ∃ p, prepareInvoiceLineItems [] [sampleLine] "intra" = .ok p
      ∧ calculateTotals (p.mappedItems.map Line.toItem) 50 0 "intra" =
          finalizeTotals p.totals 50 0
      ∧ (finalizeTotals p.totals 50 0).grandTotal = 286 := by
  refine ⟨_, rfl, ?_, ?_⟩
  · obtain ⟨p, hp, h⟩ := calculateTotals_of_materialised [] [sampleLine] "intra" "intra" 50 0
    cases hp
    exact h
  · simp [prepareStep, addLine, zeroTotals, mapLine, sampleLine, finalizeTotals,
      splitTaxAmounts, toDecimal, nullish, jsOr, buildCatalog, findItems, catalogGet,
      catalogEntryOf, SUPPLY_INTER]
    norm_num

/-! ## The cached balance (C13, C14, C15) -/

theorem findById_id (invoices : List InvoiceDoc) (id : String) (d : InvoiceDoc)
    (h : findById invoices id = some d) : d._id = id := by
  have := List.find?_some h
  simpa using this

theorem findById_saveInvoice (invoices : List InvoiceDoc) (id : String) (d inv : InvoiceDoc)
    (h : findById invoices id = some d) (hid : inv._id = id) :
    findById (saveInvoice invoices inv) id = some inv := by
  induction invoices with
  | nil => cases h
  | cons x xs ih =>
    simp only [findById, saveInvoice, List.map_cons, List.find?_cons] at h ih ⊢
    by_cases hx : x._id = id
    · have hxi : x._id = inv._id := by rw [hx, hid]
      simp [hxi, hid]
    · have hxi : ¬ x._id = inv._id := by rw [hid]; exact hx
      simp only [hxi, if_false]
      have hb : (x._id == id) = false := by simpa using hx
      rw [hb] at h ⊢
      exact ih h

theorem updateDoc_ok (itemColl : List CatalogDoc) (inv : InvoiceDoc) (payload : UpdatePayload) :
    ∃ inv1, updateDoc itemColl inv payload = .ok inv1
      ∧ inv1._id = inv._id
      ∧ (payload.amountPaid = none →
          inv1.paymentStatus = inv.paymentStatus ∧ inv1.amountPaid = inv.amountPaid
            ∧ inv1.balanceDue = inv.balanceDue)
      ∧ (∀ p, payload.amountPaid = some p →
          inv1.amountPaid = some p
            ∧ inv1.balanceDue = some (asNumber inv1.grandTotal - p)
            ∧ inv1.paymentStatus = statusOf (asNumber inv1.grandTotal) p)
      ∧ (payload.items = none → payload.shippingCharge = none →
          inv1.grandTotal = inv.grandTotal) := by
  unfold updateDoc
  cases hitems : payload.items with
  | some rawItems =>
    obtain ⟨p, hp, -⟩ := prepareInvoiceLineItems_ok itemColl rawItems
      (if (applyUpdatable inv payload).supplyType = "" then SUPPLY_INTRA
        else (applyUpdatable inv payload).supplyType)
    simp only [hp]
    cases hpaid : payload.amountPaid with
    | none =>
      refine ⟨_, rfl, rfl, ?_, ?_, ?_⟩
      · intro _
        simp [storeTotals, applyUpdatable, assignOpt, hpaid]
      · intro q hq
        cases hq
      · intro h
        cases h
    | some q =>
      refine ⟨_, rfl, rfl, ?_, ?_, ?_⟩
      · intro h
        cases h
      · intro q2 hq
        cases hq
        simp [recomputeBalance, storeTotals, applyUpdatable, assignOpt, hpaid, asNumber,
          toDecimal, statusOf]
      · intro h
        cases h
  | none =>
    cases hship : payload.shippingCharge with
    | some v =>
      simp only []
      cases hpaid : payload.amountPaid with
      | none =>
        refine ⟨_, rfl, rfl, ?_, ?_, ?_⟩
        · intro _
          simp [storeTotals, applyUpdatable, assignOpt, hpaid]
        · intro q hq
          cases hq
        · intro _ h
          cases h
      | some q =>
        refine ⟨_, rfl, rfl, ?_, ?_, ?_⟩
        · intro h
          cases h
        · intro q2 hq
          cases hq
          simp [recomputeBalance, storeTotals, applyUpdatable, assignOpt, hpaid, asNumber,
            toDecimal, statusOf]
        · intro _ h
          cases h
    | none =>
      simp only []
      cases hpaid : payload.amountPaid with
      | none =>
        refine ⟨_, rfl, rfl, ?_, ?_, ?_⟩
        · intro _
          simp [applyUpdatable, assignOpt, hpaid]
        · intro q hq
          cases hq
        · intro _ _
          rfl
      | some q =>
        refine ⟨_, rfl, rfl, ?_, ?_, ?_⟩
        · intro h
          cases h
        · intro q2 hq
          cases hq
          simp [recomputeBalance, applyUpdatable, assignOpt, hpaid, asNumber, toDecimal,
            statusOf]
        · intro _ _
          rfl


theorem markPaidDoc_facts (inv : InvoiceDoc) (amount : Option ℚ) (paymentInfo : PaymentInfo)
    (now : Int) :
    (markPaidDoc inv amount paymentInfo now)._id = inv._id
    ∧ (markPaidDoc inv amount paymentInfo now).grandTotal = inv.grandTotal
    ∧ (markPaidDoc inv amount paymentInfo now).amountPaid =
        some (asNumber inv.amountPaid + orZero amount)
    ∧ (markPaidDoc inv amount paymentInfo now).balanceDue =
        some (asNumber inv.grandTotal - (asNumber inv.amountPaid + orZero amount))
    ∧ (markPaidDoc inv amount paymentInfo now).paymentStatus =
        (if asNumber inv.grandTotal - (asNumber inv.amountPaid + orZero amount) ≤ 0 then "Paid"
          else if asNumber inv.amountPaid + orZero amount > 0 then "Partial"
          else inv.paymentStatus) :=
  ⟨rfl, rfl, rfl, rfl, rfl⟩

theorem statusRank_le_paid (s : String) : statusRank s ≤ statusRank "Paid" := by
  have h : statusRank "Paid" = 2 := by decide
  rw [h]
  unfold statusRank
  split_ifs <;> omega

theorem statusRank_statusOf_mono (g p g2 p2 : ℚ) (hp : p ≤ p2) (hg : g2 ≤ g) :
    statusRank (statusOf g p) ≤ statusRank (statusOf g2 p2) := by
  unfold statusOf
  by_cases h1 : g - p ≤ 0
  · have h2 : g2 - p2 ≤ 0 := by linarith
    simp [h1, h2]
  · by_cases h2 : g2 - p2 ≤ 0
    · simp only [h1, h2, if_true, if_false]
      split_ifs <;> decide
    · by_cases h3 : p > 0
      · have h4 : p2 > 0 := by linarith
        simp [h1, h2, h3, h4]
      · simp only [h1, h2, h3, if_false]
        split_ifs <;> decide

/-- One call keeps the status not ahead of the amounts and, when the paid amount does not
decrease and the grand total does not increase, does not move the status backward. -/
theorem applyOp_step (itemColl : List CatalogDoc) (id : String) (invoices : List InvoiceDoc)
    (op : InvoiceOp) (doc : InvoiceDoc) (hdoc : findById invoices id = some doc)
    (hna : NotAhead doc)
    (hpaid : storedPaid invoices id ≤ storedPaid (applyOp itemColl id invoices op) id)
    (hgrand : storedGrand (applyOp itemColl id invoices op) id ≤ storedGrand invoices id) :
    ∃ doc2, findById (applyOp itemColl id invoices op) id = some doc2 ∧ NotAhead doc2
      ∧ statusRank doc.paymentStatus ≤ statusRank doc2.paymentStatus := by
  have hid := findById_id invoices id doc hdoc
  cases op with
  | markPaid amount paymentInfo now =>
    obtain ⟨h1, h2, h3, -, h5⟩ := markPaidDoc_facts doc amount paymentInfo now
    have hfind : findById (applyOp itemColl id invoices (.markPaid amount paymentInfo now)) id
        = some (markPaidDoc doc amount paymentInfo now) := by
      simp only [applyOp, markInvoiceAsPaid, hdoc]
      exact findById_saveInvoice invoices id doc _ hdoc (h1.trans hid)
    simp only [storedPaid, storedGrand, hfind, hdoc, Option.bind_some, h2, h3] at hpaid hgrand
    have hpaid2 : asNumber doc.amountPaid ≤ asNumber doc.amountPaid + orZero amount := hpaid
    have hmono := statusRank_statusOf_mono (asNumber doc.grandTotal) (asNumber doc.amountPaid)
      (asNumber doc.grandTotal) (asNumber doc.amountPaid + orZero amount) hpaid2 (le_refl _)
    have hst : statusRank doc.paymentStatus
        ≤ statusRank (markPaidDoc doc amount paymentInfo now).paymentStatus
        ∧ statusRank (markPaidDoc doc amount paymentInfo now).paymentStatus
          ≤ statusRank (statusOf (asNumber doc.grandTotal)
              (asNumber doc.amountPaid + orZero amount)) := by
      rw [h5]
      unfold NotAhead at hna
      unfold statusOf at hmono hna ⊢
      by_cases c1 : asNumber doc.grandTotal - (asNumber doc.amountPaid + orZero amount) ≤ 0
      · simp only [c1, if_true] at hmono ⊢
        exact ⟨statusRank_le_paid _, le_refl _⟩
      · by_cases c2 : asNumber doc.amountPaid + orZero amount > 0
        · simp only [c1, c2, if_true, if_false] at hmono ⊢
          exact ⟨le_trans hna hmono, le_refl _⟩
        · simp only [c1, c2, if_false] at hmono ⊢
          exact ⟨le_refl _, le_trans hna hmono⟩
    refine ⟨_, hfind, ?_, hst.1⟩
    unfold NotAhead
    rw [h2, h3]
    exact hst.2
  | update payload =>
    obtain ⟨doc2, hok, h1, hnone, hsome, -⟩ := updateDoc_ok itemColl doc payload
    have hfind : findById (applyOp itemColl id invoices (.update payload)) id = some doc2 := by
      simp only [applyOp, updateInvoice, hdoc, hok]
      exact findById_saveInvoice invoices id doc _ hdoc (h1.trans hid)
    simp only [storedPaid, storedGrand, hfind, hdoc, Option.bind_some] at hpaid hgrand
    have hmono := statusRank_statusOf_mono (asNumber doc.grandTotal) (asNumber doc.amountPaid)
      (asNumber doc2.grandTotal) (asNumber doc2.amountPaid) hpaid hgrand
    unfold NotAhead at hna ⊢
    cases hp : payload.amountPaid with
    | none =>
      obtain ⟨hs, -, -⟩ := hnone hp
      refine ⟨doc2, hfind, ?_, ?_⟩
      · rw [hs]; exact le_trans hna hmono
      · rw [hs]
    | some p =>
      obtain ⟨ha, -, hs⟩ := hsome p hp
      have hp2 : asNumber doc2.amountPaid = p := by rw [ha]; rfl
      refine ⟨doc2, hfind, ?_, ?_⟩
      · rw [hs, hp2]
      · rw [hs]
        rw [hp2] at hmono
        exact le_trans hna hmono

/-- C14 amended: starting from an invoice whose stored status is not ahead of its stored
amounts (a new, 'Unpaid' invoice in particular), along every sequence of `markInvoiceAsPaid` and
`updateInvoice` calls in which the stored paid amount never decreases and the stored grand total
never increases, the stored status never moves backward on the path Unpaid, Partial, Paid. -/
theorem payment_status_forward (itemColl : List CatalogDoc) (id : String)
    (ops : List InvoiceOp) (invoices : List InvoiceDoc) (doc : InvoiceDoc)
    (hdoc : findById invoices id = some doc) (hna : NotAhead doc)
    (hamounts : AmountsForward itemColl id invoices ops) :
    StatusForward itemColl id invoices ops := by
  induction ops generalizing invoices doc with
  | nil => trivial
  | cons op rest ih =>
    obtain ⟨hpaid, hgrand, hrest⟩ := hamounts
    obtain ⟨doc2, hfind, hna2, hrank⟩ :=
      applyOp_step itemColl id invoices op doc hdoc hna hpaid hgrand
    refine ⟨?_, ih _ doc2 hfind hna2 hrest⟩
    simp only [storedStatus, hdoc, hfind, Option.map_some', Option.getD_some]
    exact hrank


/-- C13 fails on the code: on an invoice of grand total 384 with 100 paid and status 'Partial',
`markInvoiceAsPaid` with the amount -100 stores paid 0 and balance 384 and leaves the status
'Partial', where the claim says 'Unpaid'; `updateInvoice` with `amountPaid` 0 on the same
invoice stores 'Unpaid'. -/
theorem markInvoiceAsPaid_keeps_status_at_zero_paid :
    (markInvoiceAsPaid partialInvoices "inv1" (some (-100)) {} 0).map
        (fun r => (r.1.amountPaid, r.1.balanceDue, r.1.paymentStatus))
      = .ok (some 0, some 384, "Partial")
    ∧ (updateInvoice [] partialInvoices "inv1" { amountPaid := some 0 }).map
        (fun r => (r.1.amountPaid, r.1.balanceDue, r.1.paymentStatus))
      = .ok (some 0, some 384, "Unpaid") := by
  constructor
  · simp [markInvoiceAsPaid, findById, partialInvoices, partialInvoice, markPaidDoc, asNumber,
      toDecimal, orZero, Except.map]
  · simp [updateInvoice, updateDoc, findById, partialInvoices, partialInvoice, recomputeBalance,
      applyUpdatable, assignOpt, asNumber, toDecimal, Except.map]

/-- C14, as stated, fails: `updateInvoice` with `amountPaid` 0 moves a fully paid invoice from
'Paid' back to 'Unpaid'. -/
theorem updateInvoice_moves_status_backward :
    storedStatus paidInvoices "inv1" = "Paid"
    ∧ storedStatus (applyOp [] "inv1" paidInvoices (.update { amountPaid := some 0 })) "inv1"
        = "Unpaid"
    ∧ ¬ StatusForward [] "inv1" paidInvoices [.update { amountPaid := some 0 }] := by
  have h1 : storedStatus paidInvoices "inv1" = "Paid" := by decide
  have h2 : storedStatus (applyOp [] "inv1" paidInvoices (.update { amountPaid := some 0 }))
      "inv1" = "Unpaid" := by
    simp [storedStatus, applyOp, updateInvoice, updateDoc, findById, saveInvoice, paidInvoices,
      paidInvoice, recomputeBalance, applyUpdatable, assignOpt, asNumber, toDecimal]
  refine ⟨h1, h2, ?_⟩
  intro h
  have h3 := h.1
  rw [h1, h2] at h3
  revert h3
  decide

/-- Witness of C14 amended: payments of 200 and 184 on a new invoice of 384. -/
theorem payment_status_forward_witness :
    findById unpaidInvoices "inv1" = some unpaidInvoice
    ∧ NotAhead unpaidInvoice
    ∧ AmountsForward [] "inv1" unpaidInvoices
        [.markPaid (some 200) {} 0, .markPaid (some 184) {} 0]
    ∧ StatusForward [] "inv1" unpaidInvoices
        [.markPaid (some 200) {} 0, .markPaid (some 184) {} 0] := by
  have h1 : findById unpaidInvoices "inv1" = some unpaidInvoice := by decide
  have h2 : NotAhead unpaidInvoice := by simp [NotAhead, statusRank, unpaidInvoice]
  have h3 : AmountsForward [] "inv1" unpaidInvoices
      [.markPaid (some 200) {} 0, .markPaid (some 184) {} 0] := by
    simp [AmountsForward, storedPaid, storedGrand, applyOp, markInvoiceAsPaid, findById,
      saveInvoice, unpaidInvoices, unpaidInvoice, markPaidDoc, asNumber, toDecimal, orZero]
  exact ⟨h1, h2, h3,
    payment_status_forward [] "inv1" _ unpaidInvoices unpaidInvoice h1 h2 h3⟩

/-- C15: for every stored invoice, `updateInvoice` with an empty payload succeeds and returns
and stores the invoice as it was: every field, so the totals, `amountPaid`, `balanceDue`,
`paymentStatus` and the line items, is unchanged, and with unique ids the collection is
unchanged. -/
theorem updateInvoice_empty_payload (itemColl : List CatalogDoc) (invoices : List InvoiceDoc)
    (invoiceId : String) (doc : InvoiceDoc) (hdoc : findById invoices invoiceId = some doc) :
    ∃ r, updateInvoice itemColl invoices invoiceId {} = .ok r
      ∧ r.1 = doc
      ∧ findById r.2 invoiceId = some doc
      ∧ ((∀ d ∈ invoices, d._id = invoiceId → d = doc) → r.2 = invoices) := by
  have hid := findById_id invoices invoiceId doc hdoc
  have hupd : updateDoc itemColl doc {} = .ok doc := rfl
  refine ⟨(doc, saveInvoice invoices doc), ?_, rfl, ?_, ?_⟩
  · simp only [updateInvoice, hdoc, hupd]
  · exact findById_saveInvoice invoices invoiceId doc doc hdoc hid
  · intro huniq
    show invoices.map _ = invoices
    conv_rhs => rw [← List.map_id invoices]
    apply List.map_congr_left
    intro d hd
    by_cases h : d._id = doc._id
    · simp only [h, if_true, id]
      exact (huniq d hd (h.trans hid)).symm
    · simp only [h, if_false, id]

/-- Witness of C15 on the invoice with 100 paid. -/
theorem updateInvoice_empty_payload_witness :
    findById partialInvoices "inv1" = some partialInvoice
    ∧ ∃ r, updateInvoice [] partialInvoices "inv1" {} = .ok r
      ∧ r.1 = partialInvoice
      ∧ findById r.2 "inv1" = some partialInvoice
      ∧ ((∀ d ∈ partialInvoices, d._id = "inv1" → d = partialInvoice) →
          r.2 = partialInvoices) :=
  ⟨by decide, updateInvoice_empty_payload [] partialInvoices "inv1" partialInvoice (by decide)⟩

/-! ## Draft sections (C20) -/

theorem sectionKey_cases (d : InvoiceDoc) :
    sectionKey d = "b2b" ∨ sectionKey d = "b2c" ∨ sectionKey d = "export"
      ∨ sectionKey d = "nil" := by
  unfold sectionKey
  split_ifs <;> simp

theorem sectionStep_of_key (s : Sections) (d : InvoiceDoc) :
    (sectionKey d = "b2b" → sectionStep s d = { s with b2b := foldSectionTotals s.b2b d })
    ∧ (sectionKey d = "b2c" → sectionStep s d = { s with b2c := foldSectionTotals s.b2c d })
    ∧ (sectionKey d = "export" →
        sectionStep s d = { s with export_ := foldSectionTotals s.export_ d })
    ∧ (sectionKey d = "nil" → sectionStep s d = { s with nil_ := foldSectionTotals s.nil_ d }) := by
  unfold sectionKey sectionStep
  split_ifs <;> simp

/-- Each section of the fold holds the invoices of its key, counted and in order. -/
theorem foldl_sectionStep (invoices : List InvoiceDoc) (acc : Sections) :
    ((invoices.foldl sectionStep acc).b2b.count =
        acc.b2b.count + (numbersOf "b2b" invoices).length
      ∧ (invoices.foldl sectionStep acc).b2b.invoiceNumbers =
        acc.b2b.invoiceNumbers ++ numbersOf "b2b" invoices)
    ∧ ((invoices.foldl sectionStep acc).b2c.count =
        acc.b2c.count + (numbersOf "b2c" invoices).length
      ∧ (invoices.foldl sectionStep acc).b2c.invoiceNumbers =
        acc.b2c.invoiceNumbers ++ numbersOf "b2c" invoices)
    ∧ ((invoices.foldl sectionStep acc).export_.count =
        acc.export_.count + (numbersOf "export" invoices).length
      ∧ (invoices.foldl sectionStep acc).export_.invoiceNumbers =
        acc.export_.invoiceNumbers ++ numbersOf "export" invoices)
    ∧ ((invoices.foldl sectionStep acc).nil_.count =
        acc.nil_.count + (numbersOf "nil" invoices).length
      ∧ (invoices.foldl sectionStep acc).nil_.invoiceNumbers =
        acc.nil_.invoiceNumbers ++ numbersOf "nil" invoices) := by
  induction invoices generalizing acc with
  | nil => simp [numbersOf]
  | cons d rest ih =>
    rw [List.foldl_cons]
    obtain ⟨h1, h2, h3, h4⟩ := sectionStep_of_key acc d
    rcases sectionKey_cases d with hk | hk | hk | hk
    · rw [h1 hk]
      simp [ih, numbersOf, List.filter_cons, hk, foldSectionTotals]
      omega
    · rw [h2 hk]
      simp [ih, numbersOf, List.filter_cons, hk, foldSectionTotals]
      omega
    · rw [h3 hk]
      simp [ih, numbersOf, List.filter_cons, hk, foldSectionTotals]
      omega
    · rw [h4 hk]
      simp [ih, numbersOf, List.filter_cons, hk, foldSectionTotals]
      omega

theorem numbersOf_perm (invoices : List InvoiceDoc) :
    (numbersOf "b2b" invoices ++ numbersOf "b2c" invoices ++ numbersOf "export" invoices
      ++ numbersOf "nil" invoices).Perm (invoices.map (fun d => d.invoiceNumber)) := by
  induction invoices with
  | nil => simp [numbersOf]
  | cons d rest ih =>
    rcases sectionKey_cases d with hk | hk | hk | hk
    · simp only [numbersOf, List.filter_cons, hk, List.map_cons] at ih ⊢
      simpa using ih
    · simp only [numbersOf, List.filter_cons, hk, List.map_cons] at ih ⊢
      simp only [beq_self_eq_true, if_true, show ("b2c" == "b2b") = false by decide,
        show ("b2c" == "export") = false by decide, show ("b2c" == "nil") = false by decide,
        Bool.false_eq_true, if_false, List.map_cons]
      refine List.Perm.trans ?_ (List.Perm.cons _ ih)
      simp only [List.append_assoc, List.cons_append]
      exact List.perm_middle
    · simp only [numbersOf, List.filter_cons, hk, List.map_cons] at ih ⊢
      simp only [beq_self_eq_true, if_true, show ("export" == "b2b") = false by decide,
        show ("export" == "b2c") = false by decide, show ("export" == "nil") = false by decide,
        Bool.false_eq_true, if_false, List.map_cons]
      refine List.Perm.trans ?_ (List.Perm.cons _ ih)
      simp only [List.append_assoc, List.cons_append]
      rw [← List.append_assoc]
      exact List.perm_middle.trans (List.Perm.of_eq (by simp only [List.append_assoc]))
    · simp only [numbersOf, List.filter_cons, hk, List.map_cons] at ih ⊢
      simp only [beq_self_eq_true, if_true, show ("nil" == "b2b") = false by decide,
        show ("nil" == "b2c") = false by decide, show ("nil" == "export") = false by decide,
        Bool.false_eq_true, if_false, List.map_cons]
      refine List.Perm.trans ?_ (List.Perm.cons _ ih)
      simp only [List.append_assoc, List.cons_append]
      rw [← List.append_assoc, ← List.append_assoc]
      exact List.perm_middle.trans (List.Perm.of_eq (by simp only [List.append_assoc]))


/-- Each section of `buildDraftSections` lists the invoices of its key. -/
theorem buildDraftSections_sections (invoices : List InvoiceDoc) :
    ((buildDraftSections invoices).b2b.count = (numbersOf "b2b" invoices).length
      ∧ (buildDraftSections invoices).b2b.invoiceNumbers = numbersOf "b2b" invoices)
    ∧ ((buildDraftSections invoices).b2c.count = (numbersOf "b2c" invoices).length
      ∧ (buildDraftSections invoices).b2c.invoiceNumbers = numbersOf "b2c" invoices)
    ∧ ((buildDraftSections invoices).export_.count = (numbersOf "export" invoices).length
      ∧ (buildDraftSections invoices).export_.invoiceNumbers = numbersOf "export" invoices)
    ∧ ((buildDraftSections invoices).nil_.count = (numbersOf "nil" invoices).length
      ∧ (buildDraftSections invoices).nil_.invoiceNumbers = numbersOf "nil" invoices) := by
  have h := foldl_sectionStep invoices emptySections
  simpa [emptySections, buildDraftSections] using h

/-- C20: for every list of invoices, the counts of the four sections of `buildDraftSections`
sum to the number of invoices, each count is the length of the section's `invoiceNumbers`, the
four lists together hold the invoice numbers of the invoices, each as often as it occurs in the
list; so when the invoice numbers are distinct, every one is in exactly one section's list. -/
theorem buildDraftSections_partition (invoices : List InvoiceDoc) :
    (buildDraftSections invoices).b2b.count + (buildDraftSections invoices).b2c.count
        + (buildDraftSections invoices).export_.count + (buildDraftSections invoices).nil_.count
      = invoices.length
    ∧ ((buildDraftSections invoices).b2b.invoiceNumbers
        ++ (buildDraftSections invoices).b2c.invoiceNumbers
        ++ (buildDraftSections invoices).export_.invoiceNumbers
        ++ (buildDraftSections invoices).nil_.invoiceNumbers).Perm
      (invoices.map (fun d => d.invoiceNumber))
    ∧ ((buildDraftSections invoices).b2b.count
          = (buildDraftSections invoices).b2b.invoiceNumbers.length
        ∧ (buildDraftSections invoices).b2c.count
          = (buildDraftSections invoices).b2c.invoiceNumbers.length
        ∧ (buildDraftSections invoices).export_.count
          = (buildDraftSections invoices).export_.invoiceNumbers.length
        ∧ (buildDraftSections invoices).nil_.count
          = (buildDraftSections invoices).nil_.invoiceNumbers.length)
    ∧ ((invoices.map (fun d => d.invoiceNumber)).Nodup →
        ∀ n ∈ invoices.map (fun d => d.invoiceNumber),
          (if n ∈ (buildDraftSections invoices).b2b.invoiceNumbers then 1 else 0)
            + (if n ∈ (buildDraftSections invoices).b2c.invoiceNumbers then 1 else 0)
            + (if n ∈ (buildDraftSections invoices).export_.invoiceNumbers then 1 else 0)
            + (if n ∈ (buildDraftSections invoices).nil_.invoiceNumbers then 1 else 0) = 1) := by
  obtain ⟨⟨a1, a2⟩, ⟨b1, b2⟩, ⟨c1, c2⟩, ⟨d1, d2⟩⟩ := buildDraftSections_sections invoices
  have hperm := numbersOf_perm invoices
  rw [a2, b2, c2, d2, a1, b1, c1, d1]
  refine ⟨?_, hperm, ⟨rfl, rfl, rfl, rfl⟩, ?_⟩
  · have := hperm.length_eq
    simp only [List.length_append, List.length_map] at this ⊢
    exact this
  · intro hnd n hn
    have hnd2 : (numbersOf "b2b" invoices ++ numbersOf "b2c" invoices
        ++ numbersOf "export" invoices ++ numbersOf "nil" invoices).Nodup :=
      hperm.nodup_iff.mpr hnd
    have hmem : n ∈ numbersOf "b2b" invoices ++ numbersOf "b2c" invoices
        ++ numbersOf "export" invoices ++ numbersOf "nil" invoices := hperm.mem_iff.mpr hn
    have k1 := List.nodup_append.mp hnd2
    have k2 := List.nodup_append.mp k1.1
    have k3 := List.nodup_append.mp k2.1
    have hab : ∀ a, a ∈ numbersOf "b2b" invoices → a ∈ numbersOf "b2c" invoices → False :=
      fun a h1 h2 => k3.2.2 h1 h2
    have habc : ∀ a, a ∈ numbersOf "b2b" invoices ∨ a ∈ numbersOf "b2c" invoices →
        a ∈ numbersOf "export" invoices → False :=
      fun a h1 h2 => k2.2.2 (List.mem_append.mpr h1) h2
    have habcd : ∀ a, (a ∈ numbersOf "b2b" invoices ∨ a ∈ numbersOf "b2c" invoices)
        ∨ a ∈ numbersOf "export" invoices → a ∈ numbersOf "nil" invoices → False :=
      fun a h1 h2 => k1.2.2
        (List.mem_append.mpr (h1.imp (fun h => List.mem_append.mpr h) (fun h => h))) h2
    simp only [List.mem_append] at hmem
    by_cases ha : n ∈ numbersOf "b2b" invoices
    · have hb : n ∉ numbersOf "b2c" invoices := fun h => hab n ha h
      have hc : n ∉ numbersOf "export" invoices := fun h => habc n (Or.inl ha) h
      have hd : n ∉ numbersOf "nil" invoices := fun h => habcd n (Or.inl (Or.inl ha)) h
      simp [ha, hb, hc, hd]
    · by_cases hb : n ∈ numbersOf "b2c" invoices
      · have hc : n ∉ numbersOf "export" invoices := fun h => habc n (Or.inr hb) h
        have hd : n ∉ numbersOf "nil" invoices := fun h => habcd n (Or.inl (Or.inr hb)) h
        simp [ha, hb, hc, hd]
      · by_cases hc : n ∈ numbersOf "export" invoices
        · have hd : n ∉ numbersOf "nil" invoices := fun h => habcd n (Or.inr hc) h
          simp [ha, hb, hc, hd]
        · have hd : n ∈ numbersOf "nil" invoices := by tauto
          simp [ha, hb, hc, hd]


/-- Witness of C20: four invoices with distinct numbers, one for each section. -/
theorem buildDraftSections_partition_witness :
    (draftInvoices.map (fun d => d.invoiceNumber)).Nodup
    ∧ ∀ n ∈ draftInvoices.map (fun d => d.invoiceNumber),
        (if n ∈ (buildDraftSections draftInvoices).b2b.invoiceNumbers then 1 else 0)
          + (if n ∈ (buildDraftSections draftInvoices).b2c.invoiceNumbers then 1 else 0)
          + (if n ∈ (buildDraftSections draftInvoices).export_.invoiceNumbers then 1 else 0)
          + (if n ∈ (buildDraftSections draftInvoices).nil_.invoiceNumbers then 1 else 0) = 1 :=
  ⟨by decide, (buildDraftSections_partition draftInvoices).2.2.2 (by decide)⟩

/-- The sections of the four sample invoices. -/
theorem buildDraftSections_scenario :
    (buildDraftSections draftInvoices).b2b.invoiceNumbers = ["INV-1"]
    ∧ (buildDraftSections draftInvoices).b2c.invoiceNumbers = ["INV-2"]
    ∧ (buildDraftSections draftInvoices).export_.invoiceNumbers = ["INV-3"]
    ∧ (buildDraftSections draftInvoices).nil_.invoiceNumbers = ["INV-4"] := by
  simp [buildDraftSections, draftInvoices, sectionStep, foldSectionTotals, emptySections,
    coerceNumber]

/-! ## Period summary (C19) -/

theorem toObjectId_valid (org : String) (h : isValidObjectId org = true) :
    toObjectId (some org) = some org := by
  have hne : org ≠ "" := by
    intro h0
    subst h0
    revert h
    decide
  simp [toObjectId, truthy, hne, h]

theorem matchesPeriod_eq (org : String) (start end_ : Int) (invoices : List InvoiceDoc) :
    invoices.filter (matchesPeriod (some org) start end_) =
      periodInvoices invoices org start end_ := by
  unfold periodInvoices
  apply List.filter_congr
  intro d _
  cases hdel : d.isDeleted <;> by_cases ho : d.organizationId = some org <;>
    simp [matchesPeriod, hdel, ho]

theorem foldl_addToSummary (matched : List InvoiceDoc) (acc : SummaryRow) :
    (matched.foldl addToSummary acc).totalInvoices = acc.totalInvoices + matched.length
    ∧ (matched.foldl addToSummary acc).totalTaxableValue =
        acc.totalTaxableValue
          + (matched.map (fun d => coerceNumber d.subTotal - coerceNumber d.discountTotal)).sum
    ∧ (matched.foldl addToSummary acc).totalTax =
        acc.totalTax + (matched.map (fun d => coerceNumber d.taxAmount)).sum
    ∧ (matched.foldl addToSummary acc).grossTurnover =
        acc.grossTurnover + (matched.map (fun d => coerceNumber d.grandTotal)).sum := by
  induction matched generalizing acc with
  | nil => simp
  | cons d rest ih =>
    rw [List.foldl_cons]
    obtain ⟨h1, h2, h3, h4⟩ := ih (addToSummary acc d)
    rw [h1, h2, h3, h4]
    simp only [addToSummary, List.length_cons, List.map_cons, List.sum_cons]
    refine ⟨by omega, by ring, by ring, by ring⟩

theorem groupSummary_totals (matched : List InvoiceDoc) :
    (((groupSummary matched).head?).map (fun g => g.totalInvoices)).getD 0 = matched.length
    ∧ coerceNumber (((groupSummary matched).head?).map (fun g => g.totalTaxableValue)) =
        (matched.map (fun d => coerceNumber d.subTotal - coerceNumber d.discountTotal)).sum
    ∧ coerceNumber (((groupSummary matched).head?).map (fun g => g.totalTax)) =
        (matched.map (fun d => coerceNumber d.taxAmount)).sum
    ∧ coerceNumber (((groupSummary matched).head?).map (fun g => g.grossTurnover)) =
        (matched.map (fun d => coerceNumber d.grandTotal)).sum := by
  cases matched with
  | nil => simp [groupSummary, coerceNumber]
  | cons d rest =>
    obtain ⟨h1, h2, h3, h4⟩ := foldl_addToSummary (d :: rest)
      { totalInvoices := 0, totalTaxableValue := 0, totalTax := 0, grossTurnover := 0 }
    simp only [groupSummary, List.head?_cons, Option.map_some', Option.getD_some, coerceNumber,
      h1, h2, h3, h4]
    simp

/-- C19: for every organization with a well-formed id and every period, `generateGstSummary`
succeeds and, over the non-deleted invoices of the organization dated within the resolved
window, returns `total_taxable_value` = the sum of `subTotal - discountTotal`, `total_tax` = the
sum of `taxAmount`, `gross_turnover` = the sum of `grandTotal` and `total_invoices` = their
number. -/
theorem generateGstSummary_totals (tza now : Int) (parseDate : String → Option Int)
    (invoices : List InvoiceDoc) (transactions : List TransactionDoc) (org : String)
    (period : Option String) (returnType : String) (horg : isValidObjectId org = true) :
    ∃ s, generateGstSummary tza now parseDate invoices transactions (some org) period
          returnType = .ok s
      ∧ s.period = (resolvePeriodWindow tza now parseDate period).periodLabel
      ∧ s.total_taxable_value =
          ((periodInvoices invoices org (resolvePeriodWindow tza now parseDate period).start
              (resolvePeriodWindow tza now parseDate period).end_).map
            (fun d => coerceNumber d.subTotal - coerceNumber d.discountTotal)).sum
      ∧ s.total_tax =
          ((periodInvoices invoices org (resolvePeriodWindow tza now parseDate period).start
              (resolvePeriodWindow tza now parseDate period).end_).map
            (fun d => coerceNumber d.taxAmount)).sum
      ∧ s.gross_turnover =
          ((periodInvoices invoices org (resolvePeriodWindow tza now parseDate period).start
              (resolvePeriodWindow tza now parseDate period).end_).map
            (fun d => coerceNumber d.grandTotal)).sum
      ∧ s.total_invoices =
          (periodInvoices invoices org (resolvePeriodWindow tza now parseDate period).start
              (resolvePeriodWindow tza now parseDate period).end_).length := by
  obtain ⟨h1, h2, h3, h4⟩ := groupSummary_totals
    (periodInvoices invoices org (resolvePeriodWindow tza now parseDate period).start
      (resolvePeriodWindow tza now parseDate period).end_)
  simp only [generateGstSummary, aggregateInvoiceSummary, toObjectId_valid org horg,
    matchesPeriod_eq]
  exact ⟨_, rfl, rfl, h2, h3, h4, h1⟩

/-- Witness of C19, the integration test: period '2025-11' over invoices of 100000 + 18000
and 50000 + 4500 gives 150000, 22500 and 2. -/
theorem generateGstSummary_scenario :
    isValidObjectId sampleOrg = true
    ∧ ∃ s, generateGstSummary 0 0 (fun _ => none) novemberInvoices [] (some sampleOrg)
          (some "2025-11") "GSTR1" = .ok s
      ∧ s.period = "2025-11"
      ∧ s.total_taxable_value = 150000
      ∧ s.total_tax = 22500
      ∧ s.gross_turnover = 172500
      ∧ s.total_invoices = 2 := by
  have hw : resolvePeriodWindow 0 0 (fun _ => none) (some "2025-11")
      = { periodLabel := "2025-11", start := 1761955200000, end_ := 1764547199999 } := by
    decide
  have hsel : periodInvoices novemberInvoices sampleOrg 1761955200000 1764547199999
      = novemberInvoices := by decide
  obtain ⟨s, hs, h0, h1, h2, h3, h4⟩ := generateGstSummary_totals 0 0 (fun _ => none)
    novemberInvoices [] sampleOrg (some "2025-11") "GSTR1" (by decide)
  rw [hw] at h0 h1 h2 h3 h4
  simp only [hsel] at h1 h2 h3 h4
  refine ⟨by decide, s, hs, h0, ?_, ?_, ?_, ?_⟩
  · rw [h1]; simp [novemberInvoices, novemberFirst, novemberSecond, coerceNumber]; norm_num
  · rw [h2]; simp [novemberInvoices, novemberFirst, novemberSecond, coerceNumber]; norm_num
  · rw [h3]; simp [novemberInvoices, novemberFirst, novemberSecond, coerceNumber]; norm_num
  · rw [h4]; rfl

/-! ## Soft delete (C17) -/

/-- Every listed document comes from a stored document that satisfies the filter. -/
theorem listInvoices_data_mem (invoices : List InvoiceDoc) (payments : List Payment)
    (query : Query) (page limit : Nat) (filters : Filters) (pg : InvoicePage)
    (h : listInvoices invoices payments query page limit filters = .ok pg) :
    ∀ d ∈ pg.data, ∃ d0 ∈ invoices, matchesQuery query filters d0 = true ∧ d._id = d0._id := by
  have hsel : ∀ d0 ∈ (if limit = 0 then
        ((invoices.filter (matchesQuery query filters)).mergeSort newestFirst).drop
          ((page - 1) * limit)
      else (((invoices.filter (matchesQuery query filters)).mergeSort newestFirst).drop
          ((page - 1) * limit)).take limit),
      d0 ∈ invoices ∧ matchesQuery query filters d0 = true := by
    intro d0 hd0
    have hsorted : d0 ∈ (invoices.filter (matchesQuery query filters)).mergeSort newestFirst := by
      split_ifs at hd0
      · exact List.mem_of_mem_drop hd0
      · exact List.mem_of_mem_drop (List.mem_of_mem_take hd0)
    exact List.mem_filter.mp (List.mem_mergeSort.mp hsorted)
  unfold listInvoices at h
  by_cases hpage : page = 0 ∧ limit ≠ 0
  · rw [if_pos hpage] at h
    cases h
  · rw [if_neg hpage] at h
    dsimp only at h
    generalize (if limit = 0 then
        ((invoices.filter (matchesQuery query filters)).mergeSort newestFirst).drop
          ((page - 1) * limit)
      else (((invoices.filter (matchesQuery query filters)).mergeSort newestFirst).drop
          ((page - 1) * limit)).take limit) = docs at h hsel
    by_cases hlen : (docs.map (fun d => d._id)).length > 0
    · rw [if_pos hlen] at h
      cases h
      intro d hd
      obtain ⟨d0, hd0, rfl⟩ := List.mem_map.mp hd
      obtain ⟨hm, hq⟩ := hsel d0 hd0
      exact ⟨d0, hm, hq, rfl⟩
    · rw [if_neg hlen] at h
      cases h
      intro d hd
      obtain ⟨hm, hq⟩ := hsel d hd
      exact ⟨d, hm, hq, rfl⟩

theorem mem_saveInvoice (invoices : List InvoiceDoc) (inv d : InvoiceDoc)
    (hd : d ∈ saveInvoice invoices inv) : d = inv ∨ (d ∈ invoices ∧ d._id ≠ inv._id) := by
  obtain ⟨d0, hd0, rfl⟩ := List.mem_map.mp hd
  by_cases h : d0._id = inv._id
  · left; simp [h]
  · right; simp only [h, if_false]; exact ⟨hd0, h⟩

theorem filter_saveInvoice_deleted (invoices : List InvoiceDoc) (inv : InvoiceDoc)
    (p : InvoiceDoc → Bool) (hp : p inv = false) :
    (saveInvoice invoices inv).filter p =
      (invoices.filter (fun d => d._id != inv._id)).filter p := by
  induction invoices with
  | nil => rfl
  | cons x xs ih =>
    simp only [saveInvoice, List.map_cons] at ih ⊢
    by_cases h : x._id = inv._id
    · simp only [h, if_true, List.filter_cons, hp, bne_self_eq_false, Bool.false_eq_true,
        if_false]
      exact ih
    · have hb : (x._id != inv._id) = true := by simpa using h
      simp only [h, if_false, List.filter_cons, hb, if_true]
      rw [ih]

/-- C17: `deleteInvoice` on a stored invoice succeeds, keeps the collection's size and leaves the
invoice stored with `isDeleted = true`; afterwards no page of `listInvoices` (called without an
`isDeleted: true` condition of its own) holds the invoice, and `generateGstSummary` and
`buildGstDraft` return what they return on the collection without the invoice. -/
theorem deleteInvoice_excluded (invoices : List InvoiceDoc) (invoiceId : String)
    (doc : InvoiceDoc) (hdoc : findById invoices invoiceId = some doc) :
    ∃ after, deleteInvoice invoices invoiceId = .ok after
      ∧ after.length = invoices.length
      ∧ findById after invoiceId = some { doc with isDeleted := true }
      ∧ (∀ (payments : List Payment) (query : Query) (page limit : Nat) (filters : Filters)
          (pg : InvoicePage), query.isDeleted ≠ some true →
          listInvoices after payments query page limit filters = .ok pg →
          ∀ d ∈ pg.data, d._id ≠ invoiceId)
      ∧ (∀ (tza now : Int) (parseDate : String → Option Int)
          (transactions : List TransactionDoc) (org period : Option String)
          (returnType : String),
          generateGstSummary tza now parseDate after transactions org period returnType =
            generateGstSummary tza now parseDate
              (invoices.filter (fun d => d._id != invoiceId)) transactions org period
              returnType)
      ∧ (∀ (tza now : Int) (parseDate : String → Option Int) (org period : Option String),
          buildGstDraft tza now parseDate after org period =
            buildGstDraft tza now parseDate
              (invoices.filter (fun d => d._id != invoiceId)) org period) := by
  have hid := findById_id invoices invoiceId doc hdoc
  have hfilter : ∀ p : InvoiceDoc → Bool, p { doc with isDeleted := true } = false →
      (saveInvoice invoices { doc with isDeleted := true }).filter p =
        (invoices.filter (fun d => d._id != invoiceId)).filter p := by
    intro p hp
    have := filter_saveInvoice_deleted invoices { doc with isDeleted := true } p hp
    rw [this]
    show (invoices.filter (fun d => d._id != doc._id)).filter p = _
    rw [hid]
  have hmp : ∀ (o : Option String) (a b : Int),
      matchesPeriod o a b { doc with isDeleted := true } = false := by
    intro o a b
    simp [matchesPeriod]
  refine ⟨saveInvoice invoices { doc with isDeleted := true }, ?_, ?_, ?_, ?_, ?_, ?_⟩
  · simp only [deleteInvoice, hdoc]
  · simp [saveInvoice]
  · exact findById_saveInvoice invoices invoiceId doc _ hdoc hid
  · intro payments query page limit filters pg hq hlist d hd hdid
    obtain ⟨d0, hd0, hmatch, hsame⟩ :=
      listInvoices_data_mem _ payments query page limit filters pg hlist d hd
    rcases mem_saveInvoice invoices _ d0 hd0 with h0 | ⟨-, h0⟩
    · subst h0
      have hdel : (query.isDeleted.getD false) = true := by
        simpa [matchesQuery] using
          (show ((true : Bool) == query.isDeleted.getD false) = true by
            simp only [matchesQuery, Bool.and_eq_true] at hmatch
            exact hmatch.1.1.1.1.1)
      cases hqd : query.isDeleted with
      | none => rw [hqd] at hdel; cases hdel
      | some b =>
        rw [hqd] at hdel
        simp only [Option.getD_some] at hdel
        exact hq (by rw [hqd, hdel])
    · apply h0
      rw [← hsame, hdid]
      exact hid.symm
  · intro tza now parseDate transactions org period returnType
    simp only [generateGstSummary, aggregateInvoiceSummary, hfilter _ (hmp _ _ _)]
  · intro tza now parseDate org period
    simp only [buildGstDraft, hfilter _ (hmp _ _ _)]


/-- Witness of C17: the first invoice of the integration test is deleted. -/
theorem deleteInvoice_excluded_witness :
    findById novemberInvoices "n1" = some novemberFirst
    ∧ ∃ after, deleteInvoice novemberInvoices "n1" = .ok after
      ∧ after.length = novemberInvoices.length
      ∧ findById after "n1" = some { novemberFirst with isDeleted := true }
      ∧ (∀ (payments : List Payment) (query : Query) (page limit : Nat) (filters : Filters)
          (pg : InvoicePage), query.isDeleted ≠ some true →
          listInvoices after payments query page limit filters = .ok pg →
          ∀ d ∈ pg.data, d._id ≠ "n1")
      ∧ (∀ (tza now : Int) (parseDate : String → Option Int)
          (transactions : List TransactionDoc) (org period : Option String)
          (returnType : String),
          generateGstSummary tza now parseDate after transactions org period returnType =
            generateGstSummary tza now parseDate
              (novemberInvoices.filter (fun d => d._id != "n1")) transactions org period
              returnType)
      ∧ (∀ (tza now : Int) (parseDate : String → Option Int) (org period : Option String),
          buildGstDraft tza now parseDate after org period =
            buildGstDraft tza now parseDate
              (novemberInvoices.filter (fun d => d._id != "n1")) org period) :=
  ⟨by decide, deleteInvoice_excluded novemberInvoices "n1" novemberFirst (by decide)⟩

/-! ## The period window (C18) -/

theorem dayFromYear_mono (a b : Int) (h : a ≤ b) : dayFromYear a ≤ dayFromYear b := by
  unfold dayFromYear
  omega

theorem dayFromYear_succ (y : Int) :
    dayFromYear (y + 1) = dayFromYear y + 365 + (if inLeapYear y then 1 else 0) := by
  unfold dayFromYear inLeapYear
  split_ifs with h <;> simp at h <;> omega

theorem yearFromDay_spec (d : Int) :
    dayFromYear (yearFromDay d) ≤ d ∧ d < dayFromYear (yearFromDay d + 1) := by
  have hlo : dayFromYear (1970 + (400 * d) / 146097 - 1) ≤ d := by
    unfold dayFromYear
    omega
  have hhi : d < dayFromYear (1970 + (400 * d) / 146097 + 1 + 1) := by
    unfold dayFromYear
    omega
  unfold yearFromDay
  dsimp only
  split_ifs with h1 h2
  · exact ⟨h1, hhi⟩
  · exact ⟨h2, by omega⟩
  · refine ⟨hlo, ?_⟩
    have : 1970 + 400 * d / 146097 - 1 + 1 = 1970 + 400 * d / 146097 := by omega
    rw [this]
    omega

theorem yearFromDay_unique (y d : Int) (h1 : dayFromYear y ≤ d) (h2 : d < dayFromYear (y + 1)) :
    yearFromDay d = y := by
  obtain ⟨k1, k2⟩ := yearFromDay_spec d
  rcases lt_trichotomy (yearFromDay d) y with h | h | h
  · have := dayFromYear_mono (yearFromDay d + 1) y (by omega)
    omega
  · exact h
  · have := dayFromYear_mono (y + 1) (yearFromDay d) (by omega)
    omega

theorem daysBeforeMonth_bounds (leap : Bool) (m : Int) (h0 : 0 ≤ m) (h1 : m ≤ 11) :
    0 ≤ daysBeforeMonth leap m
    ∧ daysBeforeMonth leap m < daysBeforeMonth leap (m + 1)
    ∧ daysBeforeMonth leap (m + 1) ≤ 365 + (if leap then 1 else 0) := by
  have hm : m = 0 ∨ m = 1 ∨ m = 2 ∨ m = 3 ∨ m = 4 ∨ m = 5 ∨ m = 6 ∨ m = 7 ∨ m = 8 ∨ m = 9
      ∨ m = 10 ∨ m = 11 := by omega
  cases leap <;> rcases hm with h | h | h | h | h | h | h | h | h | h | h | h <;> subst h <;>
    simp [daysBeforeMonth]


theorem daysBeforeMonth_values (leap : Bool) :
    daysBeforeMonth leap 0 = 0
    ∧ daysBeforeMonth leap 1 = 31
    ∧ daysBeforeMonth leap 2 = 59 + (if leap then 1 else 0)
    ∧ daysBeforeMonth leap 3 = 90 + (if leap then 1 else 0)
    ∧ daysBeforeMonth leap 4 = 120 + (if leap then 1 else 0)
    ∧ daysBeforeMonth leap 5 = 151 + (if leap then 1 else 0)
    ∧ daysBeforeMonth leap 6 = 181 + (if leap then 1 else 0)
    ∧ daysBeforeMonth leap 7 = 212 + (if leap then 1 else 0)
    ∧ daysBeforeMonth leap 8 = 243 + (if leap then 1 else 0)
    ∧ daysBeforeMonth leap 9 = 273 + (if leap then 1 else 0)
    ∧ daysBeforeMonth leap 10 = 304 + (if leap then 1 else 0)
    ∧ daysBeforeMonth leap 11 = 334 + (if leap then 1 else 0)
    ∧ daysBeforeMonth leap 12 = 365 + (if leap then 1 else 0) := by
  cases leap <;> decide

/-- The month of the day offset `dw` within a year with `l` leap days: the month cascade of
`monthFromDay` against the month boundaries `b0`, `b1` of month `m`. -/
theorem monthCascade_iff (l dw m : Int) (hl : l = 0 ∨ l = 1) (h0 : 0 ≤ dw) (h1 : dw < 365 + l)
    (b0 b1 : Int)
    (hb : (m = 0 ∧ b0 = 0 ∧ b1 = 31) ∨ (m = 1 ∧ b0 = 31 ∧ b1 = 59 + l)
      ∨ (m = 2 ∧ b0 = 59 + l ∧ b1 = 90 + l) ∨ (m = 3 ∧ b0 = 90 + l ∧ b1 = 120 + l)
      ∨ (m = 4 ∧ b0 = 120 + l ∧ b1 = 151 + l) ∨ (m = 5 ∧ b0 = 151 + l ∧ b1 = 181 + l)
      ∨ (m = 6 ∧ b0 = 181 + l ∧ b1 = 212 + l) ∨ (m = 7 ∧ b0 = 212 + l ∧ b1 = 243 + l)
      ∨ (m = 8 ∧ b0 = 243 + l ∧ b1 = 273 + l) ∨ (m = 9 ∧ b0 = 273 + l ∧ b1 = 304 + l)
      ∨ (m = 10 ∧ b0 = 304 + l ∧ b1 = 334 + l) ∨ (m = 11 ∧ b0 = 334 + l ∧ b1 = 365 + l)) :
    (if dw < 31 then (0 : Int)
      else if dw < 59 + l then 1
      else if dw < 90 + l then 2
      else if dw < 120 + l then 3
      else if dw < 151 + l then 4
      else if dw < 181 + l then 5
      else if dw < 212 + l then 6
      else if dw < 243 + l then 7
      else if dw < 273 + l then 8
      else if dw < 304 + l then 9
      else if dw < 334 + l then 10
      else 11) = m ↔ (b0 ≤ dw ∧ dw < b1) := by
  by_cases c1 : dw < 31
  · simp only [if_pos c1]; constructor <;> intro _ <;> omega
  simp only [if_neg c1]
  by_cases c2 : dw < 59 + l
  · simp only [if_pos c2]; constructor <;> intro _ <;> omega
  simp only [if_neg c2]
  by_cases c3 : dw < 90 + l
  · simp only [if_pos c3]; constructor <;> intro _ <;> omega
  simp only [if_neg c3]
  by_cases c4 : dw < 120 + l
  · simp only [if_pos c4]; constructor <;> intro _ <;> omega
  simp only [if_neg c4]
  by_cases c5 : dw < 151 + l
  · simp only [if_pos c5]; constructor <;> intro _ <;> omega
  simp only [if_neg c5]
  by_cases c6 : dw < 181 + l
  · simp only [if_pos c6]; constructor <;> intro _ <;> omega
  simp only [if_neg c6]
  by_cases c7 : dw < 212 + l
  · simp only [if_pos c7]; constructor <;> intro _ <;> omega
  simp only [if_neg c7]
  by_cases c8 : dw < 243 + l
  · simp only [if_pos c8]; constructor <;> intro _ <;> omega
  simp only [if_neg c8]
  by_cases c9 : dw < 273 + l
  · simp only [if_pos c9]; constructor <;> intro _ <;> omega
  simp only [if_neg c9]
  by_cases c10 : dw < 304 + l
  · simp only [if_pos c10]; constructor <;> intro _ <;> omega
  simp only [if_neg c10]
  by_cases c11 : dw < 334 + l
  · simp only [if_pos c11]; constructor <;> intro _ <;> omega
  simp only [if_neg c11]
  constructor <;> intro _ <;> omega

/-- Within its year, a day is of month `m` exactly when its offset lies between the month
boundaries. -/
theorem monthFromDay_iff (y d m : Int) (h1 : dayFromYear y ≤ d) (h2 : d < dayFromYear (y + 1))
    (hm0 : 0 ≤ m) (hm1 : m ≤ 11) :
    monthFromDay d = m ↔ (daysBeforeMonth (inLeapYear y) m ≤ d - dayFromYear y
      ∧ d - dayFromYear y < daysBeforeMonth (inLeapYear y) (m + 1)) := by
  have hy := yearFromDay_unique y d h1 h2
  have hs := dayFromYear_succ y
  obtain ⟨v0, v1, v2, v3, v4, v5, v6, v7, v8, v9, v10, v11, v12⟩ :=
    daysBeforeMonth_values (inLeapYear y)
  unfold monthFromDay
  simp only [hy]
  apply monthCascade_iff (if inLeapYear y = true then 1 else 0) (d - dayFromYear y) m
  · split_ifs <;> simp
  · omega
  · omega
  · have hm : m = 0 ∨ m = 1 ∨ m = 2 ∨ m = 3 ∨ m = 4 ∨ m = 5 ∨ m = 6 ∨ m = 7 ∨ m = 8 ∨ m = 9
        ∨ m = 10 ∨ m = 11 := by omega
    rcases hm with h | h | h | h | h | h | h | h | h | h | h | h <;> subst h <;> norm_num <;>
      simp only [v0, v1, v2, v3, v4, v5, v6, v7, v8, v9, v10, v11, v12, and_self]

theorem monthFromDay_range (d : Int) : 0 ≤ monthFromDay d ∧ monthFromDay d ≤ 11 := by
  unfold monthFromDay
  dsimp only
  generalize d - dayFromYear (yearFromDay d) = dw
  generalize (if inLeapYear (yearFromDay d) = true then (1 : Int) else 0) = l
  by_cases c1 : dw < 31
  · simp only [if_pos c1]; omega
  simp only [if_neg c1]
  by_cases c2 : dw < 59 + l
  · simp only [if_pos c2]; omega
  simp only [if_neg c2]
  by_cases c3 : dw < 90 + l
  · simp only [if_pos c3]; omega
  simp only [if_neg c3]
  by_cases c4 : dw < 120 + l
  · simp only [if_pos c4]; omega
  simp only [if_neg c4]
  by_cases c5 : dw < 151 + l
  · simp only [if_pos c5]; omega
  simp only [if_neg c5]
  by_cases c6 : dw < 181 + l
  · simp only [if_pos c6]; omega
  simp only [if_neg c6]
  by_cases c7 : dw < 212 + l
  · simp only [if_pos c7]; omega
  simp only [if_neg c7]
  by_cases c8 : dw < 243 + l
  · simp only [if_pos c8]; omega
  simp only [if_neg c8]
  by_cases c9 : dw < 273 + l
  · simp only [if_pos c9]; omega
  simp only [if_neg c9]
  by_cases c10 : dw < 304 + l
  · simp only [if_pos c10]; omega
  simp only [if_neg c10]
  by_cases c11 : dw < 334 + l
  · simp only [if_pos c11]; omega
  simp only [if_neg c11]
  omega

/-- The days of month `m` of year `y` are those from `makeDay y m 1` to `makeDay y (m + 1) 0`. -/
theorem makeDay_month (y m : Int) (hm0 : 0 ≤ m) (hm1 : m ≤ 11) :
    makeDay y m 1 = dayFromYear y + daysBeforeMonth (inLeapYear y) m
    ∧ makeDay y (m + 1) 0 = dayFromYear y + daysBeforeMonth (inLeapYear y) (m + 1) - 1 := by
  obtain ⟨v0, v1, v2, v3, v4, v5, v6, v7, v8, v9, v10, v11, v12⟩ :=
    daysBeforeMonth_values (inLeapYear y)
  have hs := dayFromYear_succ y
  constructor
  · unfold makeDay
    have e1 : m / 12 = 0 := by omega
    have e2 : m % 12 = m := by omega
    simp only [e1, e2, add_zero]
    omega
  · unfold makeDay
    by_cases h : m = 11
    · subst h
      norm_num
      rw [v12, hs]
      have w0 := (daysBeforeMonth_values (inLeapYear (y + 1))).1
      rw [w0]
      omega
    · have e1 : (m + 1) / 12 = 0 := by omega
      have e2 : (m + 1) % 12 = m + 1 := by omega
      simp only [e1, e2, add_zero]

/-- The instants from the first of month `m` of year `y` at midnight to the last millisecond
of that month are exactly those whose local year is `y` and local month is `m`. -/
theorem month_window (tza y m : Int) (hy : ¬ (0 ≤ y ∧ y ≤ 99)) (hm0 : 0 ≤ m) (hm1 : m ≤ 11)
    (u : Int) :
    (newDate tza y m 1 0 0 0 0 ≤ u ∧ u ≤ newDate tza y (m + 1) 0 23 59 59 999)
      ↔ (getFullYear tza u = y ∧ getMonth tza u = m) := by
  obtain ⟨k1, k2⟩ := makeDay_month y m hm0 hm1
  obtain ⟨b0, b1, b2⟩ := daysBeforeMonth_bounds (inLeapYear y) m hm0 hm1
  have hs := dayFromYear_succ y
  unfold newDate getFullYear getMonth localDay makeTime
  simp only [if_neg hy, k1, k2]
  generalize hD0 : daysBeforeMonth (inLeapYear y) m = D0 at *
  generalize hD1 : daysBeforeMonth (inLeapYear y) (m + 1) = D1 at *
  have hwin : ((dayFromYear y + D0) * msPerDay + (0 * 3600000 + 0 * 60000 + 0 * 1000 + 0) - tza ≤ u
      ∧ u ≤ (dayFromYear y + D1 - 1) * msPerDay + (23 * 3600000 + 59 * 60000 + 59 * 1000 + 999)
        - tza)
      ↔ (dayFromYear y + D0 ≤ (u + tza) / msPerDay ∧ (u + tza) / msPerDay < dayFromYear y + D1) := by
    unfold msPerDay
    generalize dayFromYear y = Y
    constructor
    · rintro ⟨p, q⟩; constructor <;> omega
    · rintro ⟨p, q⟩; constructor <;> omega
  rw [hwin]
  generalize (u + tza) / msPerDay = d
  constructor
  · rintro ⟨p, q⟩
    have hd1 : dayFromYear y ≤ d := by omega
    have hd2 : d < dayFromYear (y + 1) := by split_ifs at hs b2 <;> omega
    refine ⟨yearFromDay_unique y d hd1 hd2, ?_⟩
    rw [monthFromDay_iff y d m hd1 hd2 hm0 hm1, hD0, hD1]
    constructor <;> omega
  · rintro ⟨p, q⟩
    obtain ⟨s1, s2⟩ := yearFromDay_spec d
    rw [p] at s1 s2
    rw [monthFromDay_iff y d m s1 s2 hm0 hm1, hD0, hD1] at q
    constructor <;> omega


theorem digitChar_of_isDigit (c : Char) (h : c.isDigit = true) :
    c.toNat - 48 < 10 ∧ Nat.digitChar (c.toNat - 48) = c := by
  have hb : 48 ≤ c.toNat ∧ c.toNat ≤ 57 := by
    simp only [Char.isDigit, Bool.and_eq_true, decide_eq_true_eq] at h
    obtain ⟨h1, h2⟩ := h
    have h1 : (48 : Nat) ≤ c.val.toNat := h1
    have h2 : c.val.toNat ≤ 57 := h2
    exact ⟨h1, h2⟩
  refine ⟨by omega, ?_⟩
  have hc : c = Char.ofNat c.toNat := (Char.ofNat_toNat c).symm
  obtain ⟨h1, h2⟩ := hb
  generalize c.toNat = n at hc h1 h2
  subst hc
  interval_cases n <;> rfl

theorem toDigitsCore_one (f n : Nat) (ds : List Char) (h : n < 10) :
    Nat.toDigitsCore 10 (f + 1) n ds = Nat.digitChar n :: ds := by
  have h1 : n / 10 = 0 := by omega
  have h2 : n % 10 = n := by omega
  simp [Nat.toDigitsCore, h1, h2]

theorem toDigitsCore_step (f n : Nat) (ds : List Char) (h : 10 ≤ n) :
    Nat.toDigitsCore 10 (f + 1) n ds = Nat.toDigitsCore 10 f (n / 10) (Nat.digitChar (n % 10) :: ds) := by
  have h1 : n / 10 ≠ 0 := by omega
  simp [Nat.toDigitsCore, h1]

theorem repr_two (n : Nat) (h0 : 10 ≤ n) (h1 : n ≤ 99) :
    toString n = String.mk [Nat.digitChar (n / 10), Nat.digitChar (n % 10)] := by
  show (Nat.toDigits 10 n).asString = _
  unfold Nat.toDigits
  obtain ⟨k, rfl⟩ : ∃ k, n = k + 1 := ⟨n - 1, by omega⟩
  rw [toDigitsCore_step _ _ _ h0, toDigitsCore_one _ _ _ (by omega)]
  rfl

theorem repr_one (n : Nat) (h1 : n < 10) :
    toString n = String.mk [Nat.digitChar n] := by
  show (Nat.toDigits 10 n).asString = _
  unfold Nat.toDigits
  rw [toDigitsCore_one _ _ _ h1]
  rfl

theorem repr_four (n : Nat) (h0 : 1000 ≤ n) (h1 : n ≤ 9999) :
    toString n = String.mk [Nat.digitChar (n / 1000), Nat.digitChar (n / 100 % 10),
      Nat.digitChar (n / 10 % 10), Nat.digitChar (n % 10)] := by
  show (Nat.toDigits 10 n).asString = _
  unfold Nat.toDigits
  obtain ⟨k, rfl⟩ : ∃ k, n = k + 3 := ⟨n - 3, by omega⟩
  rw [toDigitsCore_step _ _ _ (by omega), toDigitsCore_step _ _ _ (by omega),
    toDigitsCore_step _ _ _ (by omega), toDigitsCore_one _ _ _ (by omega)]
  have e1 : (k + 3) / 10 / 10 / 10 = (k + 3) / 1000 := by omega
  have e2 : (k + 3) / 10 / 10 % 10 = (k + 3) / 100 % 10 := by omega
  rw [e1, e2]
  rfl

theorem parseLabel_some (s : String) (y m : Nat) (h : parseLabel s = some (y, m)) :
    ∃ a b c d e f : Char, s = String.mk [a, b, c, d, '-', e, f]
      ∧ a.isDigit = true ∧ b.isDigit = true ∧ c.isDigit = true ∧ d.isDigit = true
      ∧ e.isDigit = true ∧ f.isDigit = true
      ∧ y = 1000 * (a.toNat - 48) + 100 * (b.toNat - 48) + 10 * (c.toNat - 48) + (d.toNat - 48)
      ∧ m = 10 * (e.toNat - 48) + (f.toNat - 48) := by
  unfold parseLabel at h
  split at h
  · rename_i a b c d sep e f hs
    split_ifs at h with hc
    simp only [Bool.and_eq_true, beq_iff_eq] at hc
    obtain ⟨⟨⟨⟨⟨⟨ha, hb⟩, hc⟩, hd⟩, hsep⟩, he⟩, hf⟩ := hc
    subst hsep
    simp only [Option.some.injEq, Prod.mk.injEq] at h
    refine ⟨a, b, c, d, e, f, ?_, ha, hb, hc, hd, he, hf, ?_, ?_⟩
    · cases s; simp only [String.toList] at hs; rw [hs]
    · rw [← h.1]; simp only [digitsToNat, List.foldl]; omega
    · rw [← h.2]; simp only [digitsToNat, List.foldl]; omega
  · simp at h

/-- The label written for a year of four digits and the month is the token they were read
from. -/
theorem label_roundtrip (s : String) (y m : Nat) (h : parseLabel s = some (y, m))
    (hy : 1000 ≤ y) :
    toString ((y : Nat) : Int) ++ "-" ++ padStart (toString ((m : Nat) : Int)) 2 = s := by
  obtain ⟨a, b, c, d, e, f, rfl, ha, hb, hc, hd, he, hf, rfl, rfl⟩ := parseLabel_some s y m h
  obtain ⟨a1, a2⟩ := digitChar_of_isDigit a ha
  obtain ⟨b1, b2⟩ := digitChar_of_isDigit b hb
  obtain ⟨c1, c2⟩ := digitChar_of_isDigit c hc
  obtain ⟨d1, d2⟩ := digitChar_of_isDigit d hd
  obtain ⟨e1, e2⟩ := digitChar_of_isDigit e he
  obtain ⟨f1, f2⟩ := digitChar_of_isDigit f hf
  generalize a.toNat - 48 = a' at *
  generalize b.toNat - 48 = b' at *
  generalize c.toNat - 48 = c' at *
  generalize d.toNat - 48 = d' at *
  generalize e.toNat - 48 = e' at *
  generalize f.toNat - 48 = f' at *
  have hY : toString (((1000 * a' + 100 * b' + 10 * c' + d' : Nat)) : Int)
      = String.mk [a, b, c, d] := by
    show toString (1000 * a' + 100 * b' + 10 * c' + d') = _
    rw [repr_four _ hy (by omega)]
    have q1 : (1000 * a' + 100 * b' + 10 * c' + d') / 1000 = a' := by omega
    have q2 : (1000 * a' + 100 * b' + 10 * c' + d') / 100 % 10 = b' := by omega
    have q3 : (1000 * a' + 100 * b' + 10 * c' + d') / 10 % 10 = c' := by omega
    have q4 : (1000 * a' + 100 * b' + 10 * c' + d') % 10 = d' := by omega
    rw [q1, q2, q3, q4, a2, b2, c2, d2]
  have hM : padStart (toString (((10 * e' + f' : Nat)) : Int)) 2 = String.mk [e, f] := by
    show padStart (toString (10 * e' + f')) 2 = _
    by_cases h10 : 10 ≤ 10 * e' + f'
    · rw [repr_two _ h10 (by omega)]
      have q1 : (10 * e' + f') / 10 = e' := by omega
      have q2 : (10 * e' + f') % 10 = f' := by omega
      rw [q1, q2, e2, f2]
      rfl
    · have q0 : e' = 0 := by omega
      subst q0
      rw [repr_one _ (by omega)]
      simp only [Nat.mul_zero, Nat.zero_add]
      rw [f2, ← e2]
      rfl
  rw [hY, hM]
  rfl


/-- The month of a date: its first instant is not after its last, the window from the one to
the other is the set of the instants of that local month, and the label is written from the
year and the month of the date. -/
theorem window_of_base (tza base y m : Int) (hy : ¬ (0 ≤ y ∧ y ≤ 99))
    (hY : getFullYear tza base = y) (hM : getMonth tza base = m) :
    (startOfMonth tza base ≤ base ∧ base ≤ endOfMonth tza base)
    ∧ (∀ u : Int, (startOfMonth tza base ≤ u ∧ u ≤ endOfMonth tza base)
        ↔ (getFullYear tza u = y ∧ getMonth tza u = m))
    ∧ formatPeriod tza (startOfMonth tza base)
        = toString y ++ "-" ++ padStart (toString (m + 1)) 2 := by
  obtain ⟨hm0, hm1⟩ : 0 ≤ m ∧ m ≤ 11 := by
    rw [← hM]; exact monthFromDay_range (localDay tza base)
  have hin : startOfMonth tza base ≤ base ∧ base ≤ endOfMonth tza base := by
    unfold startOfMonth endOfMonth
    rw [hY, hM]
    exact (month_window tza y m hy hm0 hm1 base).mpr ⟨hY, hM⟩
  have hstart : getFullYear tza (startOfMonth tza base) = y
      ∧ getMonth tza (startOfMonth tza base) = m := by
    have hle : startOfMonth tza base ≤ endOfMonth tza base := le_trans hin.1 hin.2
    unfold startOfMonth endOfMonth at hle
    unfold startOfMonth
    rw [hY, hM] at hle ⊢
    exact (month_window tza y m hy hm0 hm1 _).mp ⟨le_refl _, hle⟩
  refine ⟨hin, ?_, ?_⟩
  · intro u
    unfold startOfMonth endOfMonth
    rw [hY, hM]
    exact month_window tza y m hy hm0 hm1 u
  · unfold formatPeriod
    rw [hstart.1, hstart.2]

/-- The first day of month `m` of year `y`, as the constructor builds it, is of that year and
month. -/
theorem newDate_first_of_month (tza y m : Int) (hy : ¬ (0 ≤ y ∧ y ≤ 99)) (hm0 : 0 ≤ m)
    (hm1 : m ≤ 11) :
    getFullYear tza (newDate tza y m 1 0 0 0 0) = y
    ∧ getMonth tza (newDate tza y m 1 0 0 0 0) = m := by
  apply (month_window tza y m hy hm0 hm1 _).mp
  refine ⟨le_refl _, ?_⟩
  obtain ⟨k1, k2⟩ := makeDay_month y m hm0 hm1
  obtain ⟨b0, b1, b2⟩ := daysBeforeMonth_bounds (inLeapYear y) m hm0 hm1
  unfold newDate makeTime
  simp only [if_neg hy, k1, k2]
  unfold msPerDay
  omega

/-- C18 counterexample: the label token 0999-01 has month 01, and the returned label is 999-01,
not the token; the label token 0050-03 gives the label 1950-03 and a window that starts in the
year 1950. -/
theorem resolvePeriodWindow_label_differs :
    parseLabel "0999-01" = some (999, 1)
    ∧ (resolvePeriodWindow 0 0 (fun _ => none) (some "0999-01")).periodLabel = "999-01"
    ∧ (resolvePeriodWindow 0 0 (fun _ => none) (some "0999-01")).periodLabel ≠ "0999-01"
    ∧ parseLabel "0050-03" = some (50, 3)
    ∧ (resolvePeriodWindow 0 0 (fun _ => none) (some "0050-03")).periodLabel = "1950-03"
    ∧ getFullYear 0 (resolvePeriodWindow 0 0 (fun _ => none) (some "0050-03")).start = 1950 := by
  decide

/-- C18 amended: for a label token of a year from 1000 on and a month from 01 to 12,
resolvePeriodWindow returns the token as the label and a window from start to end that holds
exactly the instants of that local month of that year; for a non-empty token that is not a
label and parses as a valid date whose local year is outside 0..99, the date lies in the
window, the window holds exactly the instants of the local month of the date, and the label is
the one written from the year and the month of the date. -/
theorem resolvePeriodWindow_month (tza now : Int) (parseDate : String → Option Int)
    (s : String) :
    (∀ y m : Nat, parseLabel s = some (y, m) → 1000 ≤ y → 1 ≤ m → m ≤ 12 →
      (resolvePeriodWindow tza now parseDate (some s)).periodLabel = s
      ∧ (resolvePeriodWindow tza now parseDate (some s)).start
          ≤ (resolvePeriodWindow tza now parseDate (some s)).end_
      ∧ ∀ u : Int, ((resolvePeriodWindow tza now parseDate (some s)).start ≤ u
          ∧ u ≤ (resolvePeriodWindow tza now parseDate (some s)).end_)
          ↔ (getFullYear tza u = (y : Int) ∧ getMonth tza u + 1 = (m : Int)))
    ∧ (∀ t : Int, s ≠ "" → parseLabel s = none → parseDate s = some t →
      ¬ (0 ≤ getFullYear tza t ∧ getFullYear tza t ≤ 99) →
      ((resolvePeriodWindow tza now parseDate (some s)).start ≤ t
        ∧ t ≤ (resolvePeriodWindow tza now parseDate (some s)).end_)
      ∧ (∀ u : Int, ((resolvePeriodWindow tza now parseDate (some s)).start ≤ u
          ∧ u ≤ (resolvePeriodWindow tza now parseDate (some s)).end_)
          ↔ (getFullYear tza u = getFullYear tza t ∧ getMonth tza u = getMonth tza t))
      ∧ (resolvePeriodWindow tza now parseDate (some s)).periodLabel = formatPeriod tza t) := by
  constructor
  · intro y m h hy hm1 hm12
    have hne : truthy (some s) = true := by
      have : s ≠ "" := by
        rintro rfl
        have h0 : parseLabel "" = none := by decide
        rw [h0] at h
        exact Option.noConfusion h
      simpa [truthy] using this
    have hyq : ¬ (0 ≤ (y : Int) ∧ (y : Int) ≤ 99) := by omega
    obtain ⟨hY, hM⟩ := newDate_first_of_month tza (y : Int) ((m : Int) - 1) hyq (by omega)
      (by omega)
    obtain ⟨hin, hwin, hlab⟩ := window_of_base tza _ _ _ hyq hY hM
    have hres : resolvePeriodWindow tza now parseDate (some s)
        = { periodLabel := formatPeriod tza
              (startOfMonth tza (newDate tza (y : Int) ((m : Int) - 1) 1 0 0 0 0)),
            start := startOfMonth tza (newDate tza (y : Int) ((m : Int) - 1) 1 0 0 0 0),
            end_ := endOfMonth tza (newDate tza (y : Int) ((m : Int) - 1) 1 0 0 0 0) } := by
      simp only [resolvePeriodWindow, hne, if_true, Option.getD_some, h]
    rw [hres]
    refine ⟨?_, le_trans hin.1 hin.2, ?_⟩
    · show formatPeriod tza _ = s
      rw [hlab, sub_add_cancel]
      exact label_roundtrip s y m h hy
    · intro u
      show (startOfMonth tza _ ≤ u ∧ u ≤ endOfMonth tza _) ↔ _
      rw [hwin u]
      constructor
      · rintro ⟨p, q⟩; exact ⟨p, by omega⟩
      · rintro ⟨p, q⟩; exact ⟨p, by omega⟩
  · intro t hs hlabel hdate hyq
    have hne : truthy (some s) = true := by simpa [truthy] using hs
    obtain ⟨hin, hwin, hlab⟩ := window_of_base tza t _ _ hyq rfl rfl
    have hres : resolvePeriodWindow tza now parseDate (some s)
        = { periodLabel := formatPeriod tza (startOfMonth tza t),
            start := startOfMonth tza t,
            end_ := endOfMonth tza t } := by
      simp only [resolvePeriodWindow, hne, if_true, Option.getD_some, hlabel, hdate]
    rw [hres]
    exact ⟨hin, hwin, hlab⟩

theorem resolvePeriodWindow_month_witness :
    (resolvePeriodWindow 0 0 (fun _ => none) (some "2025-11")).periodLabel = "2025-11"
    ∧ ((resolvePeriodWindow 0 0 (fun _ => some 1762300800000) (some "2025-11-05")).start
        ≤ 1762300800000
      ∧ 1762300800000
        ≤ (resolvePeriodWindow 0 0 (fun _ => some 1762300800000) (some "2025-11-05")).end_) :=
  ⟨((resolvePeriodWindow_month 0 0 (fun _ => none) "2025-11").1 2025 11 (by decide) (by decide)
      (by decide) (by decide)).1,
    ((resolvePeriodWindow_month 0 0 (fun _ => some 1762300800000) "2025-11-05").2 1762300800000
      (by decide) (by decide) rfl (by decide)).1⟩

/-! ## Bucket precedence (C21) -/

theorem sectionKey_eq_iff (d : InvoiceDoc) :
    (sectionKey d = "b2c" ↔ d.gstTreatment = "b2c")
    ∧ (sectionKey d = "export" ↔
        (d.gstTreatment ≠ "b2c" ∧ (d.gstTreatment = "export" ∨ d.gstTreatment = "sez")))
    ∧ (sectionKey d = "nil" ↔
        (d.gstTreatment ≠ "b2c" ∧ ¬ (d.gstTreatment = "export" ∨ d.gstTreatment = "sez")
          ∧ coerceNumber d.subTotal = 0))
    ∧ (sectionKey d = "b2b" ↔
        (d.gstTreatment ≠ "b2c" ∧ ¬ (d.gstTreatment = "export" ∨ d.gstTreatment = "sez")
          ∧ coerceNumber d.subTotal ≠ 0)) := by
  unfold sectionKey
  by_cases h1 : d.gstTreatment = "b2c"
  · simp [h1]
  · by_cases h2 : d.gstTreatment = "export" ∨ d.gstTreatment = "sez"
    · simp only [if_neg h1, if_pos h2]
      simp [h1, h2]
    · by_cases h3 : coerceNumber d.subTotal = 0
      · simp only [if_neg h1, if_neg h2, if_pos h3]
        simp [h1, h2, h3]
      · simp only [if_neg h1, if_neg h2, if_neg h3]
        simp [h1, h2, h3]

theorem numbersOf_eq_filter (key : String) (p : InvoiceDoc → Prop) [DecidablePred p]
    (h : ∀ d, sectionKey d = key ↔ p d) (invoices : List InvoiceDoc) :
    numbersOf key invoices
      = (invoices.filter (fun d => decide (p d))).map (fun d => d.invoiceNumber) := by
  unfold numbersOf
  congr 1
  apply List.filter_congr
  intro d _
  by_cases hp : p d
  · simp [hp, (h d).mpr hp]
  · have : sectionKey d ≠ key := fun hk => hp ((h d).mp hk)
    simp [hp, this]

/-- C21: for every list of invoices, the b2c section of `buildDraftSections` lists exactly the
invoices whose treatment is b2c; the export section those that are not b2c and whose treatment
is export or sez; the nil section those that are neither and whose subtotal is zero; the b2b
section the rest; each in the order of the list and counted. In particular an invoice of
treatment b2c, export or sez is never in the nil section, whatever its subtotal. -/
theorem buildDraftSections_precedence (invoices : List InvoiceDoc) :
    ((buildDraftSections invoices).b2c.invoiceNumbers
        = (invoices.filter (fun d => decide (d.gstTreatment = "b2c"))).map
            (fun d => d.invoiceNumber)
      ∧ (buildDraftSections invoices).b2c.count
        = (invoices.filter (fun d => decide (d.gstTreatment = "b2c"))).length)
    ∧ ((buildDraftSections invoices).export_.invoiceNumbers
        = (invoices.filter (fun d => decide (d.gstTreatment ≠ "b2c"
            ∧ (d.gstTreatment = "export" ∨ d.gstTreatment = "sez")))).map
            (fun d => d.invoiceNumber)
      ∧ (buildDraftSections invoices).export_.count
        = (invoices.filter (fun d => decide (d.gstTreatment ≠ "b2c"
            ∧ (d.gstTreatment = "export" ∨ d.gstTreatment = "sez")))).length)
    ∧ ((buildDraftSections invoices).nil_.invoiceNumbers
        = (invoices.filter (fun d => decide (d.gstTreatment ≠ "b2c"
            ∧ ¬ (d.gstTreatment = "export" ∨ d.gstTreatment = "sez")
            ∧ coerceNumber d.subTotal = 0))).map (fun d => d.invoiceNumber)
      ∧ (buildDraftSections invoices).nil_.count
        = (invoices.filter (fun d => decide (d.gstTreatment ≠ "b2c"
            ∧ ¬ (d.gstTreatment = "export" ∨ d.gstTreatment = "sez")
            ∧ coerceNumber d.subTotal = 0))).length)
    ∧ ((buildDraftSections invoices).b2b.invoiceNumbers
        = (invoices.filter (fun d => decide (d.gstTreatment ≠ "b2c"
            ∧ ¬ (d.gstTreatment = "export" ∨ d.gstTreatment = "sez")
            ∧ coerceNumber d.subTotal ≠ 0))).map (fun d => d.invoiceNumber)
      ∧ (buildDraftSections invoices).b2b.count
        = (invoices.filter (fun d => decide (d.gstTreatment ≠ "b2c"
            ∧ ¬ (d.gstTreatment = "export" ∨ d.gstTreatment = "sez")
            ∧ coerceNumber d.subTotal ≠ 0))).length) := by
  obtain ⟨⟨a1, a2⟩, ⟨b1, b2⟩, ⟨c1, c2⟩, ⟨d1, d2⟩⟩ := buildDraftSections_sections invoices
  have k1 := numbersOf_eq_filter "b2c" _ (fun d => (sectionKey_eq_iff d).1) invoices
  have k2 := numbersOf_eq_filter "export" _ (fun d => (sectionKey_eq_iff d).2.1) invoices
  have k3 := numbersOf_eq_filter "nil" _ (fun d => (sectionKey_eq_iff d).2.2.1) invoices
  have k4 := numbersOf_eq_filter "b2b" _ (fun d => (sectionKey_eq_iff d).2.2.2) invoices
  refine ⟨⟨?_, ?_⟩, ⟨?_, ?_⟩, ⟨?_, ?_⟩, ⟨?_, ?_⟩⟩
  · rw [b2, k1]
  · rw [b1, k1, List.length_map]
  · rw [c2, k2]
  · rw [c1, k2, List.length_map]
  · rw [d2, k3]
  · rw [d1, k3, List.length_map]
  · rw [a2, k4]
  · rw [a1, k4, List.length_map]

/-- A b2c and an export invoice without subtotal, and a b2b invoice without subtotal: only the
last one is in the nil section. -/
theorem buildDraftSections_zero_subtotal_scenario :
    (buildDraftSections
      [{ _id := "z1", invoiceNumber := "INV-1", gstTreatment := "b2c", subTotal := some 0 },
       { _id := "z2", invoiceNumber := "INV-2", gstTreatment := "export", subTotal := some 0 },
       { _id := "z3", invoiceNumber := "INV-3", gstTreatment := "b2b", subTotal := some 0 }]
      ).nil_.invoiceNumbers = ["INV-3"] := by
  simp [buildDraftSections, sectionStep, foldSectionTotals, emptySections, coerceNumber]

/-! ## Period returns (C22, C23) -/

theorem findOneAndUpdate_none {α : Type} (p : α → Bool) (f : α → α) (l : List α)
    (h : l.find? p = none) : findOneAndUpdate p f l = none := by
  induction l with
  | nil => rfl
  | cons d ds ih =>
    rw [List.find?_cons] at h
    cases hp : p d
    · rw [hp] at h
      simp only [findOneAndUpdate, hp, Bool.false_eq_true, if_false, ih h]
    · rw [hp] at h
      exact Option.noConfusion h

/-- The first match is rewritten in place: the documents before it and after it stay. -/
theorem findOneAndUpdate_some {α : Type} (p : α → Bool) (f : α → α) (l : List α) (d0 : α)
    (h : l.find? p = some d0) :
    ∃ pre post, l = pre ++ d0 :: post ∧ (∀ d ∈ pre, p d = false)
      ∧ findOneAndUpdate p f l = some (f d0, pre ++ f d0 :: post) := by
  induction l with
  | nil => exact Option.noConfusion h
  | cons d ds ih =>
    rw [List.find?_cons] at h
    cases hp : p d
    · rw [hp] at h
      obtain ⟨pre, post, h1, h2, h3⟩ := ih h
      refine ⟨d :: pre, post, ?_, ?_, ?_⟩
      · rw [h1]; rfl
      · intro x hx
        rcases List.mem_cons.mp hx with hx | hx
        · rw [hx]; exact hp
        · exact h2 x hx
      · simp only [findOneAndUpdate, hp, Bool.false_eq_true, if_false, h3, List.cons_append]
    · rw [hp] at h
      have hd : d = d0 := Option.some.inj h
      subst hd
      refine ⟨[], ds, rfl, ?_, ?_⟩
      · intro x hx; exact absurd hx (List.not_mem_nil x)
      · simp only [findOneAndUpdate, hp, if_true, List.nil_append]

theorem generateGstSummary_key (tza now : Int) (parseDate : String → Option Int)
    (invoices : List InvoiceDoc) (transactions : List TransactionDoc) (org : String)
    (period : Option String) (returnType : String) (horg : isValidObjectId org = true) :
    ∃ summary, generateGstSummary tza now parseDate invoices transactions (some org) period
        returnType = .ok summary
      ∧ summary.organization_id = some org
      ∧ summary.period = (resolvePeriodWindow tza now parseDate period).periodLabel
      ∧ summary.return_type = returnType := by
  simp only [generateGstSummary, aggregateInvoiceSummary, toObjectId_valid org horg]
  exact ⟨_, rfl, rfl, rfl, rfl⟩

/-- C22: for an organization with a well-formed id, when the collection already holds a return
record for the organization, the period label and the return kind, `upsertGstReturn` succeeds,
the record it returns holds the freshly computed summary and the status draft, and has the id
and the filing history of the stored record, entry by entry; the collection after is the one
before with that record replaced, so every other record is as it was. -/
theorem upsertGstReturn_keeps_filings (tza now : Int) (parseDate : String → Option Int)
    (invoices : List InvoiceDoc) (transactions : List TransactionDoc)
    (returns : List GstReturnDoc) (newId org : String) (period returnType : Option String)
    (d0 : GstReturnDoc) (horg : isValidObjectId org = true)
    (hfind : returns.find? (fun d => d.summary.organization_id == some org
        && d.summary.period == (resolvePeriodWindow tza now parseDate period).periodLabel
        && d.summary.return_type == returnType.getD "GSTR1") = some d0) :
    ∃ summary doc pre post,
      generateGstSummary tza now parseDate invoices transactions (some org) period
          (returnType.getD "GSTR1") = .ok summary
      ∧ upsertGstReturn tza now parseDate invoices transactions returns newId (some org) period
          returnType = (.ok doc, pre ++ doc :: post)
      ∧ returns = pre ++ d0 :: post
      ∧ doc.summary = summary ∧ doc.status = "draft"
      ∧ doc._id = d0._id ∧ doc.filings = d0.filings := by
  obtain ⟨summary, hsum, k1, k2, k3⟩ := generateGstSummary_key tza now parseDate invoices
    transactions org period (returnType.getD "GSTR1") horg
  rw [← k1, ← k2] at hfind
  obtain ⟨pre, post, h1, _, h3⟩ := findOneAndUpdate_some _
    (fun d : GstReturnDoc => { d with summary := summary, status := "draft" }) returns d0 hfind
  refine ⟨summary, { d0 with summary := summary, status := "draft" }, pre, post, hsum, ?_, h1,
    rfl, rfl, rfl, rfl⟩
  simp only [upsertGstReturn, hsum, h3]

theorem upsertGstReturn_keeps_filings_witness :
    ∃ summary doc pre post,
      generateGstSummary 0 0 (fun _ => none) novemberInvoices [] (some sampleOrg)
          (some "2025-11") ((none : Option String).getD "GSTR1") = .ok summary
      ∧ upsertGstReturn 0 0 (fun _ => none) novemberInvoices [] [filedReturn] "r2"
          (some sampleOrg) (some "2025-11") none = (.ok doc, pre ++ doc :: post)
      ∧ [filedReturn] = pre ++ filedReturn :: post
      ∧ doc.summary = summary ∧ doc.status = "draft"
      ∧ doc._id = filedReturn._id ∧ doc.filings = filedReturn.filings :=
  upsertGstReturn_keeps_filings 0 0 (fun _ => none) novemberInvoices [] [filedReturn] "r2"
    sampleOrg (some "2025-11") none filedReturn (by decide) (by decide)

/-- C23: `updateGstReturnStatus` with a status that is missing or not one of draft, submitted,
filed, paid fails with the error 400 and leaves the collection as it is; with an allowed status
and a stored return of that id in the organization of the caller, whatever its status, it
succeeds, the filing history of the returned record is the stored one with one entry of that
status appended at its end, its status is the new status, and the collection after is the one
before with that record replaced. -/
theorem updateGstReturnStatus_spec (returns : List GstReturnDoc) (now : Int) (id : String)
    (organizationId status notes referenceNumber userId : Option String) :
    ((∀ st, status = some st → st ∉ allowedStatuses) →
      updateGstReturnStatus returns now id organizationId status notes referenceNumber userId
        = (.error (.api 400 "Invalid GST return status"), returns))
    ∧ (∀ st d0, status = some st → st ∈ allowedStatuses →
        returns.find? (fun d => d._id == id
          && d.summary.organization_id == toObjectId organizationId) = some d0 →
        ∃ doc entry pre post,
          updateGstReturnStatus returns now id organizationId status notes referenceNumber
              userId = (.ok doc, pre ++ doc :: post)
          ∧ returns = pre ++ d0 :: post
          ∧ doc.filings = d0.filings ++ [entry] ∧ entry.status = st
          ∧ doc.status = st ∧ doc._id = d0._id ∧ doc.summary = d0.summary) := by
  constructor
  · intro h
    cases status with
    | none => rfl
    | some st =>
      have hn : allowedStatuses.contains st = false := by
        simpa using h st rfl
      simp only [updateGstReturnStatus, hn, Bool.not_false, if_true]
  · intro st d0 hst hmem hfind
    subst hst
    have hc : allowedStatuses.contains st = true := by simpa using hmem
    obtain ⟨pre, post, h1, _, h3⟩ := findOneAndUpdate_some _
      (fun d : GstReturnDoc => { d with
        status := st
        filings := d.filings ++ [{ status := st, referenceNumber := referenceNumber,
                                   notes := notes, submittedAt := now,
                                   submittedBy := userId }] }) returns d0 hfind
    refine ⟨{ d0 with
        status := st
        filings := d0.filings ++ [{ status := st, referenceNumber := referenceNumber,
                                    notes := notes, submittedAt := now,
                                    submittedBy := userId }] },
      { status := st, referenceNumber := referenceNumber, notes := notes,
        submittedAt := now, submittedBy := userId }, pre, post, ?_, h1, rfl, rfl, rfl, rfl,
      rfl⟩
    simp only [updateGstReturnStatus, hc, Bool.not_true, Bool.false_eq_true, if_false, h3]

theorem updateGstReturnStatus_spec_witness :
    updateGstReturnStatus [filedReturn] 0 "r1" (some sampleOrg) (some "approved") none none none
        = (.error (.api 400 "Invalid GST return status"), [filedReturn])
    ∧ ∃ doc entry pre post,
        updateGstReturnStatus [filedReturn] 0 "r1" (some sampleOrg) (some "draft") none none
            none = (.ok doc, pre ++ doc :: post)
        ∧ [filedReturn] = pre ++ filedReturn :: post
        ∧ doc.filings = filedReturn.filings ++ [entry] ∧ entry.status = "draft"
        ∧ doc.status = "draft" ∧ doc._id = filedReturn._id
        ∧ doc.summary = filedReturn.summary :=
  ⟨(updateGstReturnStatus_spec [filedReturn] 0 "r1" (some sampleOrg) (some "approved") none none
      none).1 (fun st h => by cases h; decide),
    (updateGstReturnStatus_spec [filedReturn] 0 "r1" (some sampleOrg) (some "draft") none none
      none).2 "draft" filedReturn rfl (by decide) (by decide)⟩

/-! ## Invoice creation and the stock (C24, C26) -/

/-- The two outcomes of `createInvoice`: a failure that leaves the invoices as they are, or the
document built from the materialised lines, valid and appended to the invoices. -/
theorem createInvoice_cases (env : CreateEnv) (items : List ItemDoc)
    (counters : List CounterDoc) (invoices : List InvoiceDoc) (organizationId : Option String)
    (payload : CreatePayload) :
    (∃ e c, createInvoice env items counters invoices organizationId payload
        = (.error e, c, invoices))
    ∨ (∃ inv p,
        createInvoice env items counters invoices organizationId payload
          = (.ok inv, (generateInvoiceNumber counters organizationId env.year).2,
              invoices ++ [inv])
        ∧ prepareInvoiceLineItems (items.map ItemDoc.toCatalog) (payload.items.getD [])
            inv.supplyType = .ok p
        ∧ inv = newInvoice env organizationId payload
            ((jsOr payload.customerId payload.customer_id).getD "")
            (generateInvoiceNumber counters organizationId env.year).1 p
        ∧ validateNewInvoice invoices inv = none) := by
  unfold createInvoice
  by_cases hc : truthy (jsOr payload.customerId payload.customer_id) = true
  · simp only [hc, Bool.not_true, Bool.false_eq_true, if_false]
    obtain ⟨p, hp, -⟩ := prepareInvoiceLineItems_ok (items.map ItemDoc.toCatalog)
      (payload.items.getD [])
      (resolveSupplyType payload.supplyType env.organizationState
        (resolvePlaceOfSupply payload.place
          (env.customers ((jsOr payload.customerId payload.customer_id).getD ""))))
    simp only [hp]
    cases hv : validateNewInvoice invoices (newInvoice env organizationId payload
        ((jsOr payload.customerId payload.customer_id).getD "")
        (generateInvoiceNumber counters organizationId env.year).1 p) with
    | some e => exact Or.inl ⟨_, _, rfl⟩
    | none => exact Or.inr ⟨_, p, rfl, hp, rfl, hv⟩
  · have hc2 : truthy (jsOr payload.customerId payload.customer_id) = false := by
      simpa using hc
    simp only [hc2, Bool.not_false, if_true]
    exact Or.inl ⟨_, _, rfl⟩

theorem mapLine_productId (catalog : List CatalogDoc) (supplyType : String) (raw : RawLine) :
    (mapLine catalog supplyType raw).productId = none
      ∨ truthy (mapLine catalog supplyType raw).productId = true := by
  have h : (mapLine catalog supplyType raw).productId
      = jsOr raw.productId (jsOr raw.item_id none) := rfl
  rw [h]
  cases h1 : raw.productId with
  | none =>
    cases h2 : raw.item_id with
    | none => left; rfl
    | some t =>
      by_cases ht : t = ""
      · left; simp [jsOr, ht]
      · right; simp [jsOr, truthy, ht]
  | some s =>
    by_cases hs : s = ""
    · cases h2 : raw.item_id with
      | none => left; simp [jsOr, hs]
      | some t =>
        by_cases ht : t = ""
        · left; simp [jsOr, hs, ht]
        · right; simp [jsOr, truthy, hs, ht]
    · right; simp [jsOr, truthy, hs]

/-- A created invoice has a product on every line: `productId` is required by the schema. -/
theorem created_lines_have_product (env : CreateEnv) (organizationId : Option String)
    (payload : CreatePayload) (customerId invoiceNumber : String) (itemColl : List CatalogDoc)
    (supplyType : String) (p : Prepared) (invoices : List InvoiceDoc)
    (hp : prepareInvoiceLineItems itemColl (payload.items.getD []) supplyType = .ok p)
    (hv : validateNewInvoice invoices
      (newInvoice env organizationId payload customerId invoiceNumber p) = none) :
    ∀ l ∈ (newInvoice env organizationId payload customerId invoiceNumber p).items,
      truthy l.productId = true := by
  intro l hl
  obtain ⟨p2, hp2, hmap⟩ := prepareInvoiceLineItems_ok itemColl (payload.items.getD [])
    supplyType
  rw [hp] at hp2
  have hpp : p = p2 := by injection hp2
  subst hpp
  have hl2 : l ∈ p.mappedItems := hl
  have hsome : l.productId.isNone = false := by
    unfold validateNewInvoice at hv
    split_ifs at hv with h1
    simp only [List.any_eq_true, not_exists, not_and, Bool.not_eq_true] at h1
    exact h1 l hl
  rw [hmap] at hl2
  obtain ⟨raw, -, rfl⟩ := List.mem_map.mp hl2
  rcases mapLine_productId (buildCatalog itemColl (payload.items.getD [])) supplyType raw
    with h | h
  · rw [h] at hsome; simp at hsome
  · exact h

theorem stockOf_incStock (items : List ItemDoc) (id : String) (delta : ℚ) (id2 : String) :
    stockOf (incStock items id delta) id2
      = if id2 = id then (stockOf items id2).map (fun q => q + delta)
        else stockOf items id2 := by
  unfold incStock
  cases hf : items.find? (fun d => d._id == id) with
  | none =>
    rw [findOneAndUpdate_none _ _ _ hf]
    by_cases h : id2 = id
    · subst h
      simp [stockOf, hf]
    · simp [h]
  | some d0 =>
    obtain ⟨pre, post, h1, h2, h3⟩ := findOneAndUpdate_some (fun d : ItemDoc => d._id == id)
      (fun d => { d with stock_quantity := some (asNumber d.stock_quantity + delta) }) items d0
      hf
    rw [h3]
    have hd0 : d0._id = id := by
      have := List.find?_some hf
      simpa using this
    simp only [h1, stockOf, List.find?_append, List.find?_cons]
    by_cases h : id2 = id
    · subst h
      have hpre : pre.find? (fun d => d._id == id2) = none := by
        rw [List.find?_eq_none]
        intro x hx
        simpa using h2 x hx
      simp [hpre, hd0, asNumber]
    · have hne : (d0._id == id2) = false := by
        rw [hd0]
        simpa using fun hh : id = id2 => h hh.symm
      simp [h, hne]

/-- On an invoice of an organization whose lines all have a product, `adjustStockForInvoice`
records one sale movement per line, in order, and lowers the stock of every stored item by the
quantity the lines sell of it; a product without stored item has no stock to lower. -/
theorem foldl_adjustStockStep (inv : InvoiceDoc) (org : String)
    (horg : inv.organizationId = some org) (lines : List Line)
    (hprod : ∀ l ∈ lines, truthy l.productId = true) (items : List ItemDoc)
    (movements : List StockMovementDoc) :
    (lines.foldl (adjustStockStep inv) (items, movements)).2
        = movements ++ lines.map (saleMovement org inv.invoiceNumber)
    ∧ ∀ id, stockOf (lines.foldl (adjustStockStep inv) (items, movements)).1 id
        = (stockOf items id).map (fun q => q - soldQuantity lines id) := by
  induction lines generalizing items movements with
  | nil =>
    refine ⟨by simp, fun id => ?_⟩
    cases hs : stockOf items id <;> simp [soldQuantity, hs]
  | cons l rest ih =>
    have hl : truthy l.productId = true := hprod l (List.mem_cons_self _ _)
    obtain ⟨pid, hpid⟩ : ∃ pid, l.productId = some pid := by
      cases h : l.productId with
      | none => rw [h] at hl; simp [truthy] at hl
      | some s => exact ⟨s, rfl⟩
    have hl2 : truthy (some pid) = true := by rw [← hpid]; exact hl
    have hstep : adjustStockStep inv (items, movements) l
        = (incStock items pid (-l.quantity),
            movements ++ [saleMovement org inv.invoiceNumber l]) := by
      simp only [adjustStockStep, hl2, hpid, Option.getD_some, horg,
        Bool.not_true, Bool.false_eq_true, if_false, saleMovement]
    rw [List.foldl_cons, hstep]
    obtain ⟨k1, k2⟩ := ih (fun x hx => hprod x (List.mem_cons_of_mem _ hx))
      (incStock items pid (-l.quantity)) (movements ++ [saleMovement org inv.invoiceNumber l])
    refine ⟨by rw [k1]; simp, fun id => ?_⟩
    rw [k2 id, stockOf_incStock]
    by_cases h : id = pid
    · subst h
      cases hs : stockOf items id with
      | none => simp
      | some q =>
        simp only [if_true, Option.map_some', soldQuantity, List.filter_cons, hpid,
          beq_self_eq_true, List.map_cons, List.sum_cons]
        congr 1
        ring
    · have hne : (l.productId == some id) = false := by
        rw [hpid]
        simpa using fun hh : pid = id => h hh.symm
      cases hs : stockOf items id with
      | none => simp [h]
      | some q => simp [h, soldQuantity, List.filter_cons, hne]

/-- The two outcomes of the invoice creation request: a failure, after which the invoices, the
items and the movements are as before; or the invoice of the service call, committed together
with the writes of `adjustStockForInvoice`. -/
theorem createInvoice_request_cases (env : CreateEnv) (db : Collections)
    (organization_id : String) (body : CreatePayload) :
    (∃ e, (InvoiceController.createInvoice env db organization_id body).1 = .error e
      ∧ (InvoiceController.createInvoice env db organization_id body).2.invoices
          = db.invoices
      ∧ (InvoiceController.createInvoice env db organization_id body).2.items = db.items
      ∧ (InvoiceController.createInvoice env db organization_id body).2.movements
          = db.movements)
    ∨ (∃ inv, (InvoiceController.createInvoice env db organization_id body).1 = .ok inv
      ∧ (InvoiceController.createInvoice env db organization_id body).2.invoices
          = db.invoices ++ [inv]
      ∧ (InvoiceController.createInvoice env db organization_id body).2.items
          = (adjustStockForInvoice inv db.items db.movements).1
      ∧ (InvoiceController.createInvoice env db organization_id body).2.movements
          = (adjustStockForInvoice inv db.items db.movements).2
      ∧ inv.organizationId = some organization_id
      ∧ ∀ l ∈ inv.items, truthy l.productId = true) := by
  unfold InvoiceController.createInvoice
  by_cases hc : truthy (jsOr body.customerId body.customer_id) = true
  · simp only [hc, Bool.not_true, Bool.false_eq_true, if_false]
    rcases createInvoice_cases env db.items db.counters db.invoices (some organization_id)
      { body with customerId := jsOr body.customerId body.customer_id } with
      ⟨e, c, h⟩ | ⟨inv, p, h, hp, hinv, hv⟩
    · rw [h]
      left
      dsimp only
      split_ifs <;> exact ⟨_, rfl, rfl, rfl, rfl⟩
    · rw [h]
      right
      refine ⟨inv, rfl, rfl, rfl, rfl, ?_, ?_⟩
      · rw [hinv]; rfl
      · rw [hinv] at hp hv ⊢
        exact created_lines_have_product env _ _ _ _ _ _ p db.invoices hp hv
  · have hif : (!truthy (jsOr body.customerId body.customer_id)) = true := by simpa using hc
    rw [if_pos hif]
    exact Or.inl ⟨_, rfl, rfl, rfl, rfl⟩

/-- What the invoice creation request writes: a request that fails commits no invoice, no stock
change and no stock movement; a request that succeeds appends the invoice, records one sale
movement per line, in order, and lowers the stock of every stored item by the quantity the
lines sell of it. Whether an item is stored for the product of a line is never looked at. -/
theorem createInvoice_request_writes (env : CreateEnv) (db : Collections)
    (organization_id : String) (body : CreatePayload) :
    (∀ e, (InvoiceController.createInvoice env db organization_id body).1 = .error e →
      (InvoiceController.createInvoice env db organization_id body).2.invoices
          = db.invoices
      ∧ (InvoiceController.createInvoice env db organization_id body).2.items = db.items
      ∧ (InvoiceController.createInvoice env db organization_id body).2.movements
          = db.movements)
    ∧ (∀ inv, (InvoiceController.createInvoice env db organization_id body).1 = .ok inv →
      (InvoiceController.createInvoice env db organization_id body).2.invoices
          = db.invoices ++ [inv]
      ∧ (∀ l ∈ inv.items, truthy l.productId = true)
      ∧ (InvoiceController.createInvoice env db organization_id body).2.movements
          = db.movements ++ inv.items.map (saleMovement organization_id inv.invoiceNumber)
      ∧ ∀ id, stockOf (InvoiceController.createInvoice env db organization_id body).2.items id
          = (stockOf db.items id).map (fun q => q - soldQuantity inv.items id)) := by
  refine ⟨fun e he => ?_, fun inv hinv => ?_⟩
  · rcases createInvoice_request_cases env db organization_id body with
      ⟨_, _, h1, h2, h3⟩ | ⟨inv, hok, _⟩
    · exact ⟨h1, h2, h3⟩
    · rw [hok] at he
      exact Except.noConfusion he
  · rcases createInvoice_request_cases env db organization_id body with
      ⟨e, he, _⟩ | ⟨inv2, hok, h1, h2, h3, horg, hprod⟩
    · rw [he] at hinv
      exact Except.noConfusion hinv
    · rw [hok] at hinv
      have hi : inv2 = inv := by injection hinv
      subst hi
      obtain ⟨k1, k2⟩ := foldl_adjustStockStep inv2 organization_id horg inv2.items hprod
        db.items db.movements
      refine ⟨h1, hprod, ?_, fun id => ?_⟩
      · rw [h3]; exact k1
      · rw [h2]; exact k2 id

/-- C26 fails on the code: a request for 3 units of a product whose well-formed id no stored
item has is answered with the created invoice; the invoice is committed with a sale movement of
-3 for that id, and no stock is lowered (the stored item keeps its 5 units). The stock handler
`adjustStock` answers the same item id with the error 404 and writes nothing. -/
theorem createInvoice_commits_without_decrement :
    (InvoiceController.createInvoice sampleEnv { items := [shelfItem] } sampleOrg
        ghostBody).1.toOption.map (fun inv => inv.items.map (fun l => (l.productId, l.quantity)))
      = some [(some missingItemId, 3)]
    ∧ (InvoiceController.createInvoice sampleEnv { items := [shelfItem] } sampleOrg
        ghostBody).2.invoices.map (fun d => d._id) = ["inv9"]
    ∧ (InvoiceController.createInvoice sampleEnv { items := [shelfItem] } sampleOrg
        ghostBody).2.items = [shelfItem]
    ∧ (InvoiceController.createInvoice sampleEnv { items := [shelfItem] } sampleOrg
        ghostBody).2.movements.map (fun m => (m.item_id, m.quantity_change, m.reason))
        = [(missingItemId, -3, "sale")]
    ∧ InventoryController.adjustStock sampleOrg [shelfItem] []
        { item_id := some missingItemId, quantity_change := some (-3) }
        = (.error (.api 404 "Item not found"), [shelfItem], []) := by
  decide!

/-- The stock check of `adjustStock`: a change that would leave the stock of the item below
zero is rejected with the error 400 and nothing is written. -/
theorem adjustStock_rejects_negative (organization_id : String) (items : List ItemDoc)
    (movements : List StockMovementDoc) (body : AdjustBody) (item : ItemDoc)
    (hid : truthy body.item_id = true) (hq : falsyNumber body.quantity_change = false)
    (hfind : items.find? (fun d => d._id == body.item_id.getD ""
      && d.organization_id == some organization_id) = some item)
    (hneg : orZero item.stock_quantity + asNumber body.quantity_change < 0) :
    InventoryController.adjustStock organization_id items movements body
      = (.error (.api 400 "Stock cannot be negative"), items, movements) := by
  simp only [InventoryController.adjustStock, hid, hq, hfind, hneg, Bool.not_true, Bool.or_self,
    Bool.false_eq_true, if_false, if_true]

/-- The handler `adjustStock` keeps every stock non-negative. -/
theorem adjustStock_keeps_stock_nonnegative (organization_id : String) (items : List ItemDoc)
    (movements : List StockMovementDoc) (body : AdjustBody)
    (h : ∀ d ∈ items, 0 ≤ asNumber d.stock_quantity) :
    ∀ d ∈ (InventoryController.adjustStock organization_id items movements body).2.1,
      0 ≤ asNumber d.stock_quantity := by
  unfold InventoryController.adjustStock
  by_cases h1 : (!truthy body.item_id || falsyNumber body.quantity_change) = true
  · rw [if_pos h1]; exact h
  · rw [if_neg h1]
    cases hf : items.find? (fun d => d._id == body.item_id.getD ""
        && d.organization_id == some organization_id) with
    | none => exact h
    | some item =>
      dsimp only
      have key : ∀ q : ℚ, 0 ≤ q →
          ∀ d ∈ saveItem items { item with stock_quantity := some q },
            0 ≤ asNumber d.stock_quantity := by
        intro q hq d hd
        unfold saveItem at hd
        obtain ⟨x, hx, rfl⟩ := List.mem_map.mp hd
        split_ifs
        · exact hq
        · exact h x hx
      by_cases h2 : orZero item.stock_quantity + asNumber body.quantity_change < 0
      · rw [if_pos h2]; exact h
      · rw [if_neg h2]
        by_cases h3 : (!(["adjustment", "purchase", "sale", "correction"].contains
            (body.reason.getD "adjustment"))) = true
        · rw [if_pos h3]; exact key _ (not_lt.mp h2)
        · rw [if_neg h3]; exact key _ (not_lt.mp h2)

/-- C24 fails on the code: a request for 10 units of an item with 5 in stock is accepted, the
invoice is committed and `adjustStockForInvoice` leaves the stock of the item at -5, with a
sale movement of -10; `adjustStock` rejects the same change with the error 400 and writes
nothing. -/
theorem adjustStockForInvoice_drives_stock_negative :
    (InvoiceController.createInvoice sampleEnv { items := [stockItem] } sampleOrg
        oversellBody).2.invoices.map (fun d => d._id) = ["inv9"]
    ∧ stockOf (InvoiceController.createInvoice sampleEnv { items := [stockItem] } sampleOrg
        oversellBody).2.items "p1" = some (-5)
    ∧ (InvoiceController.createInvoice sampleEnv { items := [stockItem] } sampleOrg
        oversellBody).2.movements.map (fun m => (m.item_id, m.quantity_change, m.reason))
        = [("p1", -10, "sale")]
    ∧ InventoryController.adjustStock sampleOrg [stockItem] []
        { item_id := some "p1", quantity_change := some (-10) }
        = (.error (.api 400 "Stock cannot be negative"), [stockItem], []) := by
  decide!

/-! ## Organization scope (C27) -/

/-- The lookups of period returns are scoped: when no stored return of that id belongs to the
organization of the caller, `getGstReturnById` and `updateGstReturnStatus` fail and the
collection stays as it is. -/
theorem gstReturn_scoped (returns : List GstReturnDoc) (now : Int) (id : String)
    (organizationId status notes referenceNumber userId : Option String)
    (h : ∀ d ∈ returns, d._id = id → d.summary.organization_id ≠ toObjectId organizationId) :
    getGstReturnById returns id organizationId = .error (.api 404 "GST return not found")
    ∧ (updateGstReturnStatus returns now id organizationId status notes referenceNumber
        userId).2 = returns
    ∧ ∃ e, (updateGstReturnStatus returns now id organizationId status notes referenceNumber
        userId).1 = .error e := by
  have hnone : returns.find? (fun d => d._id == id
      && d.summary.organization_id == toObjectId organizationId) = none := by
    rw [List.find?_eq_none]
    intro d hd
    by_cases hid : d._id = id
    · have := h d hd hid
      simp [hid, this]
    · simp [hid]
  refine ⟨by simp only [getGstReturnById, hnone], ?_, ?_⟩
  · unfold updateGstReturnStatus
    cases status with
    | none => rfl
    | some st =>
      dsimp only
      split_ifs
      · rfl
      · rw [findOneAndUpdate_none _ _ _ hnone]
  · unfold updateGstReturnStatus
    cases status with
    | none => exact ⟨_, rfl⟩
    | some st =>
      dsimp only
      split_ifs
      · exact ⟨_, rfl⟩
      · rw [findOneAndUpdate_none _ _ _ hnone]
        exact ⟨_, rfl⟩

/-- C27 fails on the code: the sample organization calls the invoice handlers with the id of an
invoice of another organization; `getInvoice` returns that invoice, `updateInvoice` rewrites its
notes and `deleteInvoice` marks it deleted. The same caller gets the error 404 from
`getGstReturnById` and `updateGstReturnStatus` for a return of the other organization, and the
return stays as it is. -/
theorem invoice_handlers_cross_organization :
    (InvoiceController.getInvoice sampleOrg [foreignInvoice] [] "invB").toOption.map
        (fun d => (d._id, d.organizationId)) = some ("invB", some otherOrg)
    ∧ (InvoiceController.updateInvoice sampleOrg [] [foreignInvoice] "invB"
        { notes := some "changed" }).2.map (fun d => (d._id, d.organizationId, d.notes))
        = [("invB", some otherOrg, some "changed")]
    ∧ (InvoiceController.deleteInvoice sampleOrg [foreignInvoice] "invB").2.map
        (fun d => (d._id, d.organizationId, d.isDeleted)) = [("invB", some otherOrg, true)]
    ∧ getGstReturnById [filedReturn] "r1" (some otherOrg)
        = .error (.api 404 "GST return not found")
    ∧ updateGstReturnStatus [filedReturn] 0 "r1" (some otherOrg) (some "paid") none none none
        = (.error (.api 404 "GST return not found"), [filedReturn]) := by
  decide!

/-! ## Settlement amounts (C25) -/

/-- C25 counterexample: amounts that are not positive are recorded. A payment of -50 against
the invoice of grand total 384, and a payment whose amount is the string "0", are written to
the payment ledger and mirrored in the transaction ledger; the payment update of an invoice
with the amount -100 lowers the paid amount of the stored invoice from 100 to 0, and with the
string "0" it is answered as applied. -/
theorem nonpositive_settlement_accepted :
    PaymentController.createPayment sampleOrg [openInvoice] [] [] 0
        { invoice_id := some settledInvoiceId, amount_received := some (.number (-50)) }
      = (.ok { invoice_id := settledInvoiceId, amount_received := -50 },
          [{ invoice_id := settledInvoiceId, amount_received := -50 }],
          [{ organization_id := some sampleOrg, payment_date := 0, status := "completed",
             direction := "received", amount := some (-50) }])
    ∧ PaymentController.createPayment sampleOrg [openInvoice] [] [] 0
        { invoice_id := some settledInvoiceId, amount_received := some (.numeral 0) }
      = (.ok { invoice_id := settledInvoiceId, amount_received := 0 },
          [{ invoice_id := settledInvoiceId, amount_received := 0 }],
          [{ organization_id := some sampleOrg, payment_date := 0, status := "completed",
             direction := "received", amount := some 0 }])
    ∧ (InvoiceController.updatePayment sampleOrg [openInvoice] 0 settledInvoiceId
        (some (.number (-100))) none).2.map (fun d => (d.amountPaid, d.balanceDue))
      = [(some 0, some 384)]
    ∧ [openInvoice].map (fun d => (d.amountPaid, d.balanceDue)) = [(some 100, some 284)]
    ∧ (InvoiceController.updatePayment sampleOrg [openInvoice] 0 settledInvoiceId
        (some (.numeral 0)) none).1.toOption.map (fun d => (d.amountPaid, d.balanceDue))
      = some (some 100, some 284) := by
  decide!

/-- C25 amended: the guards of the two handlers test the presence of the amount, not its sign.
A settlement whose amount is missing, the number 0 or the empty string is rejected with the
error 400 and nothing is written: `createPayment` leaves the payment ledger and the transaction
ledger as they are, and the payment update of an invoice leaves the invoices as they are. Every
other amount, a negative number and the string "0" included, gets past the guard: the answer is
not that error. -/
theorem falsy_settlement_rejected (organization_id : String) (invoices : List InvoiceDoc)
    (payments : List Payment) (transactions : List TransactionDoc) (now : Int)
    (body : PaymentBody) (id : String) (amount : Option AmountValue)
    (paymentInfo : Option PaymentInfo) :
    (falsyAmount body.amount_received = true →
      PaymentController.createPayment organization_id invoices payments transactions now body
        = (.error (.api 400 "invoice_id and amount_received are required"), payments,
            transactions))
    ∧ (falsyAmount amount = true →
      InvoiceController.updatePayment organization_id invoices now id amount paymentInfo
        = (.error (.api 400 "amount required"), invoices))
    ∧ (truthy body.invoice_id = true → falsyAmount body.amount_received = false →
      (PaymentController.createPayment organization_id invoices payments transactions now
        body).1 ≠ .error (.api 400 "invoice_id and amount_received are required"))
    ∧ (falsyAmount amount = false →
      (InvoiceController.updatePayment organization_id invoices now id amount paymentInfo).1
        ≠ .error (.api 400 "amount required")) := by
  refine ⟨fun h1 => ?_, fun h2 => ?_, fun hi h1 => ?_, fun h2 => ?_⟩
  · simp only [PaymentController.createPayment, h1, Bool.or_true, if_true]
  · simp only [InvoiceController.updatePayment, h2, if_true]
  · simp only [PaymentController.createPayment, hi, h1, Bool.not_true, Bool.or_self,
      Bool.false_eq_true, if_false]
    cases invoices.find? (fun d => d._id == body.invoice_id.getD "") with
    | none => simp
    | some invoice =>
      dsimp only
      split_ifs <;> simp
  · simp only [InvoiceController.updatePayment, h2, Bool.false_eq_true, if_false]
    cases markInvoiceAsPaid invoices id (amount.map amountNumber) (paymentInfo.getD {}) now with
    | error e => simp
    | ok r => simp

/-- Witness of C25 amended: the number 0 as the amount of a payment, the empty string as the
amount of a payment update, and the string "0", which gets past both guards. -/
theorem falsy_settlement_rejected_witness :
    PaymentController.createPayment sampleOrg [openInvoice] [] [] 0
        { invoice_id := some settledInvoiceId, amount_received := some (.number 0) }
      = (.error (.api 400 "invoice_id and amount_received are required"), [], [])
    ∧ InvoiceController.updatePayment sampleOrg [openInvoice] 0 settledInvoiceId
        (some .emptyString) none
      = (.error (.api 400 "amount required"), [openInvoice])
    ∧ (PaymentController.createPayment sampleOrg [openInvoice] [] [] 0
        { invoice_id := some settledInvoiceId, amount_received := some (.numeral 0) }).1
      ≠ .error (.api 400 "invoice_id and amount_received are required")
    ∧ (InvoiceController.updatePayment sampleOrg [openInvoice] 0 settledInvoiceId
        (some (.numeral 0)) none).1 ≠ .error (.api 400 "amount required") :=
  ⟨(falsy_settlement_rejected sampleOrg [openInvoice] [] [] 0
      { invoice_id := some settledInvoiceId, amount_received := some (.number 0) }
      settledInvoiceId (some .emptyString) none).1 (by decide!),
    (falsy_settlement_rejected sampleOrg [openInvoice] [] [] 0
      { invoice_id := some settledInvoiceId, amount_received := some (.number 0) }
      settledInvoiceId (some .emptyString) none).2.1 rfl,
    (falsy_settlement_rejected sampleOrg [openInvoice] [] [] 0
      { invoice_id := some settledInvoiceId, amount_received := some (.numeral 0) }
      settledInvoiceId (some (.numeral 0)) none).2.2.1 (by decide) rfl,
    (falsy_settlement_rejected sampleOrg [openInvoice] [] [] 0
      { invoice_id := some settledInvoiceId, amount_received := some (.numeral 0) }
      settledInvoiceId (some (.numeral 0)) none).2.2.2 rfl⟩

/-! ## The stored balance (C30) -/

/-- The sample request of 10 units creates the sample invoice. -/
theorem createInvoice_oversell :
    createInvoice sampleEnv [stockItem] [] [] (some sampleOrg) oversellBody
      = (.ok oversoldInvoice, [{ key := "invoice_64b7f0c2a1d3e4f5a6b7c8d9_2025", seq := 1 }],
          [oversoldInvoice]) := by
  decide!

theorem applyOp_of_missing (itemColl : List CatalogDoc) (invoiceId : String)
    (invoices : List InvoiceDoc) (op : InvoiceOp) (h : findById invoices invoiceId = none) :
    applyOp itemColl invoiceId invoices op = invoices := by
  cases op with
  | markPaid amount paymentInfo now => simp only [applyOp, markInvoiceAsPaid, h]
  | update payload => simp only [applyOp, updateInvoice, h]

/-- One call that keeps the balance: the stored invoice is balanced after it when it was
before. -/
theorem applyOp_balanced (itemColl : List CatalogDoc) (invoiceId : String)
    (invoices : List InvoiceDoc) (op : InvoiceOp) (hk : KeepsBalance op)
    (hb : ∀ d, findById invoices invoiceId = some d →
      d.balanceDue = some (asNumber d.grandTotal - asNumber d.amountPaid)) :
    ∀ d, findById (applyOp itemColl invoiceId invoices op) invoiceId = some d →
      d.balanceDue = some (asNumber d.grandTotal - asNumber d.amountPaid) := by
  cases hf : findById invoices invoiceId with
  | none =>
    rw [applyOp_of_missing itemColl invoiceId invoices op hf]
    exact hb
  | some d0 =>
    have hd0 := hb d0 hf
    have hid := findById_id invoices invoiceId d0 hf
    cases op with
    | markPaid amount paymentInfo now =>
      intro d hd
      obtain ⟨h1, h2, h3, h4, -⟩ := markPaidDoc_facts d0 amount paymentInfo now
      simp only [applyOp, markInvoiceAsPaid, hf] at hd
      rw [findById_saveInvoice invoices invoiceId d0 _ hf (h1.trans hid)] at hd
      have hd2 : markPaidDoc d0 amount paymentInfo now = d := Option.some.inj hd
      rw [← hd2, h4, h2, h3]
      rfl
    | update payload =>
      intro d hd
      obtain ⟨inv1, hok, h1, hnone, hsome, hgrand⟩ := updateDoc_ok itemColl d0 payload
      simp only [applyOp, updateInvoice, hf, hok] at hd
      rw [findById_saveInvoice invoices invoiceId d0 _ hf (h1.trans hid)] at hd
      have hd2 : inv1 = d := Option.some.inj hd
      subst hd2
      cases hp : payload.amountPaid with
      | some p =>
        obtain ⟨k1, k2, -⟩ := hsome p hp
        rw [k2, k1]
        rfl
      | none =>
        have hk2 : payload.items = none ∧ payload.shippingCharge = none := by
          rcases hk with hk | hk
          · exact absurd hp hk
          · exact hk
        obtain ⟨-, k2, k3⟩ := hnone hp
        rw [k3, k2, hgrand hk2.1 hk2.2]
        exact hd0

/-- C30 counterexample: the invoice that `createInvoice` stores for 10 units at 100 with tax 18
(grand total 1180, balance 1180) gets the shipping charge 50 by an update without `amountPaid`:
the grand total becomes 1230, the paid amount stays 0 and the balance stays 1180. -/
theorem updateInvoice_leaves_balance_stale :
    (createInvoice sampleEnv [stockItem] [] [] (some sampleOrg) oversellBody).2.2.map
        (fun d => (d._id, d.grandTotal, d.amountPaid, d.balanceDue))
      = [("inv9", some 1180, some 0, some 1180)]
    ∧ (updateInvoice [stockItem.toCatalog]
        (createInvoice sampleEnv [stockItem] [] [] (some sampleOrg) oversellBody).2.2 "inv9"
        { shippingCharge := some 50 }).toOption.map
        (fun r => (r.1.grandTotal, r.1.amountPaid, r.1.balanceDue))
      = some (some 1230, some 0, some 1180) := by
  decide!

/-- C30 amended: every invoice that `createInvoice` returns has the paid amount 0, the balance
equal to the grand total and the status Unpaid, so its balance is the grand total less the paid
amount; and for every stored invoice whose balance is the grand total less the paid amount, the
same holds after every sequence of `markInvoiceAsPaid` calls and of `updateInvoice` calls that
supply `amountPaid` or change neither the items nor the shipping charge. -/
theorem balance_consistent (env : CreateEnv) (items : List ItemDoc)
    (counters : List CounterDoc) (invoices : List InvoiceDoc) (organizationId : Option String)
    (payload : CreatePayload) (itemColl : List CatalogDoc) (invoiceId : String)
    (stored : List InvoiceDoc) (ops : List InvoiceOp) :
    (∀ inv, (createInvoice env items counters invoices organizationId payload).1 = .ok inv →
      inv.amountPaid = some 0 ∧ inv.balanceDue = inv.grandTotal ∧ inv.paymentStatus = "Unpaid"
        ∧ inv.balanceDue = some (asNumber inv.grandTotal - asNumber inv.amountPaid))
    ∧ ((∀ op ∈ ops, KeepsBalance op) →
      (∀ d, findById stored invoiceId = some d →
        d.balanceDue = some (asNumber d.grandTotal - asNumber d.amountPaid)) →
      ∀ d, findById (ops.foldl (applyOp itemColl invoiceId) stored) invoiceId = some d →
        d.balanceDue = some (asNumber d.grandTotal - asNumber d.amountPaid)) := by
  constructor
  · intro inv hinv
    rcases createInvoice_cases env items counters invoices organizationId payload with
      ⟨e, c, h⟩ | ⟨inv2, p, h, -, hnew, -⟩
    · rw [h] at hinv
      exact Except.noConfusion hinv
    · rw [h] at hinv
      have hi : inv2 = inv := by injection hinv
      subst hi
      rw [hnew]
      refine ⟨rfl, rfl, rfl, ?_⟩
      simp [newInvoice, asNumber, toDecimal]
  · intro hk hb
    induction ops generalizing stored with
    | nil => exact hb
    | cons op rest ih =>
      rw [List.foldl_cons]
      exact ih _ (fun o ho => hk o (List.mem_cons_of_mem _ ho))
        (applyOp_balanced itemColl invoiceId stored op (hk op (List.mem_cons_self _ _)) hb)

theorem balance_consistent_witness :
    (oversoldInvoice.amountPaid = some 0 ∧ oversoldInvoice.balanceDue = oversoldInvoice.grandTotal
      ∧ oversoldInvoice.paymentStatus = "Unpaid"
      ∧ oversoldInvoice.balanceDue
        = some (asNumber oversoldInvoice.grandTotal - asNumber oversoldInvoice.amountPaid))
    ∧ ∀ d, findById
        ([InvoiceOp.update { amountPaid := some 100 }, InvoiceOp.markPaid (some 50) {} 0,
          InvoiceOp.update { notes := some "second reminder sent" }].foldl
          (applyOp [] "inv1") unpaidInvoices) "inv1" = some d →
      d.balanceDue = some (asNumber d.grandTotal - asNumber d.amountPaid) :=
  ⟨(balance_consistent sampleEnv [stockItem] [] [] (some sampleOrg) oversellBody [] "inv1"
      unpaidInvoices []).1 oversoldInvoice (by rw [createInvoice_oversell]),
    (balance_consistent sampleEnv [] [] [] none {} [] "inv1" unpaidInvoices
      [InvoiceOp.update { amountPaid := some 100 }, InvoiceOp.markPaid (some 50) {} 0,
        InvoiceOp.update { notes := some "second reminder sent" }]).2
      (by
        intro op hop
        simp only [List.mem_cons, List.mem_singleton, List.not_mem_nil, or_false] at hop
        rcases hop with h | h | h <;> subst h <;> simp [KeepsBalance])
      (by
        intro d hd
        have hd2 : unpaidInvoice = d := by
          have : findById unpaidInvoices "inv1" = some unpaidInvoice := by decide
          rw [this] at hd
          exact Option.some.inj hd
        subst hd2
        decide!)⟩

/-! ## The stored grand total (C29) -/

theorem foldl_addLine_balance (lines : List Line) (acc : Totals) :
    (lines.foldl addLine acc).subTotal - (lines.foldl addLine acc).discountTotal
        + ((lines.foldl addLine acc).cgstTotal + (lines.foldl addLine acc).sgstTotal
          + (lines.foldl addLine acc).igstTotal)
      = acc.subTotal - acc.discountTotal + (acc.cgstTotal + acc.sgstTotal + acc.igstTotal)
        + (lines.map (fun l => l.quantity * l.unitPrice - l.discount + l.cgstAmount
            + l.sgstAmount + l.igstAmount)).sum := by
  induction lines generalizing acc with
  | nil => simp
  | cons l rest ih =>
    rw [List.foldl_cons, ih]
    simp only [addLine, List.map_cons, List.sum_cons]
    ring

theorem splitTaxAmounts_nonneg (t r : ℚ) (s : String) (ht : 0 ≤ t) (hr : 0 ≤ r) :
    0 ≤ (splitTaxAmounts t r s).cgst ∧ 0 ≤ (splitTaxAmounts t r s).sgst
      ∧ 0 ≤ (splitTaxAmounts t r s).igst := by
  have h : 0 ≤ t * r / 100 := div_nonneg (mul_nonneg ht hr) (by norm_num)
  have h2 : 0 ≤ t * r / 100 / 2 := div_nonneg h (by norm_num)
  unfold splitTaxAmounts
  dsimp only
  split_ifs
  · exact ⟨le_refl _, le_refl _, le_refl _⟩
  · exact ⟨le_refl _, le_refl _, h⟩
  · exact ⟨h2, h2, le_refl _⟩

/-- The lines of a created invoice are the materialised lines, and its stored totals are the
accumulated totals with the shipping charge. -/
theorem createInvoice_stored (env : CreateEnv) (items : List ItemDoc)
    (counters : List CounterDoc) (invoices : List InvoiceDoc) (organizationId : Option String)
    (payload : CreatePayload) (inv : InvoiceDoc)
    (h : (createInvoice env items counters invoices organizationId payload).1 = .ok inv) :
    inv.items = (payload.items.getD []).map
        (mapLine (buildCatalog (items.map ItemDoc.toCatalog) (payload.items.getD []))
          inv.supplyType)
    ∧ inv.grandTotal = some
        ((inv.items.foldl addLine zeroTotals).subTotal
          - (inv.items.foldl addLine zeroTotals).discountTotal
          + ((inv.items.foldl addLine zeroTotals).cgstTotal
            + (inv.items.foldl addLine zeroTotals).sgstTotal
            + (inv.items.foldl addLine zeroTotals).igstTotal)
          + asNumber inv.shippingCharge - 0)
    ∧ inv.cgstTotal = some (inv.items.foldl addLine zeroTotals).cgstTotal
    ∧ inv.sgstTotal = some (inv.items.foldl addLine zeroTotals).sgstTotal
    ∧ inv.igstTotal = some (inv.items.foldl addLine zeroTotals).igstTotal := by
  rcases createInvoice_cases env items counters invoices organizationId payload with
    ⟨e, c, h2⟩ | ⟨inv2, p, h2, hp, hnew, -⟩
  · rw [h2] at h
    exact Except.noConfusion h
  · rw [h2] at h
    have hi : inv2 = inv := by injection h
    subst hi
    obtain ⟨p2, hp2, hmap, htot⟩ := prepareInvoiceLineItems_totals (items.map ItemDoc.toCatalog)
      (payload.items.getD []) inv2.supplyType
    rw [hp] at hp2
    have hpp : p = p2 := by injection hp2
    subst hpp
    have hitems : inv2.items = p.mappedItems := by rw [hnew]; rfl
    refine ⟨by rw [hitems, hmap], ?_, ?_, ?_, ?_⟩
    · rw [hitems, ← htot, hnew]
      simp [newInvoice, finalizeTotals, toDecimal, asNumber]
    · rw [hitems, ← htot, hnew]; rfl
    · rw [hitems, ← htot, hnew]; rfl
    · rw [hitems, ← htot, hnew]; rfl

/-- C29 counterexample: a line of one unit at 100 with the discount 150 and the rate 0, all
non-negative; the stored grand total is -50, while the line total is 0 and the shipping charge
is 0. -/
theorem createInvoice_negative_grandTotal :
    (createInvoice sampleEnv [stockItem] [] [] (some sampleOrg) overDiscountBody).1.toOption.map
        (fun inv => (inv.grandTotal, inv.items.map (fun l => l.total), inv.shippingCharge))
      = some (some (-50), [0], some 0) := by
  decide!

/-- The stored sub-total, discount total and tax amount of a created invoice. -/
theorem createInvoice_stored_sums (env : CreateEnv) (items : List ItemDoc)
    (counters : List CounterDoc) (invoices : List InvoiceDoc) (organizationId : Option String)
    (payload : CreatePayload) (inv : InvoiceDoc)
    (h : (createInvoice env items counters invoices organizationId payload).1 = .ok inv) :
    inv.subTotal = some (inv.items.foldl addLine zeroTotals).subTotal
    ∧ inv.discountTotal = some (inv.items.foldl addLine zeroTotals).discountTotal
    ∧ inv.taxAmount = some ((inv.items.foldl addLine zeroTotals).cgstTotal
        + (inv.items.foldl addLine zeroTotals).sgstTotal
        + (inv.items.foldl addLine zeroTotals).igstTotal) := by
  rcases createInvoice_cases env items counters invoices organizationId payload with
    ⟨e, c, h2⟩ | ⟨inv2, p, h2, hp, hnew, -⟩
  · rw [h2] at h
    exact Except.noConfusion h
  · rw [h2] at h
    have hi : inv2 = inv := by injection h
    subst hi
    obtain ⟨p2, hp2, hmap, htot⟩ := prepareInvoiceLineItems_totals (items.map ItemDoc.toCatalog)
      (payload.items.getD []) inv2.supplyType
    rw [hp] at hp2
    have hpp : p = p2 := by injection hp2
    subst hpp
    have hitems : inv2.items = p.mappedItems := by rw [hnew]; rfl
    refine ⟨?_, ?_, ?_⟩
    · rw [hitems, ← htot, hnew]; rfl
    · rw [hitems, ← htot, hnew]; rfl
    · rw [hitems, ← htot, hnew]; rfl

/-- C29 amended: for every invoice that `createInvoice` stores, each line total is the taxable
value plus the three tax amounts of the line; the stored grand total is the stored sub-total
(the accumulated quantity times unit price) less the stored discount total plus the stored tax
amount plus the shipping charge, it is not computed from the line totals; and when no line has
a discount above its quantity times its unit price, with non-negative tax rates and a
non-negative shipping charge, the grand total is at least the shipping charge and so never
negative. -/
theorem createInvoice_grandTotal_bounds (env : CreateEnv) (items : List ItemDoc)
    (counters : List CounterDoc) (invoices : List InvoiceDoc) (organizationId : Option String)
    (payload : CreatePayload) (inv : InvoiceDoc)
    (h : (createInvoice env items counters invoices organizationId payload).1 = .ok inv) :
    (∀ l ∈ inv.items,
      l.total = l.taxableValue + l.cgstAmount + l.sgstAmount + l.igstAmount)
    ∧ inv.subTotal = some (inv.items.foldl addLine zeroTotals).subTotal
    ∧ inv.discountTotal = some (inv.items.foldl addLine zeroTotals).discountTotal
    ∧ inv.taxAmount = some (asNumber inv.cgstTotal + asNumber inv.sgstTotal
        + asNumber inv.igstTotal)
    ∧ inv.grandTotal = some (asNumber inv.subTotal - asNumber inv.discountTotal
        + asNumber inv.taxAmount + asNumber inv.shippingCharge - 0)
    ∧ ((∀ l ∈ inv.items, l.discount ≤ l.quantity * l.unitPrice) →
        (∀ l ∈ inv.items, 0 ≤ l.taxRate) → 0 ≤ asNumber inv.shippingCharge →
        asNumber inv.shippingCharge ≤ asNumber inv.grandTotal
          ∧ 0 ≤ asNumber inv.grandTotal) := by
  obtain ⟨hitems, hgrand, hc, hs, hi⟩ :=
    createInvoice_stored env items counters invoices organizationId payload inv h
  obtain ⟨hsub, hdisc, htax⟩ :=
    createInvoice_stored_sums env items counters invoices organizationId payload inv h
  have hline : ∀ l ∈ inv.items,
      l.total = l.taxableValue + l.cgstAmount + l.sgstAmount + l.igstAmount
      ∧ l.taxableValue = max (l.quantity * l.unitPrice - l.discount) 0
      ∧ (0 ≤ l.taxRate → 0 ≤ l.cgstAmount ∧ 0 ≤ l.sgstAmount ∧ 0 ≤ l.igstAmount) := by
    intro l hl
    rw [hitems] at hl
    obtain ⟨raw, -, rfl⟩ := List.mem_map.mp hl
    refine ⟨rfl, rfl, fun hr => ?_⟩
    exact splitTaxAmounts_nonneg _ _ _ (le_max_right _ _) hr
  refine ⟨fun l hl => (hline l hl).1, hsub, hdisc, ?_, ?_, fun hd hr hsh => ?_⟩
  · rw [htax, hc, hs, hi]; rfl
  · rw [hgrand, hsub, hdisc, htax]; rfl
  · have hsum : (inv.items.map (fun l => l.quantity * l.unitPrice - l.discount + l.cgstAmount
        + l.sgstAmount + l.igstAmount)).sum = (inv.items.map (fun l => l.total)).sum := by
      congr 1
      apply List.map_congr_left
      intro l hl
      obtain ⟨k1, k2, -⟩ := hline l hl
      have hmax : max (l.quantity * l.unitPrice - l.discount) 0
          = l.quantity * l.unitPrice - l.discount := max_eq_left (sub_nonneg.mpr (hd l hl))
      rw [k1, k2, hmax]
    have hg : inv.grandTotal
        = some ((inv.items.map (fun l => l.total)).sum + asNumber inv.shippingCharge) := by
      rw [hgrand, foldl_addLine_balance, hsum]
      simp [zeroTotals]
    have hnn : 0 ≤ (inv.items.map (fun l => l.total)).sum := by
      apply List.sum_nonneg
      intro x hx
      obtain ⟨l, hl, rfl⟩ := List.mem_map.mp hx
      obtain ⟨k1, k2, k3⟩ := hline l hl
      obtain ⟨c1, c2, c3⟩ := k3 (hr l hl)
      have ht : 0 ≤ l.taxableValue := by rw [k2]; exact le_max_right _ _
      rw [k1]
      linarith
    rw [hg]
    constructor
    · show asNumber inv.shippingCharge
        ≤ (inv.items.map (fun l => l.total)).sum + asNumber inv.shippingCharge
      linarith
    · show 0 ≤ (inv.items.map (fun l => l.total)).sum + asNumber inv.shippingCharge
      linarith

/-- Witness of C29 amended: the invoice of 10 units at 100 with the rate 18 and no discount; its
grand total is 1180. -/
theorem createInvoice_grandTotal_bounds_witness :
    (∀ l ∈ oversoldInvoice.items,
      l.total = l.taxableValue + l.cgstAmount + l.sgstAmount + l.igstAmount)
    ∧ oversoldInvoice.grandTotal = some (asNumber oversoldInvoice.subTotal
        - asNumber oversoldInvoice.discountTotal + asNumber oversoldInvoice.taxAmount
        + asNumber oversoldInvoice.shippingCharge - 0)
    ∧ asNumber oversoldInvoice.shippingCharge ≤ asNumber oversoldInvoice.grandTotal
    ∧ 0 ≤ asNumber oversoldInvoice.grandTotal
    ∧ oversoldInvoice.grandTotal = some 1180 := by
  have key := createInvoice_grandTotal_bounds sampleEnv [stockItem] [] [] (some sampleOrg)
    oversellBody oversoldInvoice (by rw [createInvoice_oversell])
  obtain ⟨k1, -, -, -, k5, k6⟩ := key
  obtain ⟨b1, b2⟩ := k6 (by decide!) (by decide!) (by decide!)
  exact ⟨k1, k5, b1, b2, rfl⟩

/-! ## Tax totals and the supply type (C28) -/

theorem splitTaxAmounts_channel (t r : ℚ) (s : String) :
    InChannel s (splitTaxAmounts t r s).cgst (splitTaxAmounts t r s).sgst
      (splitTaxAmounts t r s).igst := by
  unfold splitTaxAmounts InChannel SUPPLY_INTER
  dsimp only
  split_ifs with h1 h2
  · exact ⟨fun _ => ⟨rfl, rfl⟩, fun _ => rfl⟩
  · exact ⟨fun _ => ⟨rfl, rfl⟩, fun h => absurd h2 h⟩
  · exact ⟨fun h => absurd h h2, fun _ => rfl⟩

/-- The supply type `inv.supplyType || 'intra'` has the channel of the stored one. -/
theorem inChannel_effective (s : String) (c g i : ℚ) :
    InChannel (if s = "" then SUPPLY_INTRA else s) c g i ↔ InChannel s c g i := by
  by_cases h : s = ""
  · subst h
    simp [InChannel, SUPPLY_INTRA]
  · simp [h]

theorem inChannel_add (s : String) (c g i c2 g2 i2 : ℚ) (h1 : InChannel s c g i)
    (h2 : InChannel s c2 g2 i2) : InChannel s (c + c2) (g + g2) (i + i2) := by
  refine ⟨fun h => ?_, fun h => ?_⟩
  · obtain ⟨a1, a2⟩ := h1.1 h
    obtain ⟨b1, b2⟩ := h2.1 h
    rw [a1, a2, b1, b2]
    exact ⟨add_zero _, add_zero _⟩
  · rw [h1.2 h, h2.2 h]
    exact add_zero _

theorem foldl_addLine_channel (s : String) (lines : List Line) (acc : Totals)
    (hacc : InChannel s acc.cgstTotal acc.sgstTotal acc.igstTotal)
    (hl : ∀ l ∈ lines, InChannel s l.cgstAmount l.sgstAmount l.igstAmount) :
    InChannel s (lines.foldl addLine acc).cgstTotal (lines.foldl addLine acc).sgstTotal
      (lines.foldl addLine acc).igstTotal := by
  induction lines generalizing acc with
  | nil => exact hacc
  | cons l rest ih =>
    rw [List.foldl_cons]
    exact ih _ (inChannel_add s _ _ _ _ _ _ hacc (hl l (List.mem_cons_self _ _)))
      (fun x hx => hl x (List.mem_cons_of_mem _ hx))

theorem calcStep_channel (s eff : String) (heff : ∀ c g i, InChannel eff c g i ↔ InChannel s c g i)
    (acc : Totals) (l : Line)
    (hacc : InChannel s acc.cgstTotal acc.sgstTotal acc.igstTotal)
    (hl : InChannel s l.cgstAmount l.sgstAmount l.igstAmount) :
    InChannel s (calcStep eff acc l.toItem).cgstTotal (calcStep eff acc l.toItem).sgstTotal
      (calcStep eff acc l.toItem).igstTotal := by
  unfold calcStep
  dsimp only
  apply inChannel_add s _ _ _ _ _ _ hacc
  by_cases h : asNumber l.toItem.cgstAmount = 0 ∧ asNumber l.toItem.sgstAmount = 0
      ∧ asNumber l.toItem.igstAmount = 0
  · simp only [if_pos h]
    exact (heff _ _ _).mp (splitTaxAmounts_channel _ _ eff)
  · simp only [if_neg h]
    exact hl

theorem foldl_calcStep_channel (s eff : String)
    (heff : ∀ c g i, InChannel eff c g i ↔ InChannel s c g i) (lines : List Line)
    (acc : Totals) (hacc : InChannel s acc.cgstTotal acc.sgstTotal acc.igstTotal)
    (hl : ∀ l ∈ lines, InChannel s l.cgstAmount l.sgstAmount l.igstAmount) :
    InChannel s ((lines.map Line.toItem).foldl (calcStep eff) acc).cgstTotal
      ((lines.map Line.toItem).foldl (calcStep eff) acc).sgstTotal
      ((lines.map Line.toItem).foldl (calcStep eff) acc).igstTotal := by
  induction lines generalizing acc with
  | nil => exact hacc
  | cons l rest ih =>
    rw [List.map_cons, List.foldl_cons]
    exact ih _ (calcStep_channel s eff heff acc l hacc (hl l (List.mem_cons_self _ _)))
      (fun x hx => hl x (List.mem_cons_of_mem _ hx))

theorem inChannel_zero (s : String) : InChannel s 0 0 0 :=
  ⟨fun _ => ⟨rfl, rfl⟩, fun _ => rfl⟩

/-- The lines and totals `prepareInvoiceLineItems` computes for a supply type sit in its
channel. -/
theorem prepared_channel (itemColl : List CatalogDoc) (raw : List RawLine) (s : String)
    (p : Prepared) (hp : prepareInvoiceLineItems itemColl raw s = .ok p) :
    (∀ l ∈ p.mappedItems, InChannel s l.cgstAmount l.sgstAmount l.igstAmount)
    ∧ InChannel s p.totals.cgstTotal p.totals.sgstTotal p.totals.igstTotal := by
  obtain ⟨p2, hp2, hmap, htot⟩ := prepareInvoiceLineItems_totals itemColl raw s
  rw [hp] at hp2
  have hpp : p = p2 := by injection hp2
  subst hpp
  have hl : ∀ l ∈ p.mappedItems, InChannel s l.cgstAmount l.sgstAmount l.igstAmount := by
    intro l hl
    rw [hmap] at hl
    obtain ⟨r, -, rfl⟩ := List.mem_map.mp hl
    exact splitTaxAmounts_channel _ _ s
  refine ⟨hl, ?_⟩
  rw [htot]
  exact foldl_addLine_channel s _ _ (inChannel_zero s) hl

/-- One update that resends the items or keeps the supply type keeps the tax amounts in the
channel of the supply type. -/
theorem updateDoc_channel (itemColl : List CatalogDoc) (inv : InvoiceDoc)
    (payload : UpdatePayload) (hk : payload.items ≠ none ∨ payload.supplyType = none)
    (hinv : TaxInChannel inv) :
    ∃ inv1, updateDoc itemColl inv payload = .ok inv1 ∧ TaxInChannel inv1 := by
  have hrec : ∀ d : InvoiceDoc, TaxInChannel d → TaxInChannel (recomputeBalance d) :=
    fun d hd => hd
  have hfin : ∀ d : InvoiceDoc, TaxInChannel d →
      ∃ inv1, (match payload.amountPaid with
        | some _ => (Except.ok (recomputeBalance d) : Except String InvoiceDoc)
        | none => .ok d) = .ok inv1 ∧ TaxInChannel inv1 := by
    intro d hd
    cases payload.amountPaid with
    | some q => exact ⟨_, rfl, hrec d hd⟩
    | none => exact ⟨_, rfl, hd⟩
  unfold updateDoc
  cases hitems : payload.items with
  | some rawItems =>
    obtain ⟨p, hp, -⟩ := prepareInvoiceLineItems_ok itemColl rawItems
      (if (applyUpdatable inv payload).supplyType = "" then SUPPLY_INTRA
        else (applyUpdatable inv payload).supplyType)
    obtain ⟨k1, k2⟩ := prepared_channel itemColl rawItems _ p hp
    simp only [hp]
    apply hfin
    constructor
    · intro l hl
      exact (inChannel_effective _ _ _ _).mp (k1 l hl)
    · exact (inChannel_effective _ _ _ _).mp k2
  | none =>
    have hst : payload.supplyType = none := by
      rcases hk with hk | hk
      · exact absurd hitems hk
      · exact hk
    have hsame : (applyUpdatable inv payload).supplyType = inv.supplyType := by
      simp [applyUpdatable, hst]
    have hitems2 : (applyUpdatable inv payload).items = inv.items := rfl
    cases hship : payload.shippingCharge with
    | some v =>
      dsimp only
      apply hfin
      constructor
      · intro l hl
        have hl2 : l ∈ inv.items := hl
        show InChannel (applyUpdatable inv payload).supplyType _ _ _
        rw [hsame]
        exact hinv.1 l hl2
      · show InChannel (applyUpdatable inv payload).supplyType _ _ _
        rw [hsame, hitems2]
        exact foldl_calcStep_channel inv.supplyType _
          (fun c g i => by rw [← hsame]; exact inChannel_effective _ c g i) inv.items zeroTotals
          (inChannel_zero _) hinv.1
    | none =>
      dsimp only
      apply hfin
      constructor
      · intro l hl
        have hl2 : l ∈ inv.items := hl
        show InChannel (applyUpdatable inv payload).supplyType _ _ _
        rw [hsame]
        exact hinv.1 l hl2
      · show InChannel (applyUpdatable inv payload).supplyType _ _ _
        rw [hsame]
        exact hinv.2

theorem applyOp_channel (itemColl : List CatalogDoc) (invoiceId : String)
    (invoices : List InvoiceDoc) (op : InvoiceOp) (hk : KeepsChannel op)
    (hb : ∀ d, findById invoices invoiceId = some d → TaxInChannel d) :
    ∀ d, findById (applyOp itemColl invoiceId invoices op) invoiceId = some d →
      TaxInChannel d := by
  cases hf : findById invoices invoiceId with
  | none =>
    rw [applyOp_of_missing itemColl invoiceId invoices op hf]
    exact hb
  | some d0 =>
    have hd0 := hb d0 hf
    have hid := findById_id invoices invoiceId d0 hf
    cases op with
    | markPaid amount paymentInfo now =>
      intro d hd
      simp only [applyOp, markInvoiceAsPaid, hf] at hd
      rw [findById_saveInvoice invoices invoiceId d0 (markPaidDoc d0 amount paymentInfo now) hf
        hid] at hd
      have hd2 : markPaidDoc d0 amount paymentInfo now = d := Option.some.inj hd
      rw [← hd2]
      exact hd0
    | update payload =>
      intro d hd
      obtain ⟨inv1, hok, hch⟩ := updateDoc_channel itemColl d0 payload hk hd0
      obtain ⟨inv2, hok2, h1, -⟩ := updateDoc_ok itemColl d0 payload
      rw [hok] at hok2
      have h12 : inv1 = inv2 := by injection hok2
      subst h12
      simp only [applyOp, updateInvoice, hf, hok] at hd
      rw [findById_saveInvoice invoices invoiceId d0 _ hf (h1.trans hid)] at hd
      have hd2 : inv1 = d := Option.some.inj hd
      rw [← hd2]
      exact hch

/-- C28 counterexample: the invoice that `createInvoice` stores for 10 units at 100 with tax 18
has the supply type 'intra' and the totals 90, 90, 0; an update that supplies the supply type
'inter', alone or with a shipping charge, stores 'inter' and leaves the totals 90, 90, 0. -/
theorem updateInvoice_totals_off_channel :
    (createInvoice sampleEnv [stockItem] [] [] (some sampleOrg) oversellBody).2.2.map
        (fun d => (d._id, d.supplyType, d.cgstTotal, d.sgstTotal, d.igstTotal))
      = [("inv9", "intra", some 90, some 90, some 0)]
    ∧ (updateInvoice [stockItem.toCatalog]
        (createInvoice sampleEnv [stockItem] [] [] (some sampleOrg) oversellBody).2.2 "inv9"
        { supplyType := some "inter" }).toOption.map
        (fun r => (r.1.supplyType, r.1.cgstTotal, r.1.sgstTotal, r.1.igstTotal))
      = some ("inter", some 90, some 90, some 0)
    ∧ (updateInvoice [stockItem.toCatalog]
        (createInvoice sampleEnv [stockItem] [] [] (some sampleOrg) oversellBody).2.2 "inv9"
        { supplyType := some "inter", shippingCharge := some 50 }).toOption.map
        (fun r => (r.1.supplyType, r.1.cgstTotal, r.1.sgstTotal, r.1.igstTotal))
      = some ("inter", some 90, some 90, some 0) :=
  ⟨by decide!, by decide!, by decide!⟩

/-- C28 amended: the tax amounts of the lines and the tax totals of every invoice that
`createInvoice` returns sit in the channel of its supply type; and for every stored invoice of
which this holds, it holds after every sequence of `markInvoiceAsPaid` calls and of
`updateInvoice` calls that resend the items or do not supply `supplyType` (a change of the
shipping charge without items included): then `igstTotal` is 0 when the supply type is 'intra'
and `cgstTotal` and `sgstTotal` are 0 when it is 'inter'. -/
theorem tax_totals_in_channel (env : CreateEnv) (items : List ItemDoc)
    (counters : List CounterDoc) (invoices : List InvoiceDoc) (organizationId : Option String)
    (payload : CreatePayload) (itemColl : List CatalogDoc) (invoiceId : String)
    (stored : List InvoiceDoc) (ops : List InvoiceOp) :
    (∀ inv, (createInvoice env items counters invoices organizationId payload).1 = .ok inv →
      TaxInChannel inv)
    ∧ ((∀ op ∈ ops, KeepsChannel op) →
      (∀ d, findById stored invoiceId = some d → TaxInChannel d) →
      ∀ d, findById (ops.foldl (applyOp itemColl invoiceId) stored) invoiceId = some d →
        TaxInChannel d
        ∧ (d.supplyType = "intra" → asNumber d.igstTotal = 0)
        ∧ (d.supplyType = "inter" → asNumber d.cgstTotal = 0 ∧ asNumber d.sgstTotal = 0)) := by
  constructor
  · intro inv hinv
    rcases createInvoice_cases env items counters invoices organizationId payload with
      ⟨e, c, h⟩ | ⟨inv2, p, h, hp, hnew, -⟩
    · rw [h] at hinv
      exact Except.noConfusion hinv
    · rw [h] at hinv
      have hi : inv2 = inv := by injection hinv
      subst hi
      obtain ⟨k1, k2⟩ := prepared_channel _ _ _ p hp
      have hitems : inv2.items = p.mappedItems := by rw [hnew]; rfl
      have hc : asNumber inv2.cgstTotal = p.totals.cgstTotal := by rw [hnew]; rfl
      have hs : asNumber inv2.sgstTotal = p.totals.sgstTotal := by rw [hnew]; rfl
      have hg : asNumber inv2.igstTotal = p.totals.igstTotal := by rw [hnew]; rfl
      refine ⟨fun l hl => k1 l (hitems ▸ hl), ?_⟩
      rw [hc, hs, hg]
      exact k2
  · intro hk hb
    have key : ∀ d, findById (ops.foldl (applyOp itemColl invoiceId) stored) invoiceId = some d →
        TaxInChannel d := by
      induction ops generalizing stored with
      | nil => exact hb
      | cons op rest ih =>
        rw [List.foldl_cons]
        exact ih _ (fun o ho => hk o (List.mem_cons_of_mem _ ho))
          (applyOp_channel itemColl invoiceId stored op (hk op (List.mem_cons_self _ _)) hb)
    intro d hd
    have hch := key d hd
    refine ⟨hch, fun h => hch.2.2 (by rw [h]; decide), fun h => hch.2.1 h⟩

theorem tax_totals_in_channel_witness :
    TaxInChannel oversoldInvoice
    ∧ ∀ d, findById
        ([InvoiceOp.update { shippingCharge := some 50 },
          InvoiceOp.update { supplyType := some "inter", items := some [sampleLine] }].foldl
          (applyOp [] "inv9") [oversoldInvoice]) "inv9" = some d →
        TaxInChannel d
        ∧ (d.supplyType = "intra" → asNumber d.igstTotal = 0)
        ∧ (d.supplyType = "inter" → asNumber d.cgstTotal = 0 ∧ asNumber d.sgstTotal = 0) :=
  ⟨(tax_totals_in_channel sampleEnv [stockItem] [] [] (some sampleOrg) oversellBody [] "inv9"
      [oversoldInvoice] []).1 oversoldInvoice (by rw [createInvoice_oversell]),
    (tax_totals_in_channel sampleEnv [stockItem] [] [] (some sampleOrg) oversellBody [] "inv9"
      [oversoldInvoice]
      [InvoiceOp.update { shippingCharge := some 50 },
        InvoiceOp.update { supplyType := some "inter", items := some [sampleLine] }]).2
      (by
        intro op hop
        simp only [List.mem_cons, List.mem_singleton, List.not_mem_nil, or_false] at hop
        rcases hop with h | h <;> subst h <;> simp [KeepsChannel])
      (by
        intro d hd
        have hd2 : oversoldInvoice = d := by
          have : findById [oversoldInvoice] "inv9" = some oversoldInvoice := by decide
          rw [this] at hd
          exact Option.some.inj hd
        rw [← hd2]
        exact (tax_totals_in_channel sampleEnv [stockItem] [] [] (some sampleOrg) oversellBody
          [] "inv9" [oversoldInvoice] []).1 oversoldInvoice (by rw [createInvoice_oversell]))⟩

end Saral
